import Mathlib

/-!
Standings derivation of f1-cli

A shallow embedding of `data/api_client.go` (the points tables, the
disqualification registry, the session result resolver, the standings
accumulator, the ranking step and the constructor aggregator), of the location
matcher of `commands/results.go` and of the session loop of
`commands/points.go`, together with theorems about them.

Modelling conventions.

* Go `int` is `Int`.  The only arithmetic on it is `Points += p` with `p ≤ 25`,
  `Wins++`, sums of those totals and the gap `leader - own` of two totals that
  start at zero, so the 64-bit range cannot be left on a list of records that
  fits in memory.
* `time.Time` is the instant it denotes, an `Int`; `t.After(u)` is `u < t`.
* A Go `map[K]V` is an association list with first-match lookup (`mapGet`)
  and in-place update (`mapSet`).  Go leaves the order of `range` over a map
  unspecified: every function that ranges over a map takes the order of that
  execution as an argument, and theorems hold for every order that is a
  permutation of the map's entries.
* An HTTP request followed by `json.Unmarshal` is the decoded response,
  `Except String (List _)`; the `String` is the Go `error`.
* Both session loops call `time.Now()` once in every iteration, after the
  requests of the iterations before it.  `DataSource.now k` is the value that
  the call of iteration `k` returns (`k` counts from 0); nothing is assumed of
  these readings.
-/

namespace F1

/-! ## Go maps -/

/-- The Go expression `v, ok := m[k]`: `some v` when the key is present. -/
def mapGet {κ ν : Type} [DecidableEq κ] : List (κ × ν) → κ → Option ν
  | [], _ => none
  | (k', v) :: rest, k => if k' = k then some v else mapGet rest k

/-- The Go statement `m[k] = v`: overwrite the entry of `k`, or add one. -/
def mapSet {κ ν : Type} [DecidableEq κ] : List (κ × ν) → κ → ν → List (κ × ν)
  | [], k, v => [(k, v)]
  | (k', v') :: rest, k, v =>
    if k' = k then (k, v) :: rest else (k', v') :: mapSet rest k v

/-! ## Data model (`data/api_client.go`, `data/f1data.go`) -/

/-- Go struct `OpenF1Driver`. -/
structure OpenF1Driver where
  DriverNumber : Int
  BroadcastName : String
  FullName : String
  NameAcronym : String
  TeamName : String
  TeamColour : String
  FirstName : String
  LastName : String
  HeadshotUrl : String
  CountryCode : String
  deriving DecidableEq, Repr

/-- Go struct `OpenF1Session`, with the fields the standings code reads. -/
structure OpenF1Session where
  SessionKey : Int
  SessionName : String
  DateStart : Int
  SessionType : String
  Location : String
  deriving DecidableEq, Repr

/-- Go struct `OpenF1Position`. -/
structure OpenF1Position where
  Date : Int
  DriverNumber : Int
  MeetingKey : Int
  Position : Int
  SessionKey : Int
  deriving DecidableEq, Repr

/-- Go struct `Driver`. -/
structure Driver where
  ID : Int
  Name : String
  Number : Int
  Team : String
  Country : String
  Points : Int
  Wins : Int
  Podiums : Int
  Championships : Int
  deriving DecidableEq, Repr

/-- Go struct `StandingData`. -/
structure StandingData where
  Points : Int
  Wins : Int
  deriving DecidableEq, Repr

/-- Go struct `StandingEntry`. -/
structure StandingEntry where
  Position : Int
  Driver : String
  Team : String
  Points : Int
  Wins : Int
  Gap : String
  deriving DecidableEq, Repr

/-! ## Points model and disqualification registry -/

/-- Go variable `PointsSystem`. -/
def PointsSystem : List (Int × Int) :=
  [(1, 25), (2, 18), (3, 15), (4, 12), (5, 10), (6, 8), (7, 6), (8, 4), (9, 2), (10, 1)]

/-- Go variable `SprintPointsSystem`. -/
def SprintPointsSystem : List (Int × Int) :=
  [(1, 8), (2, 7), (3, 6), (4, 5), (5, 4), (6, 3), (7, 2), (8, 1)]

/-- Go variable `DisqualifiedDrivers`. -/
def DisqualifiedDrivers : List (Int × List Int) :=
  [(9998, [16, 44, 10]), (10028, [23, 30, 87])]

/-- Go variable `PositionAdjustments`. -/
def PositionAdjustments : List (Int × List (Int × Int)) :=
  [(9693, [(12, 4), (23, 5)]),
   (9998, [(31, 5), (12, 6), (23, 7), (87, 8), (18, 9), (55, 10)]),
   (10028, [(63, 4), (18, 5), (22, 6), (12, 7), (10, 8)])]

/-! ## Standings accumulator: the body of the result loop
(`GetCurrentDriverStandings`, lines 357-400) -/

/-- Lines 358-363: the table is picked from the session name. -/
def selectPointsSystem (session : OpenF1Session) : List (Int × Int) :=
  if session.SessionName = "Sprint" then SprintPointsSystem else PointsSystem

/-- Lines 369-378: the scan of the session's disqualification list. -/
def isDisqualified (dsq : List (Int × List Int)) (sessionKey driverNumber : Int) : Bool :=
  match mapGet dsq sessionKey with
  | some dsqDrivers => dsqDrivers.any (fun dsqDriver => decide (dsqDriver = driverNumber))
  | none => false

/-- Lines 382-389: the position after the adjustment table is consulted. -/
def finalPosition (adj : List (Int × List (Int × Int))) (sessionKey : Int)
    (result : OpenF1Position) : Int :=
  match mapGet adj sessionKey with
  | some adjustments =>
    match mapGet adjustments result.DriverNumber with
    | some newPosition => newPosition
    | none => result.Position
  | none => result.Position

/-- Lines 391-393: `if points, hasPoints := pointsSystem[finalPosition]; hasPoints`. -/
def awardPoints (pointsSystem : List (Int × Int)) (position : Int)
    (standing : StandingData) : StandingData :=
  match mapGet pointsSystem position with
  | some points => { standing with Points := standing.Points + points }
  | none => standing

/-- Lines 395-397: a win is counted for position 1 of a session named Race. -/
def awardWin (session : OpenF1Session) (position : Int) (standing : StandingData) :
    StandingData :=
  if position = 1 ∧ session.SessionName = "Race" then
    { standing with Wins := standing.Wins + 1 }
  else standing

/-- Lines 367-399: one iteration of the result loop.  `driverPoints` maps a
driver number to a pointer, so updating the pointee is `mapSet` at that key. -/
def awardResult (dsq : List (Int × List Int)) (adj : List (Int × List (Int × Int)))
    (session : OpenF1Session) (driverPoints : List (Int × StandingData))
    (result : OpenF1Position) : List (Int × StandingData) :=
  match mapGet driverPoints result.DriverNumber with
  | none => driverPoints
  | some standing =>
    if isDisqualified dsq session.SessionKey result.DriverNumber then driverPoints
    else
      let position := finalPosition adj session.SessionKey result
      mapSet driverPoints result.DriverNumber
        (awardWin session position (awardPoints (selectPointsSystem session) position standing))

/-- Lines 366-400: the result loop of one session. -/
def awardSession (dsq : List (Int × List Int)) (adj : List (Int × List (Int × Int)))
    (session : OpenF1Session) (driverPoints : List (Int × StandingData))
    (results : List OpenF1Position) : List (Int × StandingData) :=
  results.foldl (awardResult dsq adj session) driverPoints

/-! ## External data source -/

/-- What one execution gets from outside: the decoded response of each request
the code makes, and the readings of the clock. -/
structure DataSource where
  /-- Response to the request of `GetRaceSessions`. -/
  raceSessions : Except String (List OpenF1Session)
  /-- Response to the request of `GetSprintSessions`. -/
  sprintSessions : Except String (List OpenF1Session)
  /-- Response to the request of `GetDrivers`. -/
  drivers : Except String (List OpenF1Driver)
  /-- Response to `position?session_key=k`. -/
  positions : Int → Except String (List OpenF1Position)
  /-- Value of `time.Now()` in iteration `k` of the session loop (line 347 of
  `data/api_client.go`, line 90 of `commands/points.go`). -/
  now : Nat → Int

/-- The order in which one execution ranges over each of its maps. -/
structure RangeOrder where
  finalPositions : List (Int × OpenF1Position) → List (Int × OpenF1Position)
  driverPoints : List (Int × StandingData) → List (Int × StandingData)
  teamPoints : List (String × Int) → List (String × Int)

/-- A range over a map visits every entry once. -/
def RangeOrder.Valid (ord : RangeOrder) : Prop :=
  (∀ m, (ord.finalPositions m).Perm m) ∧ (∀ m, (ord.driverPoints m).Perm m) ∧
    (∀ m, (ord.teamPoints m).Perm m)

/-- The range order that visits entries in order of first insertion. -/
def insertionOrder : RangeOrder := ⟨id, id, id⟩

/-! ## Session list -/

/-- Go method `GetRaceSessions`, applied to the response of its request. -/
def GetRaceSessions (resp : Except String (List OpenF1Session)) :
    Except String (List OpenF1Session) :=
  match resp with
  | .error err => .error err
  | .ok allSessions => .ok (allSessions.filter (fun session => session.SessionName = "Race"))

/-- Go method `GetSprintSessions`, applied to the response of its request. -/
def GetSprintSessions (resp : Except String (List OpenF1Session)) :
    Except String (List OpenF1Session) :=
  match resp with
  | .error err => .error err
  | .ok allSessions => .ok (allSessions.filter (fun session => session.SessionName = "Sprint"))

/-- Go method `GetAllRaceAndSprintSessions`. -/
def GetAllRaceAndSprintSessions (src : DataSource) : Except String (List OpenF1Session) :=
  match GetRaceSessions src.raceSessions with
  | .error err => .error err
  | .ok raceSessions =>
    match GetSprintSessions src.sprintSessions with
    | .error _ => .ok raceSessions
    | .ok sprintSessions => .ok (raceSessions ++ sprintSessions)

/-! ## Roster -/

/-- Lines 123-143 of `GetDrivers`: the loop that drops repeated numbers. -/
def dedupDrivers : List Int → List OpenF1Driver → List Driver
  | _, [] => []
  | seen, driver :: rest =>
    if driver.DriverNumber ∈ seen then dedupDrivers seen rest
    else
      { ID := driver.DriverNumber, Name := driver.FullName, Number := driver.DriverNumber,
        Team := driver.TeamName, Country := driver.CountryCode, Points := 0, Wins := 0,
        Podiums := 0, Championships := 0 } :: dedupDrivers (driver.DriverNumber :: seen) rest

/-- Go method `GetDrivers`, applied to the response of its request. -/
def GetDrivers (resp : Except String (List OpenF1Driver)) : Except String (List Driver) :=
  match resp with
  | .error err => .error err
  | .ok openF1Drivers => .ok (dedupDrivers [] openF1Drivers)

/-! ## Session result resolver (`GetSessionResults`) -/

/-- Lines 267-269: one iteration of the loop that fills `finalPositions`. -/
def keepLatest (finalPositions : List (Int × OpenF1Position)) (pos : OpenF1Position) :
    List (Int × OpenF1Position) :=
  match mapGet finalPositions pos.DriverNumber with
  | none => mapSet finalPositions pos.DriverNumber pos
  | some existing =>
    if existing.Date < pos.Date then mapSet finalPositions pos.DriverNumber pos
    else finalPositions

/-- Lines 265-270: the map `finalPositions` after the loop. -/
def resolveFinalPositions (positions : List OpenF1Position) : List (Int × OpenF1Position) :=
  positions.foldl keepLatest []

/-- Go method `GetSessionResults`, applied to the response of its request;
`order` is the order of the range over `finalPositions` (lines 273-275). -/
def GetSessionResults (order : List (Int × OpenF1Position) → List (Int × OpenF1Position))
    (resp : Except String (List OpenF1Position)) : Except String (List OpenF1Position) :=
  match resp with
  | .error err => .error err
  | .ok positions => .ok ((order (resolveFinalPositions positions)).map Prod.snd)

/-! ## Standings accumulator: the session loop -/

/-- The sessions of the loop from iteration `k` on, each paired with the value
that `time.Now()` returns in its iteration; `now` is the clock of the
execution. -/
def readings (now : Nat → Int) : Nat → List OpenF1Session → List (Int × OpenF1Session)
  | _, [] => []
  | k, session :: rest => (now k, session) :: readings now (k + 1) rest

/-- Lines 345-401: one iteration of the session loop; `now` is the value that
`time.Now()` returns in this iteration (line 347). -/
def processSession (dsq : List (Int × List Int)) (adj : List (Int × List (Int × Int)))
    (src : DataSource) (ord : RangeOrder) (now : Int)
    (driverPoints : List (Int × StandingData)) (session : OpenF1Session) :
    List (Int × StandingData) :=
  if now < session.DateStart then driverPoints
  else
    match GetSessionResults ord.finalPositions (src.positions session.SessionKey) with
    | .error _ => driverPoints
    | .ok results => awardSession dsq adj session driverPoints results

/-- Lines 331-342: the three maps seeded from the roster. -/
def initDriverPoints (drivers : List Driver) : List (Int × StandingData) :=
  drivers.foldl (fun m driver => mapSet m driver.Number { Points := 0, Wins := 0 }) []

/-- Map `driverNames` of lines 332-340. -/
def initDriverNames (drivers : List Driver) : List (Int × String) :=
  drivers.foldl (fun m driver => mapSet m driver.Number driver.Name) []

/-- Map `driverTeams` of lines 333-341. -/
def initDriverTeams (drivers : List Driver) : List (Int × String) :=
  drivers.foldl (fun m driver => mapSet m driver.Number driver.Team) []

/-- Lines 345-401: the session loop over sessions paired with the clock reading
of their iteration. -/
def sessionLoop (dsq : List (Int × List Int)) (adj : List (Int × List (Int × Int)))
    (src : DataSource) (ord : RangeOrder) (timed : List (Int × OpenF1Session))
    (driverPoints : List (Int × StandingData)) : List (Int × StandingData) :=
  timed.foldl (fun driverPoints reading =>
    processSession dsq adj src ord reading.1 driverPoints reading.2) driverPoints

/-- Lines 331-401: the map `driverPoints` after the session loop; iteration `k`
reads the clock as `src.now k`. -/
def accumulate (dsq : List (Int × List Int)) (adj : List (Int × List (Int × Int)))
    (src : DataSource) (ord : RangeOrder) (drivers : List Driver)
    (sessions : List OpenF1Session) : List (Int × StandingData) :=
  sessionLoop dsq adj src ord (readings src.now 0 sessions) (initDriverPoints drivers)

/-! ## Ranking and gaps -/

/-- The swap test of lines 419-420 and 475-476, read with `a = standings[j]`
and `b = standings[i]`. -/
def outranks (a b : StandingEntry) : Bool :=
  decide (a.Points > b.Points) || (decide (a.Points = b.Points) && decide (a.Wins > b.Wins))

/-- Lines 419-422: the body of the inner loop at indices `i < j`. -/
def compareSwap (i j : Nat) (standings : List StandingEntry) : List StandingEntry :=
  match standings[i]?, standings[j]? with
  | some si, some sj => if outranks sj si then (standings.set i sj).set j si else standings
  | _, _ => standings

/-- Lines 418-423: `for j := i + 1; j < len(standings); j++`. -/
def innerLoop (i : Nat) (standings : List StandingEntry) : List StandingEntry :=
  (List.range' (i + 1) (standings.length - (i + 1))).foldl (fun s j => compareSwap i j s)
    standings

/-- Lines 417-424 and 473-480: `for i := 0; i < len(standings)-1; i++`. -/
def sortStandings (standings : List StandingEntry) : List StandingEntry :=
  (List.range (standings.length - 1)).foldl (fun s i => innerLoop i s) standings

/-- Lines 427-434 and 483-490: rank and gap to the leader; `"-%d"` of Go's
`fmt.Sprintf` is a minus sign followed by the decimal rendering. -/
def assignPositionAndGap (standings : List StandingEntry) : List StandingEntry :=
  standings.mapIdx (fun i entry =>
    { entry with
      Position := (i : Int) + 1
      Gap := if i = 0 then "Leader"
             else "-" ++ toString (((standings[0]?).map (·.Points)).getD 0 - entry.Points) })

/-- The sort followed by the rank and gap loop. -/
def rankStandings (standings : List StandingEntry) : List StandingEntry :=
  assignPositionAndGap (sortStandings standings)

/-! ## Driver and constructor standings -/

/-- Lines 404-414: one entry per key of `driverPoints` that has a name. -/
def driverEntries (driverNames driverTeams : List (Int × String))
    (visited : List (Int × StandingData)) : List StandingEntry :=
  visited.filterMap (fun kv =>
    match mapGet driverNames kv.1 with
    | some driverName =>
      some { Position := 0, Driver := driverName, Team := (mapGet driverTeams kv.1).getD "",
             Points := kv.2.Points, Wins := kv.2.Wins, Gap := "" }
    | none => none)

/-- Go method `GetCurrentDriverStandings`; the package variables
`DisqualifiedDrivers` and `PositionAdjustments` are passed as `dsq` and `adj`. -/
def GetCurrentDriverStandings (dsq : List (Int × List Int))
    (adj : List (Int × List (Int × Int))) (src : DataSource) (ord : RangeOrder) :
    Except String (List StandingEntry) :=
  match GetAllRaceAndSprintSessions src with
  | .error err => .error err
  | .ok sessions =>
    match GetDrivers src.drivers with
    | .error err => .error err
    | .ok drivers =>
      .ok (rankStandings (driverEntries (initDriverNames drivers) (initDriverTeams drivers)
        (ord.driverPoints (accumulate dsq adj src ord drivers sessions))))

/-- Lines 448-459: maps `teamPoints`, `teamWins`, `teamCountries` after the loop. -/
def teamTotals (driverStandings : List StandingEntry) :
    List (String × Int) × List (String × Int) × List (String × String) :=
  driverStandings.foldl (fun maps standing =>
    (mapSet maps.1 standing.Team ((mapGet maps.1 standing.Team).getD 0 + standing.Points),
     mapSet maps.2.1 standing.Team ((mapGet maps.2.1 standing.Team).getD 0 + standing.Wins),
     match mapGet maps.2.2 standing.Team with
     | some _ => maps.2.2
     | none => mapSet maps.2.2 standing.Team standing.Team)) ([], [], [])

/-- Lines 462-470: one entry per key of `teamPoints`. -/
def teamEntries (teamWins : List (String × Int)) (teamCountries : List (String × String))
    (visited : List (String × Int)) : List StandingEntry :=
  visited.map (fun kv =>
    { Position := 0, Driver := kv.1, Team := (mapGet teamCountries kv.1).getD "",
      Points := kv.2, Wins := (mapGet teamWins kv.1).getD 0, Gap := "" })

/-- Go method `GetCurrentConstructorStandings`. -/
def GetCurrentConstructorStandings (dsq : List (Int × List Int))
    (adj : List (Int × List (Int × Int))) (src : DataSource) (ord : RangeOrder) :
    Except String (List StandingEntry) :=
  match GetCurrentDriverStandings dsq adj src ord with
  | .error err => .error err
  | .ok driverStandings =>
    let maps := teamTotals driverStandings
    .ok (rankStandings (teamEntries maps.2.1 maps.2.2 (ord.teamPoints maps.1)))

/-! ## Helpers for statements -/

/-- The data source with every session whose name is neither Race nor Sprint
removed from both session responses; nothing else changes. -/
def dropOtherKinds (src : DataSource) : DataSource :=
  { src with
    raceSessions := src.raceSessions.map
      (List.filter (fun s => decide (s.SessionName = "Race" ∨ s.SessionName = "Sprint")))
    sprintSessions := src.sprintSessions.map
      (List.filter (fun s => decide (s.SessionName = "Race" ∨ s.SessionName = "Sprint"))) }

/-- What `finalPositions` holds for a driver number after the loop: nothing
when the number does not occur in the input, and otherwise an occurrence of
one of its records such that each of its records before that occurrence is
strictly earlier and none after it is later. -/
def Selected (positions : List OpenF1Position) (driver : Int) :
    Option OpenF1Position → Prop
  | none => driver ∉ positions.map (·.DriverNumber)
  | some r => r.DriverNumber = driver ∧ ∃ before after, positions = before ++ r :: after ∧
      (∀ q ∈ before, q.DriverNumber = driver → q.Date < r.Date) ∧
      (∀ q ∈ after, q.DriverNumber = driver → q.Date ≤ r.Date)

/-- The order of the ranking: `a` may stand directly before `b` when it has
more points, or the same points and at least as many wins. -/
def RankedBefore (a b : StandingEntry) : Prop :=
  a.Points > b.Points ∨ (a.Points = b.Points ∧ a.Wins ≥ b.Wins)

/-- The entry at index `p` is outranked by no entry at a later index. -/
def Dominates (standings : List StandingEntry) (p : Nat) : Prop :=
  ∀ q a b, p < q → standings[p]? = some a → standings[q]? = some b → outranks b a = false

/-- A small data source used to instantiate theorems: the race 9998 and the
sprint 10028 are over, the race 7777 has not started, every clock reading is
100, and the roster response lists driver 16 twice. -/
def exampleSource : DataSource where
  raceSessions := .ok [⟨9998, "Race", 10, "Race", "Shanghai"⟩,
    ⟨10028, "Sprint", 20, "Race", "Miami"⟩, ⟨7777, "Race", 900, "Race", "Monza"⟩]
  sprintSessions := .ok [⟨9998, "Race", 10, "Race", "Shanghai"⟩,
    ⟨10028, "Sprint", 20, "Race", "Miami"⟩, ⟨7777, "Race", 900, "Race", "Monza"⟩]
  drivers := .ok [⟨16, "C LECLERC", "Charles LECLERC", "LEC", "Ferrari", "E80020", "Charles",
      "Leclerc", "", "MON"⟩,
    ⟨31, "E OCON", "Esteban OCON", "OCO", "Haas F1 Team", "B6BABD", "Esteban", "Ocon", "", "FRA"⟩,
    ⟨16, "C LECLERC", "Charles LECLERC", "LEC", "Ferrari", "E80020", "Charles", "Leclerc", "",
      "MON"⟩,
    ⟨81, "O PIASTRI", "Oscar PIASTRI", "PIA", "McLaren", "FF8000", "Oscar", "Piastri", "", "AUS"⟩,
    ⟨4, "L NORRIS", "Lando NORRIS", "NOR", "McLaren", "FF8000", "Lando", "Norris", "", "GBR"⟩]
  positions := fun sessionKey =>
    if sessionKey = 9998 then
      .ok [⟨30, 16, 1255, 2, 9998⟩, ⟨30, 81, 1255, 1, 9998⟩, ⟨31, 31, 1255, 7, 9998⟩,
        ⟨35, 16, 1255, 1, 9998⟩, ⟨35, 81, 1255, 2, 9998⟩, ⟨36, 4, 1255, 3, 9998⟩,
        ⟨40, 81, 1255, 1, 9998⟩, ⟨40, 16, 1255, 2, 9998⟩, ⟨41, 99, 1255, 4, 9998⟩]
    else if sessionKey = 10028 then
      .ok [⟨50, 4, 1259, 1, 10028⟩, ⟨50, 81, 1259, 2, 10028⟩, ⟨50, 31, 1259, 9, 10028⟩]
    else .error "API request failed with status: 404"
  now := fun _ => 100

/-- Rank and gap of a returned standings list: the entry at index `i` has
position `i + 1`; the entry at index 0 has the gap `Leader`; every later entry
has as gap a minus sign followed by the decimal rendering of the points of
entry 0 minus its own points, a difference that is not negative. -/
def PositionsAndGaps (ranked : List StandingEntry) : Prop :=
  ∀ (i : Nat) (entry : StandingEntry), ranked[i]? = some entry →
    entry.Position = (i : Int) + 1 ∧
    (i = 0 → entry.Gap = "Leader") ∧
    (0 < i → ∃ leader, ranked[0]? = some leader ∧
      entry.Gap = "-" ++ toString (leader.Points - entry.Points) ∧
      0 ≤ leader.Points - entry.Points)

/-- The data source with only the sessions that satisfy `keep` left in both
session responses; nothing else changes. -/
def keepSessions (keep : OpenF1Session → Bool) (src : DataSource) : DataSource :=
  { src with
    raceSessions := src.raceSessions.map (List.filter keep)
    sprintSessions := src.sprintSessions.map (List.filter keep) }

/-- The request for the results of the session succeeds. -/
def resultsAvailable (src : DataSource) (session : OpenF1Session) : Bool :=
  match src.positions session.SessionKey with
  | .ok _ => true
  | .error _ => false

/-- The session has started when the loop begins: its start time is not after
the first clock reading. -/
def hasStarted (src : DataSource) (session : OpenF1Session) : Bool :=
  decide (session.DateStart ≤ src.now 0)

/-- Two executions, with the clocks `now` and `now'`, see each session of the
list alike: every reading of the one clock and every reading of the other fall
on the same side of the session's start time.  With `now' = now` it says that
no session of the list starts while the loop runs. -/
def SameStatus (now now' : Nat → Int) (sessions : List OpenF1Session) : Prop :=
  ∀ session ∈ sessions, ∀ k k' : Nat,
    (now k < session.DateStart ↔ now' k' < session.DateStart)

/-- A data source on which the clock advances by 5 from one iteration of the
session loop to the next: race 901 starts at 2, race 900 started at -10 and
race 902 starts at 3; each has one result, a first place, for drivers 16, 81
and 4 in turn. -/
def clockSource : DataSource where
  raceSessions := .ok [⟨901, "Race", 2, "Race", "Imola"⟩, ⟨900, "Race", -10, "Race", "Miami"⟩,
    ⟨902, "Race", 3, "Race", "Monaco"⟩]
  sprintSessions := .ok []
  drivers := .ok [⟨16, "C LECLERC", "Charles LECLERC", "LEC", "Ferrari", "E80020", "Charles",
      "Leclerc", "", "MON"⟩,
    ⟨81, "O PIASTRI", "Oscar PIASTRI", "PIA", "McLaren", "FF8000", "Oscar", "Piastri", "", "AUS"⟩,
    ⟨4, "L NORRIS", "Lando NORRIS", "NOR", "McLaren", "FF8000", "Lando", "Norris", "", "GBR"⟩]
  positions := fun sessionKey =>
    if sessionKey = 901 then .ok [⟨4, 16, 1, 1, 901⟩]
    else if sessionKey = 900 then .ok [⟨-5, 81, 1, 1, 900⟩]
    else if sessionKey = 902 then .ok [⟨9, 4, 1, 1, 902⟩]
    else .error "API request failed with status: 404"
  now := fun k => 5 * (k : Int)

/-- The data source `clockSource` with race 900, whose result request fails,
followed by race 902. -/
def failingSource : DataSource :=
  { clockSource with
    raceSessions := .ok [⟨900, "Race", -10, "Race", "Miami"⟩, ⟨902, "Race", 3, "Race", "Monaco"⟩]
    positions := fun sessionKey =>
      if sessionKey = 902 then .ok [⟨9, 4, 1, 1, 902⟩] else .error "failed to make request" }

/-- The data source `clockSource` with race 903, which starts at 100, followed
by race 902. -/
def futureSource : DataSource :=
  { clockSource with
    raceSessions := .ok [⟨903, "Race", 100, "Race", "Monza"⟩, ⟨902, "Race", 3, "Race", "Monaco"⟩] }

/-- Driver name, points and wins of each entry of a standings result. -/
def standingsTable (result : Except String (List StandingEntry)) : List (String × Int × Int) :=
  match result with
  | .ok ranked => ranked.map (fun entry => (entry.Driver, entry.Points, entry.Wins))
  | .error _ => []

/-- The fields of an entry that the ranking step does not write. -/
def entryData (entry : StandingEntry) : String × String × Int × Int :=
  (entry.Driver, entry.Team, entry.Points, entry.Wins)

/-- Sum of the points held in the map `driverPoints`. -/
def totalPoints (driverPoints : List (Int × StandingData)) : Int :=
  (driverPoints.map (fun kv => kv.2.Points)).sum

/-- Sum of the points of the driver entries of one team. -/
def teamPointsOf (driverStandings : List StandingEntry) (team : String) : Int :=
  ((driverStandings.filter (fun d => decide (d.Team = team))).map (·.Points)).sum

/-- Sum of the wins of the driver entries of one team. -/
def teamWinsOf (driverStandings : List StandingEntry) (team : String) : Int :=
  ((driverStandings.filter (fun d => decide (d.Team = team))).map (·.Wins)).sum

/-- Lines 447-490 of `GetCurrentConstructorStandings`: the list it returns once
the driver standings are there; `order` is the order of the range over
`teamPoints`. -/
def constructorStandingsFrom (order : List (String × Int) → List (String × Int))
    (driverStandings : List StandingEntry) : List StandingEntry :=
  rankStandings (teamEntries (teamTotals driverStandings).2.1 (teamTotals driverStandings).2.2
    (order (teamTotals driverStandings).1))

/-- Points that a scored result adds: the table value at the adjusted
position, zero when the table has no such position. -/
def resultPoints (adj : List (Int × List (Int × Int))) (session : OpenF1Session)
    (result : OpenF1Position) : Int :=
  (mapGet (selectPointsSystem session) (finalPosition adj session.SessionKey result)).getD 0

/-- Wins that a scored result adds. -/
def resultWins (adj : List (Int × List (Int × Int))) (session : OpenF1Session)
    (result : OpenF1Position) : Int :=
  if finalPosition adj session.SessionKey result = 1 ∧ session.SessionName = "Race" then 1 else 0

/-- The result is one of `driver` and its driver is not disqualified in the
session. -/
def countsFor (dsq : List (Int × List Int)) (session : OpenF1Session) (driver : Int)
    (result : OpenF1Position) : Bool :=
  decide (result.DriverNumber = driver) &&
    !isDisqualified dsq session.SessionKey result.DriverNumber

/-- Points and wins that a list of results of one session holds for `driver`. -/
def sessionGain (dsq : List (Int × List Int)) (adj : List (Int × List (Int × Int)))
    (session : OpenF1Session) (results : List OpenF1Position) (driver : Int) : Int × Int :=
  ((((results.filter (countsFor dsq session driver)).map (resultPoints adj session)).sum),
   (((results.filter (countsFor dsq session driver)).map (resultWins adj session)).sum))

/-- Points and wins that one iteration of the session loop holds for
`driver`; `reading` is the clock reading of the iteration and its session.
Nothing for a session that has not started at that reading or whose result
request fails. -/
def iterationGain (dsq : List (Int × List Int)) (adj : List (Int × List (Int × Int)))
    (src : DataSource) (order : List (Int × OpenF1Position) → List (Int × OpenF1Position))
    (driver : Int) (reading : Int × OpenF1Session) : Int × Int :=
  if reading.1 < reading.2.DateStart then (0, 0)
  else
    match GetSessionResults order (src.positions reading.2.SessionKey) with
    | .error _ => (0, 0)
    | .ok results => sessionGain dsq adj reading.2 results driver

/-- The entry with a gain added. -/
def addGain (gain : Int × Int) (standing : StandingData) : StandingData :=
  { Points := standing.Points + gain.1, Wins := standing.Wins + gain.2 }

/-! ## Location matcher of the results command (`commands/results.go`) -/

/-- The bytes of a string of ASCII characters.  A Go string is its sequence of
bytes: `len` counts bytes and `s[i:j]` slices bytes. -/
def asciiBytes (s : String) : List Nat :=
  s.toList.map Char.toNat

/-- Go function `findInString` (lines 230-237): the loop runs for
`i = 0 .. len(s) - len(substr)`, not at all when that bound is negative. -/
def findInString (s substr : List Nat) : Bool :=
  (List.range (s.length + 1 - substr.length)).any
    (fun i => decide ((s.drop i).take substr.length = substr))

/-- Go function `contains` (lines 222-228); `s[:n]` is `take n` and
`s[len(s)-n:]` is `drop (len(s) - n)`. -/
def contains (s substr : List Nat) : Bool :=
  decide (s.length ≥ substr.length) &&
    (decide (s = substr) ||
     decide (s.take substr.length = substr) ||
     decide (s.drop (s.length - substr.length) = substr) ||
     findInString s substr)

/-! ## Points command (`commands/points.go`, lines 83-161) -/

/-- Go struct `PointsBreakdown`. -/
structure PointsBreakdown where
  RaceName : String
  Location : String
  Date : Int
  SessionType : String
  Position : Int
  Points : Int
  IsAdjusted : Bool
  deriving DecidableEq, Repr

/-- The local variables `pointsBreakdown`, `totalPoints` and `totalWins` of
the Go function `Points`. -/
structure PointsTotals where
  pointsBreakdown : List PointsBreakdown
  totalPoints : Int
  totalWins : Int
  deriving DecidableEq, Repr

/-- Lines 124-132: the flag `isAdjusted`, set together with `finalPosition`. -/
def isAdjusted (adj : List (Int × List (Int × Int))) (sessionKey : Int)
    (result : OpenF1Position) : Bool :=
  match mapGet adj sessionKey with
  | some adjustments => (mapGet adjustments result.DriverNumber).isSome
  | none => false

/-- Lines 102-157: the body run for the result of the driver. -/
def scoreOwnResult (dsq : List (Int × List Int)) (adj : List (Int × List (Int × Int)))
    (session : OpenF1Session) (totals : PointsTotals) (result : OpenF1Position) :
    PointsTotals :=
  if isDisqualified dsq session.SessionKey result.DriverNumber then totals
  else
    let pointsSystem := selectPointsSystem session
    let position := finalPosition adj session.SessionKey result
    let points := (mapGet pointsSystem position).getD 0
    let listed : PointsTotals :=
      if points > 0 ∨ isAdjusted adj session.SessionKey result = true then
        { pointsBreakdown := totals.pointsBreakdown ++
            [{ RaceName := session.Location, Location := session.Location,
               Date := session.DateStart, SessionType := session.SessionName,
               Position := position, Points := points,
               IsAdjusted := isAdjusted adj session.SessionKey result }]
          totalPoints := totals.totalPoints + points
          totalWins := totals.totalWins }
      else totals
    if position = 1 ∧ session.SessionName = "Race" then
      { listed with totalWins := listed.totalWins + 1 }
    else listed

/-- Lines 88-161: one iteration of the session loop; `now` is the value that
`time.Now()` returns in this iteration (line 90), and the inner loop stops at
the first result of the driver. -/
def pointsSession (dsq : List (Int × List Int)) (adj : List (Int × List (Int × Int)))
    (src : DataSource) (order : List (Int × OpenF1Position) → List (Int × OpenF1Position))
    (driverNumber : Int) (now : Int) (totals : PointsTotals) (session : OpenF1Session) :
    PointsTotals :=
  if now < session.DateStart then totals
  else
    match GetSessionResults order (src.positions session.SessionKey) with
    | .error _ => totals
    | .ok results =>
      match results.find? (fun result => decide (result.DriverNumber = driverNumber)) with
      | some result => scoreOwnResult dsq adj session totals result
      | none => totals

/-- Lines 83-161: the totals after the session loop of `Points`; iteration `k`
reads the clock as `src.now k`. -/
def pointsLoop (dsq : List (Int × List Int)) (adj : List (Int × List (Int × Int)))
    (src : DataSource) (order : List (Int × OpenF1Position) → List (Int × OpenF1Position))
    (driverNumber : Int) (sessions : List OpenF1Session) : PointsTotals :=
  (readings src.now 0 sessions).foldl (fun totals reading =>
    pointsSession dsq adj src order driverNumber reading.1 totals reading.2) ⟨[], 0, 0⟩

end F1


namespace F1

/-! ## Lemmas on Go maps -/

theorem mapGet_mapSet {κ ν : Type} [DecidableEq κ] (m : List (κ × ν)) (k k' : κ) (v : ν) :
    mapGet (mapSet m k v) k' = if k = k' then some v else mapGet m k' := by
  induction m with
  | nil => simp [mapSet, mapGet]
  | cons e rest ih =>
    obtain ⟨k0, v0⟩ := e
    by_cases h0 : k0 = k
    · subst h0
      by_cases h1 : k0 = k' <;> simp [mapSet, mapGet, h1]
    · by_cases h1 : k0 = k'
      · subst h1
        have : ¬ k = k0 := fun h => h0 h.symm
        simp [mapSet, mapGet, h0, this]
      · simp [mapSet, mapGet, h0, h1, ih]

theorem mapGet_mapSet_self {κ ν : Type} [DecidableEq κ] (m : List (κ × ν)) (k : κ) (v : ν) :
    mapGet (mapSet m k v) k = some v := by
  simp [mapGet_mapSet]

theorem mapGet_mapSet_ne {κ ν : Type} [DecidableEq κ] (m : List (κ × ν)) {k k' : κ} (v : ν)
    (h : k' ≠ k) : mapGet (mapSet m k v) k' = mapGet m k' := by
  have : ¬ k = k' := fun e => h e.symm
  simp [mapGet_mapSet, this]

theorem mapGet_eq_none_iff {κ ν : Type} [DecidableEq κ] (m : List (κ × ν)) (k : κ) :
    mapGet m k = none ↔ k ∉ m.map Prod.fst := by
  induction m with
  | nil => simp [mapGet]
  | cons e rest ih =>
    obtain ⟨k0, v0⟩ := e
    by_cases h0 : k0 = k
    · simp [mapGet, h0]
    · have : ¬ k = k0 := fun h => h0 h.symm
      simp [mapGet, h0, ih, this]

theorem mem_of_mapGet {κ ν : Type} [DecidableEq κ] {m : List (κ × ν)} {k : κ} {v : ν}
    (h : mapGet m k = some v) : (k, v) ∈ m := by
  induction m with
  | nil => simp [mapGet] at h
  | cons e rest ih =>
    obtain ⟨k0, v0⟩ := e
    by_cases h0 : k0 = k
    · simp [mapGet, h0] at h
      simp [h0, h]
    · simp [mapGet, h0] at h
      exact List.mem_cons_of_mem _ (ih h)

theorem keys_mapSet {κ ν : Type} [DecidableEq κ] (m : List (κ × ν)) (k : κ) (v : ν) :
    (mapSet m k v).map Prod.fst =
      if k ∈ m.map Prod.fst then m.map Prod.fst else m.map Prod.fst ++ [k] := by
  induction m with
  | nil => simp [mapSet]
  | cons e rest ih =>
    obtain ⟨k0, v0⟩ := e
    by_cases h0 : k0 = k
    · simp [mapSet, h0]
    · have : ¬ k = k0 := fun h => h0 h.symm
      simp only [mapSet, h0, if_false, List.map_cons, ih, List.mem_cons, this, false_or]
      split_ifs <;> simp

theorem isDisqualified_eq_true_iff (dsq : List (Int × List Int)) (sessionKey driverNumber : Int) :
    isDisqualified dsq sessionKey driverNumber = true ↔
      ∃ dsqDrivers, mapGet dsq sessionKey = some dsqDrivers ∧ driverNumber ∈ dsqDrivers := by
  unfold isDisqualified
  cases h : mapGet dsq sessionKey with
  | none => simp
  | some ds =>
    simp only [List.any_eq_true, decide_eq_true_eq, Option.some.injEq, exists_eq_left']
    constructor
    · rintro ⟨x, hx, rfl⟩
      exact hx
    · intro hx
      exact ⟨driverNumber, hx, rfl⟩

/-- One result leaves the entry of every other driver number untouched. -/
theorem awardResult_other (dsq : List (Int × List Int)) (adj : List (Int × List (Int × Int)))
    (session : OpenF1Session) (driverPoints : List (Int × StandingData))
    (result : OpenF1Position) {driver : Int} (h : driver ≠ result.DriverNumber) :
    mapGet (awardResult dsq adj session driverPoints result) driver =
      mapGet driverPoints driver := by
  unfold awardResult
  cases mapGet driverPoints result.DriverNumber with
  | none => rfl
  | some standing =>
    simp only
    split_ifs
    · rfl
    · exact mapGet_mapSet_ne _ _ h

/-- A result of a disqualified driver leaves the whole map as it was. -/
theorem awardResult_disqualified (dsq : List (Int × List Int))
    (adj : List (Int × List (Int × Int))) (session : OpenF1Session)
    (driverPoints : List (Int × StandingData)) (result : OpenF1Position)
    (h : isDisqualified dsq session.SessionKey result.DriverNumber = true) :
    awardResult dsq adj session driverPoints result = driverPoints := by
  unfold awardResult
  cases mapGet driverPoints result.DriverNumber with
  | none => rfl
  | some standing => simp [h]

/-! ## Points model (C1) -/

/-- C1: the points step of the accumulator adds, for every integer position,
the value of the reference table: 25, 18, 15, 12, 10, 8, 6, 4, 2, 1 for race
positions 1 to 10 and 8, 7, 6, 5, 4, 3, 2, 1 for sprint positions 1 to 8; every
other position (zero, negative, above the range) adds 0.  The step is a total
function, so an absent position is not an error, and it never touches the
win count. -/
theorem C1_points_lookup (standing : StandingData) (position : Int) :
    (awardPoints PointsSystem position standing).Points = standing.Points +
      (if position = 1 then 25 else if position = 2 then 18 else if position = 3 then 15
       else if position = 4 then 12 else if position = 5 then 10 else if position = 6 then 8
       else if position = 7 then 6 else if position = 8 then 4 else if position = 9 then 2
       else if position = 10 then 1 else 0) ∧
    (awardPoints SprintPointsSystem position standing).Points = standing.Points +
      (if position = 1 then 8 else if position = 2 then 7 else if position = 3 then 6
       else if position = 4 then 5 else if position = 5 then 4 else if position = 6 then 3
       else if position = 7 then 2 else if position = 8 then 1 else 0) ∧
    (awardPoints PointsSystem position standing).Wins = standing.Wins ∧
    (awardPoints SprintPointsSystem position standing).Wins = standing.Wins ∧
    ((position < 1 ∨ 10 < position) → mapGet PointsSystem position = none) ∧
    ((position < 1 ∨ 8 < position) → mapGet SprintPointsSystem position = none) := by
  have hrace : (position < 1 ∨ 10 < position) → mapGet PointsSystem position = none := by
    intro h
    simp only [PointsSystem, mapGet]
    repeat rw [if_neg (by omega)]
  have hsprint : (position < 1 ∨ 8 < position) → mapGet SprintPointsSystem position = none := by
    intro h
    simp only [SprintPointsSystem, mapGet]
    repeat rw [if_neg (by omega)]
  refine ⟨?_, ?_, ?_, ?_, hrace, hsprint⟩
  · have hcases : position = 1 ∨ position = 2 ∨ position = 3 ∨ position = 4 ∨ position = 5 ∨
        position = 6 ∨ position = 7 ∨ position = 8 ∨ position = 9 ∨ position = 10 ∨
        (position < 1 ∨ 10 < position) := by omega
    rcases hcases with h | h | h | h | h | h | h | h | h | h | h
    iterate 10 subst h; simp [awardPoints, PointsSystem, mapGet]
    simp only [awardPoints, hrace h]
    repeat rw [if_neg (by omega)]
    simp
  · have hcases : position = 1 ∨ position = 2 ∨ position = 3 ∨ position = 4 ∨ position = 5 ∨
        position = 6 ∨ position = 7 ∨ position = 8 ∨ (position < 1 ∨ 8 < position) := by omega
    rcases hcases with h | h | h | h | h | h | h | h | h
    iterate 8 subst h; simp [awardPoints, SprintPointsSystem, mapGet]
    simp only [awardPoints, hsprint h]
    repeat rw [if_neg (by omega)]
    simp
  · simp only [awardPoints]
    split <;> rfl
  · simp only [awardPoints]
    split <;> rfl

/-- Instance of C1 at a position below the range: position -3 adds nothing. -/
theorem C1_points_lookup_witness :
    (awardPoints PointsSystem (-3) ⟨40, 2⟩).Points = 40 ∧
      mapGet PointsSystem (-3) = none ∧ mapGet SprintPointsSystem 9 = none :=
  ⟨by simpa using (C1_points_lookup ⟨40, 2⟩ (-3)).1,
   (C1_points_lookup ⟨40, 2⟩ (-3)).2.2.2.2.1 (Or.inl (by decide)),
   (C1_points_lookup ⟨40, 2⟩ 9).2.2.2.2.2 (Or.inr (by decide))⟩

/-! ## Standings accumulator (C2 to C6) -/

theorem awardSession_disqualified (dsq : List (Int × List Int))
    (adj : List (Int × List (Int × Int))) (session : OpenF1Session) (driver : Int)
    (h : isDisqualified dsq session.SessionKey driver = true)
    (results : List OpenF1Position) (driverPoints : List (Int × StandingData)) :
    mapGet (awardSession dsq adj session driverPoints results) driver =
      mapGet driverPoints driver := by
  unfold awardSession
  induction results generalizing driverPoints with
  | nil => rfl
  | cons result rest ih =>
    rw [List.foldl_cons, ih]
    by_cases hd : driver = result.DriverNumber
    · rw [awardResult_disqualified dsq adj session driverPoints result (hd ▸ h)]
    · exact awardResult_other dsq adj session driverPoints result hd

theorem awardPoints_Points (pointsSystem : List (Int × Int)) (position : Int)
    (standing : StandingData) :
    (awardPoints pointsSystem position standing).Points =
      standing.Points + (mapGet pointsSystem position).getD 0 := by
  unfold awardPoints
  cases mapGet pointsSystem position <;> simp

theorem awardPoints_Wins (pointsSystem : List (Int × Int)) (position : Int)
    (standing : StandingData) :
    (awardPoints pointsSystem position standing).Wins = standing.Wins := by
  unfold awardPoints
  cases mapGet pointsSystem position <;> rfl

theorem awardWin_Points (session : OpenF1Session) (position : Int) (standing : StandingData) :
    (awardWin session position standing).Points = standing.Points := by
  unfold awardWin
  split_ifs <;> rfl

theorem awardWin_Wins (session : OpenF1Session) (position : Int) (standing : StandingData) :
    (awardWin session position standing).Wins =
      standing.Wins + if position = 1 ∧ session.SessionName = "Race" then 1 else 0 := by
  unfold awardWin
  split_ifs <;> simp

/-- The result of a roster driver who is not disqualified rewrites that
driver's entry with the points and the win of the adjusted position. -/
theorem awardResult_scored (dsq : List (Int × List Int)) (adj : List (Int × List (Int × Int)))
    (session : OpenF1Session) (driverPoints : List (Int × StandingData))
    (result : OpenF1Position) (standing : StandingData)
    (hroster : mapGet driverPoints result.DriverNumber = some standing)
    (hnot : isDisqualified dsq session.SessionKey result.DriverNumber = false) :
    awardResult dsq adj session driverPoints result =
      mapSet driverPoints result.DriverNumber
        (awardWin session (finalPosition adj session.SessionKey result)
          (awardPoints (selectPointsSystem session) (finalPosition adj session.SessionKey result)
            standing)) := by
  unfold awardResult
  simp [hroster, hnot]

/-- C2: a competitor listed in the disqualification table for the session key
gets nothing from the session, whatever the raw positions and whatever the
adjustment table holds: each of the competitor's results leaves the whole map
unchanged, and after the result loop, as after the whole loop iteration of
that session at any clock reading, the competitor's entry (points and wins) is
what it was. -/
theorem C2_disqualified_scores_nothing (dsq : List (Int × List Int))
    (adj : List (Int × List (Int × Int))) (src : DataSource) (ord : RangeOrder) (now : Int)
    (session : OpenF1Session) (driverPoints : List (Int × StandingData))
    (results : List OpenF1Position) (driver : Int) (dsqDrivers : List Int)
    (hlisted : mapGet dsq session.SessionKey = some dsqDrivers) (hmem : driver ∈ dsqDrivers) :
    (∀ result : OpenF1Position, result.DriverNumber = driver →
        awardResult dsq adj session driverPoints result = driverPoints) ∧
    mapGet (awardSession dsq adj session driverPoints results) driver =
      mapGet driverPoints driver ∧
    mapGet (processSession dsq adj src ord now driverPoints session) driver =
      mapGet driverPoints driver := by
  have hdsq : isDisqualified dsq session.SessionKey driver = true :=
    (isDisqualified_eq_true_iff dsq session.SessionKey driver).2 ⟨dsqDrivers, hlisted, hmem⟩
  refine ⟨?_, awardSession_disqualified dsq adj session driver hdsq results driverPoints, ?_⟩
  · intro result hres
    exact awardResult_disqualified dsq adj session driverPoints result (hres ▸ hdsq)
  · unfold processSession
    split_ifs
    · rfl
    · cases GetSessionResults ord.finalPositions (src.positions session.SessionKey) with
      | error err => rfl
      | ok resolved => exact awardSession_disqualified dsq adj session driver hdsq resolved driverPoints

/-- Instance of C2: driver 16, disqualified in session 9998, keeps 30 points
and one win although the result is a first place and the adjustment table
used here maps (9998, 16) to position 1. -/
theorem C2_disqualified_scores_nothing_witness :
    mapGet DisqualifiedDrivers 9998 = some [16, 44, 10] ∧
    mapGet (awardSession DisqualifiedDrivers [(9998, [(16, 1)])]
        ⟨9998, "Race", 0, "Race", "Shanghai"⟩ [(16, ⟨30, 1⟩), (31, ⟨5, 0⟩)]
        [⟨100, 16, 1, 1, 9998⟩, ⟨100, 31, 1, 7, 9998⟩]) 16 = some ⟨30, 1⟩ :=
  ⟨by decide,
   (C2_disqualified_scores_nothing DisqualifiedDrivers [(9998, [(16, 1)])]
      ⟨.ok [], .ok [], .ok [], fun _ => .ok [], fun _ => 0⟩ insertionOrder 0
      ⟨9998, "Race", 0, "Race", "Shanghai"⟩ [(16, ⟨30, 1⟩), (31, ⟨5, 0⟩)]
      [⟨100, 16, 1, 1, 9998⟩, ⟨100, 31, 1, 7, 9998⟩] 16 [16, 44, 10]
      (by decide) (by decide)).2.1⟩

/-- C3: the effective position is the entry of the adjustment table for the
exact pair (session key, competitor number) when there is one, and the raw
position otherwise, both when the session key has no adjustment map and when
the competitor is absent from the session's map. -/
theorem C3_effective_position (adj : List (Int × List (Int × Int))) (sessionKey : Int)
    (result : OpenF1Position) :
    (∀ adjustments newPosition, mapGet adj sessionKey = some adjustments →
        mapGet adjustments result.DriverNumber = some newPosition →
        finalPosition adj sessionKey result = newPosition) ∧
    (mapGet adj sessionKey = none → finalPosition adj sessionKey result = result.Position) ∧
    (∀ adjustments, mapGet adj sessionKey = some adjustments →
        mapGet adjustments result.DriverNumber = none →
        finalPosition adj sessionKey result = result.Position) := by
  refine ⟨?_, ?_, ?_⟩
  · intro adjustments newPosition h1 h2
    simp [finalPosition, h1, h2]
  · intro h1
    simp [finalPosition, h1]
  · intro adjustments h1 h2
    simp [finalPosition, h1, h2]

/-- Instance of C3 on the table of the program: in session 9998 driver 31 is
moved from 7 to 5, driver 1 keeps position 2, and in session 1234, which has
no adjustment map, driver 31 keeps position 7. -/
theorem C3_effective_position_witness :
    finalPosition PositionAdjustments 9998 ⟨100, 31, 1, 7, 9998⟩ = 5 ∧
    finalPosition PositionAdjustments 1234 ⟨100, 31, 1, 7, 1234⟩ = 7 ∧
    finalPosition PositionAdjustments 9998 ⟨100, 1, 1, 2, 9998⟩ = 2 :=
  ⟨(C3_effective_position PositionAdjustments 9998 ⟨100, 31, 1, 7, 9998⟩).1
      [(31, 5), (12, 6), (23, 7), (87, 8), (18, 9), (55, 10)] 5 (by decide) (by decide),
   (C3_effective_position PositionAdjustments 1234 ⟨100, 31, 1, 7, 1234⟩).2.1 (by decide),
   (C3_effective_position PositionAdjustments 9998 ⟨100, 1, 1, 2, 9998⟩).2.2
      [(31, 5), (12, 6), (23, 7), (87, 8), (18, 9), (55, 10)] (by decide) (by decide)⟩

/-- C4: the result of a roster competitor who is not listed as disqualified
for the session adds to that competitor's points exactly the value of one
table at the adjusted position (zero when the table has no such position):
the sprint table in a session named Sprint, the race table in a session named
Race.  Two sessions with the same name get the same table, and the entry of
every other competitor is unchanged. -/
theorem C4_points_awarded (dsq : List (Int × List Int)) (adj : List (Int × List (Int × Int)))
    (session : OpenF1Session) (driverPoints : List (Int × StandingData))
    (result : OpenF1Position) (standing : StandingData)
    (hroster : mapGet driverPoints result.DriverNumber = some standing)
    (hnot : ∀ dsqDrivers, mapGet dsq session.SessionKey = some dsqDrivers →
      result.DriverNumber ∉ dsqDrivers) :
    (∃ standing', mapGet (awardResult dsq adj session driverPoints result) result.DriverNumber =
        some standing' ∧
      standing'.Points = standing.Points +
        (mapGet (selectPointsSystem session) (finalPosition adj session.SessionKey result)).getD 0 ∧
      (session.SessionName = "Sprint" → standing'.Points = standing.Points +
        (mapGet SprintPointsSystem (finalPosition adj session.SessionKey result)).getD 0) ∧
      (session.SessionName = "Race" → standing'.Points = standing.Points +
        (mapGet PointsSystem (finalPosition adj session.SessionKey result)).getD 0)) ∧
    (∀ other : OpenF1Session, other.SessionName = session.SessionName →
      selectPointsSystem other = selectPointsSystem session) ∧
    (∀ driver, driver ≠ result.DriverNumber →
      mapGet (awardResult dsq adj session driverPoints result) driver =
        mapGet driverPoints driver) := by
  have hfalse : isDisqualified dsq session.SessionKey result.DriverNumber = false := by
    cases h : isDisqualified dsq session.SessionKey result.DriverNumber with
    | false => rfl
    | true =>
      obtain ⟨ds, h1, h2⟩ := (isDisqualified_eq_true_iff _ _ _).1 h
      exact absurd h2 (hnot ds h1)
  refine ⟨?_, ?_, ?_⟩
  · refine ⟨awardWin session (finalPosition adj session.SessionKey result)
      (awardPoints (selectPointsSystem session) (finalPosition adj session.SessionKey result)
        standing), ?_, ?_, ?_, ?_⟩
    · rw [awardResult_scored dsq adj session driverPoints result standing hroster hfalse]
      exact mapGet_mapSet_self _ _ _
    · rw [awardWin_Points, awardPoints_Points]
    · intro hs
      rw [awardWin_Points, awardPoints_Points]
      simp [selectPointsSystem, hs]
    · intro hr
      rw [awardWin_Points, awardPoints_Points]
      simp [selectPointsSystem, hr]
  · intro other h
    simp [selectPointsSystem, h]
  · intro driver h
    exact awardResult_other dsq adj session driverPoints result h

/-- Instance of C4: in the race 9998 driver 31, raw position 7, is promoted
to 5 and goes from 3 to 13 points; driver 4 keeps 50 points. -/
theorem C4_points_awarded_witness :
    (∃ standing', mapGet (awardResult DisqualifiedDrivers PositionAdjustments
        ⟨9998, "Race", 0, "Race", "Shanghai"⟩ [(4, ⟨50, 2⟩), (31, ⟨3, 0⟩)]
        ⟨100, 31, 1, 7, 9998⟩) 31 = some standing' ∧ standing'.Points = 13) ∧
    mapGet (awardResult DisqualifiedDrivers PositionAdjustments
        ⟨9998, "Race", 0, "Race", "Shanghai"⟩ [(4, ⟨50, 2⟩), (31, ⟨3, 0⟩)]
        ⟨100, 31, 1, 7, 9998⟩) 4 = some ⟨50, 2⟩ := by
  have h := C4_points_awarded DisqualifiedDrivers PositionAdjustments
    ⟨9998, "Race", 0, "Race", "Shanghai"⟩ [(4, ⟨50, 2⟩), (31, ⟨3, 0⟩)]
    ⟨100, 31, 1, 7, 9998⟩ ⟨3, 0⟩ (by decide)
    (by
      intro ds hds
      have : ds = [16, 44, 10] := by
        have h2 : mapGet DisqualifiedDrivers 9998 = some [16, 44, 10] := by decide
        exact (Option.some.inj (hds.symm.trans h2))
      subst this
      decide)
  obtain ⟨⟨st, h1, _, _, h4⟩, _, h6⟩ := h
  refine ⟨⟨st, h1, ?_⟩, ?_⟩
  · rw [h4 rfl]
    decide
  · exact h6 4 (by decide)

/-- C6: one result changes the win count of a competitor in the map by one
exactly when it is that competitor's result, the competitor is not
disqualified in the session, the adjusted position is 1 and the session is
named Race, and by zero otherwise; a competitor outside the map stays outside.
A first place in a session named Sprint adds the 8 sprint points and no win. -/
theorem C6_win_count (dsq : List (Int × List Int)) (adj : List (Int × List (Int × Int)))
    (session : OpenF1Session) (driverPoints : List (Int × StandingData))
    (result : OpenF1Position) (driver : Int) :
    (mapGet (awardResult dsq adj session driverPoints result) driver).map (·.Wins) =
      (mapGet driverPoints driver).map (fun standing => standing.Wins +
        if driver = result.DriverNumber ∧
            isDisqualified dsq session.SessionKey result.DriverNumber = false ∧
            finalPosition adj session.SessionKey result = 1 ∧ session.SessionName = "Race"
        then 1 else 0) ∧
    (∀ standing, session.SessionName = "Sprint" →
      mapGet driverPoints result.DriverNumber = some standing →
      isDisqualified dsq session.SessionKey result.DriverNumber = false →
      finalPosition adj session.SessionKey result = 1 →
      mapGet (awardResult dsq adj session driverPoints result) result.DriverNumber =
        some ⟨standing.Points + 8, standing.Wins⟩) := by
  constructor
  · by_cases hd : driver = result.DriverNumber
    · subst hd
      cases hroster : mapGet driverPoints result.DriverNumber with
      | none => simp [awardResult, hroster]
      | some standing =>
        cases hdsq : isDisqualified dsq session.SessionKey result.DriverNumber with
        | true => simp [awardResult, hroster, hdsq]
        | false =>
          rw [awardResult_scored dsq adj session driverPoints result standing hroster hdsq,
            mapGet_mapSet_self]
          simp [awardWin_Wins, awardPoints_Wins]
    · rw [awardResult_other dsq adj session driverPoints result hd]
      cases mapGet driverPoints driver <;> simp [hd]
  · intro standing hs hroster hdsq hpos
    rw [awardResult_scored dsq adj session driverPoints result standing hroster hdsq,
      mapGet_mapSet_self, hpos]
    simp [awardWin, awardPoints, selectPointsSystem, hs, SprintPointsSystem, mapGet]

/-- Instance of C6: a first place in a sprint takes driver 1 from (10, 2) to
(18, 2). -/
theorem C6_win_count_witness :
    mapGet (awardResult DisqualifiedDrivers PositionAdjustments
      ⟨7, "Sprint", 0, "Race", "Miami"⟩ [(1, ⟨10, 2⟩)] ⟨100, 1, 1, 1, 7⟩) 1 = some ⟨18, 2⟩ :=
  (C6_win_count DisqualifiedDrivers PositionAdjustments ⟨7, "Sprint", 0, "Race", "Miami"⟩
    [(1, ⟨10, 2⟩)] ⟨100, 1, 1, 1, 7⟩ 1).2 ⟨10, 2⟩ (by decide) (by decide) (by decide) (by decide)

/-! ## Session kinds (C5) -/

theorem filter_kind_dropOther (kind : String) (hkind : kind = "Race" ∨ kind = "Sprint")
    (sessions : List OpenF1Session) :
    (sessions.filter (fun s => decide (s.SessionName = "Race" ∨ s.SessionName = "Sprint"))).filter
        (fun session => decide (session.SessionName = kind)) =
      sessions.filter (fun session => decide (session.SessionName = kind)) := by
  rw [List.filter_filter]
  apply List.filter_congr
  intro s _
  by_cases h : s.SessionName = kind
  · rcases hkind with hk | hk <;> simp [h, hk]
  · simp [h]

theorem GetAllRaceAndSprintSessions_dropOtherKinds (src : DataSource) :
    GetAllRaceAndSprintSessions (dropOtherKinds src) = GetAllRaceAndSprintSessions src := by
  obtain ⟨race, sprint, drivers, positions, now⟩ := src
  cases race with
  | error e => rfl
  | ok rs =>
    cases sprint with
    | error e =>
      simp only [GetAllRaceAndSprintSessions, GetRaceSessions, GetSprintSessions,
        dropOtherKinds, Except.map]
      rw [filter_kind_dropOther "Race" (Or.inl rfl)]
    | ok ss =>
      simp only [GetAllRaceAndSprintSessions, GetRaceSessions, GetSprintSessions,
        dropOtherKinds, Except.map]
      rw [filter_kind_dropOther "Race" (Or.inl rfl), filter_kind_dropOther "Sprint" (Or.inr rfl)]

/-- The session loop gives the same map under two result oracles that agree on
the key of every session that has started at the reading of its iteration. -/
theorem sessionLoop_congr_positions (dsq : List (Int × List Int))
    (adj : List (Int × List (Int × Int))) (src : DataSource) (ord : RangeOrder)
    (positions' : Int → Except String (List OpenF1Position))
    (timed : List (Int × OpenF1Session))
    (hagree : ∀ reading ∈ timed, reading.2.DateStart ≤ reading.1 →
      positions' reading.2.SessionKey = src.positions reading.2.SessionKey)
    (driverPoints : List (Int × StandingData)) :
    sessionLoop dsq adj { src with positions := positions' } ord timed driverPoints =
      sessionLoop dsq adj src ord timed driverPoints := by
  induction timed generalizing driverPoints with
  | nil => rfl
  | cons reading rest ih =>
    have hstep : processSession dsq adj { src with positions := positions' } ord reading.1
        driverPoints reading.2 = processSession dsq adj src ord reading.1 driverPoints reading.2 := by
      unfold processSession
      by_cases hlt : reading.1 < reading.2.DateStart
      · simp [hlt]
      · simp only [hlt, if_false]
        rw [hagree reading (List.mem_cons_self _ _) (not_lt.1 hlt)]
    unfold sessionLoop at ih ⊢
    rw [List.foldl_cons, List.foldl_cons, hstep]
    exact ih (fun r hr => hagree r (List.mem_cons_of_mem _ hr)) _

theorem readings_map_snd (now : Nat → Int) (k : Nat) (sessions : List OpenF1Session) :
    (readings now k sessions).map Prod.snd = sessions := by
  induction sessions generalizing k with
  | nil => rfl
  | cons session rest ih => simp [readings, ih]

theorem mem_of_mem_readings {now : Nat → Int} {k : Nat} {sessions : List OpenF1Session}
    {reading : Int × OpenF1Session} (h : reading ∈ readings now k sessions) :
    reading.2 ∈ sessions := by
  have hmem : reading.2 ∈ (readings now k sessions).map Prod.snd := List.mem_map_of_mem _ h
  rwa [readings_map_snd] at hmem

theorem sessions_named_race_or_sprint (src : DataSource) (sessions : List OpenF1Session)
    (h : GetAllRaceAndSprintSessions src = .ok sessions) :
    ∀ session ∈ sessions, session.SessionName = "Race" ∨ session.SessionName = "Sprint" := by
  intro session hmem
  obtain ⟨race, sprint, drivers, positions, now⟩ := src
  cases race with
  | error e => simp [GetAllRaceAndSprintSessions, GetRaceSessions] at h
  | ok rs =>
    cases sprint with
    | error e =>
      simp only [GetAllRaceAndSprintSessions, GetRaceSessions, GetSprintSessions,
        Except.ok.injEq] at h
      subst h
      simp only [List.mem_filter, decide_eq_true_eq] at hmem
      exact Or.inl hmem.2
    | ok ss =>
      simp only [GetAllRaceAndSprintSessions, GetRaceSessions, GetSprintSessions,
        Except.ok.injEq] at h
      subst h
      simp only [List.mem_append, List.mem_filter, decide_eq_true_eq] at hmem
      rcases hmem with hm | hm
      · exact Or.inl hm.2
      · exact Or.inr hm.2

/-- The driver standings depend on the result oracle only through the keys of
the sessions that the loop ranges over and that have started at the reading of
their iteration. -/
theorem GetCurrentDriverStandings_congr_positions (dsq : List (Int × List Int))
    (adj : List (Int × List (Int × Int))) (src : DataSource) (ord : RangeOrder)
    (positions' : Int → Except String (List OpenF1Position))
    (hagree : ∀ sessions, GetAllRaceAndSprintSessions src = .ok sessions →
      ∀ reading ∈ readings src.now 0 sessions, reading.2.DateStart ≤ reading.1 →
        positions' reading.2.SessionKey = src.positions reading.2.SessionKey) :
    GetCurrentDriverStandings dsq adj { src with positions := positions' } ord =
      GetCurrentDriverStandings dsq adj src ord := by
  unfold GetCurrentDriverStandings
  have hall : GetAllRaceAndSprintSessions { src with positions := positions' } =
      GetAllRaceAndSprintSessions src := rfl
  rw [hall]
  cases hs : GetAllRaceAndSprintSessions src with
  | error e => rfl
  | ok sessions =>
    have hdrivers : ({ src with positions := positions' } : DataSource).drivers = src.drivers := rfl
    simp only [hdrivers]
    cases GetDrivers src.drivers with
    | error e => rfl
    | ok drivers =>
      simp only
      have hacc : accumulate dsq adj { src with positions := positions' } ord drivers sessions =
          accumulate dsq adj src ord drivers sessions :=
        sessionLoop_congr_positions dsq adj src ord positions' _ (hagree sessions hs) _
      rw [hacc]

/-- C5: a session whose name is neither Race nor Sprint awards no points.  The
accumulation loop ranges over the list that `GetAllRaceAndSprintSessions`
returns, and every session of that list is named Race or Sprint; removing the
sessions of every other name from the two session responses changes neither
that list nor the driver standings; and the driver standings stay the same
when, on top of that, the result request answers anything at all for the keys
of sessions that are not in the list: whatever positions the results of a
session of another kind hold, no competitor's points or wins change. -/
theorem C5_other_kinds_award_nothing (dsq : List (Int × List Int))
    (adj : List (Int × List (Int × Int))) (src : DataSource) (ord : RangeOrder) :
    (∀ sessions, GetAllRaceAndSprintSessions src = .ok sessions →
      ∀ session ∈ sessions, session.SessionName = "Race" ∨ session.SessionName = "Sprint") ∧
    GetAllRaceAndSprintSessions (dropOtherKinds src) = GetAllRaceAndSprintSessions src ∧
    GetCurrentDriverStandings dsq adj (dropOtherKinds src) ord =
      GetCurrentDriverStandings dsq adj src ord ∧
    (∀ positions' : Int → Except String (List OpenF1Position),
      (∀ sessions, GetAllRaceAndSprintSessions src = .ok sessions →
        ∀ session ∈ sessions, positions' session.SessionKey = src.positions session.SessionKey) →
      GetCurrentDriverStandings dsq adj { dropOtherKinds src with positions := positions' } ord =
        GetCurrentDriverStandings dsq adj src ord) := by
  have hdrop : GetCurrentDriverStandings dsq adj (dropOtherKinds src) ord =
      GetCurrentDriverStandings dsq adj src ord := by
    unfold GetCurrentDriverStandings
    rw [GetAllRaceAndSprintSessions_dropOtherKinds]
    rfl
  refine ⟨sessions_named_race_or_sprint src, GetAllRaceAndSprintSessions_dropOtherKinds src,
    hdrop, ?_⟩
  intro positions' hagree
  rw [← hdrop]
  apply GetCurrentDriverStandings_congr_positions dsq adj (dropOtherKinds src) ord positions'
  intro sessions hs reading hmem _
  rw [GetAllRaceAndSprintSessions_dropOtherKinds] at hs
  exact hagree sessions hs reading.2 (mem_of_mem_readings hmem)

/-- Instance of C5: the responses hold a race, a sprint and a session named
Practice 1 whose result is a first place of driver 16.  The loop ranges over
the race and the sprint only, and driver 16 has the 25 points and the win of
the race and the 8 points of the sprint, the same as when the practice session
has no results at all. -/
theorem C5_other_kinds_award_nothing_witness :
    (∀ session ∈ [(⟨1, "Race", 0, "Race", "Monza"⟩ : OpenF1Session),
        ⟨3, "Sprint", 0, "Race", "Monza"⟩],
      session.SessionName = "Race" ∨ session.SessionName = "Sprint") ∧
    GetCurrentDriverStandings DisqualifiedDrivers PositionAdjustments
      { dropOtherKinds
          ⟨.ok [⟨1, "Race", 0, "Race", "Monza"⟩, ⟨2, "Practice 1", 0, "Practice", "Monza"⟩],
           .ok [⟨2, "Practice 1", 0, "Practice", "Monza"⟩, ⟨3, "Sprint", 0, "Race", "Monza"⟩],
           .ok [⟨16, "C LECLERC", "Charles LECLERC", "LEC", "Ferrari", "E80020", "Charles",
             "Leclerc", "", "MON"⟩],
           fun k => .ok [⟨100, 16, 1, 1, k⟩], fun _ => 500⟩ with
        positions := fun k => if k = 2 then .error "404" else .ok [⟨100, 16, 1, 1, k⟩] }
      insertionOrder =
    GetCurrentDriverStandings DisqualifiedDrivers PositionAdjustments
      ⟨.ok [⟨1, "Race", 0, "Race", "Monza"⟩, ⟨2, "Practice 1", 0, "Practice", "Monza"⟩],
       .ok [⟨2, "Practice 1", 0, "Practice", "Monza"⟩, ⟨3, "Sprint", 0, "Race", "Monza"⟩],
       .ok [⟨16, "C LECLERC", "Charles LECLERC", "LEC", "Ferrari", "E80020", "Charles",
         "Leclerc", "", "MON"⟩],
       fun k => .ok [⟨100, 16, 1, 1, k⟩], fun _ => 500⟩ insertionOrder ∧
    GetCurrentDriverStandings DisqualifiedDrivers PositionAdjustments
      ⟨.ok [⟨1, "Race", 0, "Race", "Monza"⟩, ⟨2, "Practice 1", 0, "Practice", "Monza"⟩],
       .ok [⟨2, "Practice 1", 0, "Practice", "Monza"⟩, ⟨3, "Sprint", 0, "Race", "Monza"⟩],
       .ok [⟨16, "C LECLERC", "Charles LECLERC", "LEC", "Ferrari", "E80020", "Charles",
         "Leclerc", "", "MON"⟩],
       fun k => .ok [⟨100, 16, 1, 1, k⟩], fun _ => 500⟩ insertionOrder =
      .ok [⟨1, "Charles LECLERC", "Ferrari", 33, 1, "Leader"⟩] :=
  ⟨(C5_other_kinds_award_nothing DisqualifiedDrivers PositionAdjustments
      ⟨.ok [⟨1, "Race", 0, "Race", "Monza"⟩, ⟨2, "Practice 1", 0, "Practice", "Monza"⟩],
       .ok [⟨2, "Practice 1", 0, "Practice", "Monza"⟩, ⟨3, "Sprint", 0, "Race", "Monza"⟩],
       .ok [⟨16, "C LECLERC", "Charles LECLERC", "LEC", "Ferrari", "E80020", "Charles",
         "Leclerc", "", "MON"⟩],
       fun k => .ok [⟨100, 16, 1, 1, k⟩], fun _ => 500⟩ insertionOrder).1 _ rfl,
   (C5_other_kinds_award_nothing DisqualifiedDrivers PositionAdjustments
      ⟨.ok [⟨1, "Race", 0, "Race", "Monza"⟩, ⟨2, "Practice 1", 0, "Practice", "Monza"⟩],
       .ok [⟨2, "Practice 1", 0, "Practice", "Monza"⟩, ⟨3, "Sprint", 0, "Race", "Monza"⟩],
       .ok [⟨16, "C LECLERC", "Charles LECLERC", "LEC", "Ferrari", "E80020", "Charles",
         "Leclerc", "", "MON"⟩],
       fun k => .ok [⟨100, 16, 1, 1, k⟩], fun _ => 500⟩ insertionOrder).2.2.2
      (fun k => if k = 2 then .error "404" else .ok [⟨100, 16, 1, 1, k⟩])
      (fun sessions hs session hmem => by
        have hlist : sessions = [⟨1, "Race", 0, "Race", "Monza"⟩,
            ⟨3, "Sprint", 0, "Race", "Monza"⟩] := (Except.ok.inj hs).symm
        subst hlist
        simp only [List.mem_cons, List.mem_singleton, List.not_mem_nil, or_false] at hmem
        rcases hmem with h | h <;> subst h <;> rfl),
   rfl⟩

/-! ## Session result resolver (C7 to C9) -/

theorem mem_mapSet {κ ν : Type} [DecidableEq κ] {m : List (κ × ν)} {k : κ} {v : ν}
    {e : κ × ν} (h : e ∈ mapSet m k v) : e ∈ m ∨ e = (k, v) := by
  induction m with
  | nil =>
    simp only [mapSet, List.mem_singleton] at h
    exact Or.inr h
  | cons e0 rest ih =>
    obtain ⟨k0, v0⟩ := e0
    by_cases h0 : k0 = k
    · simp only [mapSet, h0, if_true, List.mem_cons] at h
      rcases h with h | h
      · exact Or.inr h
      · exact Or.inl (List.mem_cons_of_mem _ h)
    · simp only [mapSet, h0, if_false, List.mem_cons] at h
      rcases h with h | h
      · exact Or.inl (h ▸ List.mem_cons_self _ _)
      · rcases ih h with h' | h'
        · exact Or.inl (List.mem_cons_of_mem _ h')
        · exact Or.inr h'

theorem nodup_keys_mapSet {κ ν : Type} [DecidableEq κ] {m : List (κ × ν)} (k : κ) (v : ν)
    (h : (m.map Prod.fst).Nodup) : ((mapSet m k v).map Prod.fst).Nodup := by
  rw [keys_mapSet]
  split_ifs with hk
  · exact h
  · rw [List.nodup_append]
    refine ⟨h, List.nodup_singleton k, ?_⟩
    intro a ha hb
    rw [List.mem_singleton] at hb
    exact hk (hb ▸ ha)

theorem mapGet_of_mem {κ ν : Type} [DecidableEq κ] {m : List (κ × ν)} {k : κ} {v : ν}
    (hnodup : (m.map Prod.fst).Nodup) (h : (k, v) ∈ m) : mapGet m k = some v := by
  induction m with
  | nil => simp at h
  | cons e0 rest ih =>
    obtain ⟨k0, v0⟩ := e0
    rw [List.map_cons, List.nodup_cons] at hnodup
    rw [List.mem_cons] at h
    rcases h with h | h
    · simp only [Prod.mk.injEq] at h
      simp [mapGet, h.1, h.2]
    · have hne : ¬ k0 = k := by
        intro hk
        subst hk
        exact hnodup.1 (List.mem_map.2 ⟨(k0, v), h, rfl⟩)
      simp [mapGet, hne, ih hnodup.2 h]

/-- Keys of `finalPositions` stay pairwise distinct, and every entry is filed
under its own driver number. -/
theorem keepLatest_invariant (finalPositions : List (Int × OpenF1Position))
    (pos : OpenF1Position)
    (h : (finalPositions.map Prod.fst).Nodup ∧ ∀ e ∈ finalPositions, e.2.DriverNumber = e.1) :
    ((keepLatest finalPositions pos).map Prod.fst).Nodup ∧
      ∀ e ∈ keepLatest finalPositions pos, e.2.DriverNumber = e.1 := by
  have hset : ((mapSet finalPositions pos.DriverNumber pos).map Prod.fst).Nodup ∧
      ∀ e ∈ mapSet finalPositions pos.DriverNumber pos, e.2.DriverNumber = e.1 := by
    refine ⟨nodup_keys_mapSet _ _ h.1, ?_⟩
    intro e he
    rcases mem_mapSet he with he | he
    · exact h.2 e he
    · rw [he]
  unfold keepLatest
  cases mapGet finalPositions pos.DriverNumber with
  | none => exact hset
  | some existing =>
    simp only
    split_ifs
    · exact hset
    · exact h

theorem foldl_keepLatest_invariant (positions : List OpenF1Position)
    (finalPositions : List (Int × OpenF1Position))
    (h : (finalPositions.map Prod.fst).Nodup ∧ ∀ e ∈ finalPositions, e.2.DriverNumber = e.1) :
    ((positions.foldl keepLatest finalPositions).map Prod.fst).Nodup ∧
      ∀ e ∈ positions.foldl keepLatest finalPositions, e.2.DriverNumber = e.1 := by
  induction positions generalizing finalPositions with
  | nil => exact h
  | cons pos rest ih => exact ih _ (keepLatest_invariant finalPositions pos h)

theorem resolveFinalPositions_invariant (positions : List OpenF1Position) :
    ((resolveFinalPositions positions).map Prod.fst).Nodup ∧
      ∀ e ∈ resolveFinalPositions positions, e.2.DriverNumber = e.1 :=
  foldl_keepLatest_invariant positions [] ⟨List.nodup_nil, fun _ h => absurd h (List.not_mem_nil _)⟩

theorem resolveFinalPositions_selected (positions : List OpenF1Position) (driver : Int) :
    Selected positions driver (mapGet (resolveFinalPositions positions) driver) := by
  induction positions using List.reverseRecOn with
  | nil => simp [resolveFinalPositions, mapGet, Selected]
  | append_singleton init pos ih =>
    have hfold : resolveFinalPositions (init ++ [pos]) =
        keepLatest (resolveFinalPositions init) pos := by
      simp [resolveFinalPositions, List.foldl_append]
    rw [hfold]
    by_cases hd : pos.DriverNumber = driver
    · subst hd
      unfold keepLatest
      cases hget : mapGet (resolveFinalPositions init) pos.DriverNumber with
      | none =>
        rw [hget] at ih
        simp only [Selected] at ih
        simp only [mapGet_mapSet_self, Selected]
        refine ⟨trivial, init, [], rfl, ?_, ?_⟩
        · intro q hq hqd
          exact absurd (List.mem_map.2 ⟨q, hq, hqd⟩) ih
        · intro q hq
          simp at hq
      | some existing =>
        rw [hget] at ih
        obtain ⟨hex, before, after, hsplit, hbefore, hafter⟩ := ih
        simp only
        split_ifs with hlt
        · simp only [mapGet_mapSet_self, Selected]
          refine ⟨trivial, init, [], rfl, ?_, ?_⟩
          · intro q hq hqd
            rw [hsplit, List.mem_append, List.mem_cons] at hq
            rcases hq with hq | hq | hq
            · exact lt_trans (hbefore q hq hqd) hlt
            · rw [hq]
              exact hlt
            · exact lt_of_le_of_lt (hafter q hq hqd) hlt
          · intro q hq
            simp at hq
        · rw [hget]
          refine ⟨hex, before, after ++ [pos], ?_, hbefore, ?_⟩
          · rw [hsplit]
            simp
          · intro q hq hqd
            rw [List.mem_append, List.mem_singleton] at hq
            rcases hq with hq | hq
            · exact hafter q hq hqd
            · rw [hq]
              exact not_lt.1 hlt
    · have hkeep : mapGet (keepLatest (resolveFinalPositions init) pos) driver =
          mapGet (resolveFinalPositions init) driver := by
        unfold keepLatest
        cases mapGet (resolveFinalPositions init) pos.DriverNumber with
        | none => exact mapGet_mapSet_ne _ _ (fun h => hd h.symm)
        | some existing =>
          simp only
          split_ifs
          · exact mapGet_mapSet_ne _ _ (fun h => hd h.symm)
          · rfl
      rw [hkeep]
      cases hget : mapGet (resolveFinalPositions init) driver with
      | none =>
        rw [hget] at ih
        simp only [Selected] at ih ⊢
        simp only [List.map_append, List.mem_append, List.map_cons, List.map_nil,
          List.mem_singleton]
        rintro (h | h)
        · exact ih h
        · exact hd h.symm
      | some r =>
        rw [hget] at ih
        obtain ⟨hr, before, after, hsplit, hbefore, hafter⟩ := ih
        refine ⟨hr, before, after ++ [pos], ?_, hbefore, ?_⟩
        · rw [hsplit]
          simp
        · intro q hq hqd
          rw [List.mem_append, List.mem_singleton] at hq
          rcases hq with hq | hq
          · exact hafter q hq hqd
          · exact absurd (hq ▸ hqd) hd

theorem keys_resolveFinalPositions (positions : List OpenF1Position) (driver : Int) :
    driver ∈ (resolveFinalPositions positions).map Prod.fst ↔
      driver ∈ positions.map (·.DriverNumber) := by
  have hsel := resolveFinalPositions_selected positions driver
  cases hget : mapGet (resolveFinalPositions positions) driver with
  | none =>
    rw [hget] at hsel
    have hkey := (mapGet_eq_none_iff _ _).1 hget
    exact ⟨fun h => absurd h hkey, fun h => absurd h hsel⟩
  | some r =>
    rw [hget] at hsel
    obtain ⟨hr, before, after, hsplit, _, _⟩ := hsel
    have hkey : driver ∈ (resolveFinalPositions positions).map Prod.fst := by
      by_contra hc
      rw [(mapGet_eq_none_iff _ _).2 hc] at hget
      exact Option.noConfusion hget
    refine ⟨fun _ => ?_, fun _ => hkey⟩
    rw [hsplit]
    exact List.mem_map.2 ⟨r, by simp, hr⟩

/-- Every record that the resolver returns is the selected record of its
driver number, whatever the order of the range over the map. -/
theorem selected_of_mem_results
    (order : List (Int × OpenF1Position) → List (Int × OpenF1Position))
    (horder : ∀ m, (order m).Perm m) (positions : List OpenF1Position) (r : OpenF1Position)
    (hr : r ∈ (order (resolveFinalPositions positions)).map Prod.snd) :
    Selected positions r.DriverNumber (some r) := by
  obtain ⟨e, he, her⟩ := List.mem_map.1 hr
  have hmem : e ∈ resolveFinalPositions positions := (horder _).mem_iff.1 he
  obtain ⟨hnodup, hfiled⟩ := resolveFinalPositions_invariant positions
  have hget : mapGet (resolveFinalPositions positions) e.1 = some e.2 :=
    mapGet_of_mem hnodup hmem
  have hsel := resolveFinalPositions_selected positions e.1
  rw [hget, ← hfiled e hmem, her] at hsel
  exact hsel

theorem driverNumbers_results
    (order : List (Int × OpenF1Position) → List (Int × OpenF1Position))
    (horder : ∀ m, (order m).Perm m) (positions : List OpenF1Position) :
    (((order (resolveFinalPositions positions)).map Prod.snd).map (·.DriverNumber)).Perm
      ((resolveFinalPositions positions).map Prod.fst) := by
  have hfiled := (resolveFinalPositions_invariant positions).2
  have h1 : ((resolveFinalPositions positions).map Prod.snd).map (·.DriverNumber) =
      (resolveFinalPositions positions).map Prod.fst := by
    rw [List.map_map]
    exact List.map_congr_left (fun e he => hfiled e he)
  rw [← h1]
  exact ((horder _).map Prod.snd).map _

/-- C7: on every list of position records, the empty one included, the
resolver succeeds, and whatever the order of the range over its map the
returned list holds exactly one record for each driver number of the input and
none for any other number; on the empty list it returns the empty list. -/
theorem C7_one_record_per_competitor
    (order : List (Int × OpenF1Position) → List (Int × OpenF1Position))
    (horder : ∀ m, (order m).Perm m) (positions : List OpenF1Position) :
    ∃ results, GetSessionResults order (.ok positions) = .ok results ∧
      (∀ driver : Int, (results.map (·.DriverNumber)).count driver =
        if driver ∈ positions.map (·.DriverNumber) then 1 else 0) ∧
      (positions = [] → results = []) := by
  refine ⟨_, rfl, ?_, ?_⟩
  · intro driver
    rw [(driverNumbers_results order horder positions).count_eq,
      List.count_eq_of_nodup (resolveFinalPositions_invariant positions).1]
    simp only [keys_resolveFinalPositions]
  · intro hnil
    subst hnil
    have h : order (resolveFinalPositions []) = [] := List.Perm.eq_nil (horder _)
    rw [h]
    rfl

/-- Instance of C7: three records of drivers 44, 1, 44 resolve to one record
of 44 and one of 1. -/
theorem C7_one_record_per_competitor_witness :
    ∃ results, GetSessionResults id
        (.ok [⟨90, 44, 1, 3, 9⟩, ⟨95, 1, 1, 6, 9⟩, ⟨100, 44, 1, 2, 9⟩]) = .ok results ∧
      (∀ driver : Int, (results.map (·.DriverNumber)).count driver =
        if driver ∈ ([⟨90, 44, 1, 3, 9⟩, ⟨95, 1, 1, 6, 9⟩, ⟨100, 44, 1, 2, 9⟩] :
          List OpenF1Position).map (·.DriverNumber) then 1 else 0) ∧
      (([⟨90, 44, 1, 3, 9⟩, ⟨95, 1, 1, 6, 9⟩, ⟨100, 44, 1, 2, 9⟩] : List OpenF1Position) = [] →
        results = []) :=
  C7_one_record_per_competitor id (fun m => List.Perm.refl m)
    [⟨90, 44, 1, 3, 9⟩, ⟨95, 1, 1, 6, 9⟩, ⟨100, 44, 1, 2, 9⟩]

/-- C8: every record the resolver returns is one of the input records of its
driver number and no input record of that number has a later timestamp; and
every driver number of the input has a record in the output. -/
theorem C8_latest_timestamp
    (order : List (Int × OpenF1Position) → List (Int × OpenF1Position))
    (horder : ∀ m, (order m).Perm m) (positions : List OpenF1Position) :
    ∃ results, GetSessionResults order (.ok positions) = .ok results ∧
      (∀ r ∈ results, r ∈ positions ∧
        ∀ p ∈ positions, p.DriverNumber = r.DriverNumber → p.Date ≤ r.Date) ∧
      (∀ p ∈ positions, ∃ r ∈ results, r.DriverNumber = p.DriverNumber) := by
  refine ⟨_, rfl, ?_, ?_⟩
  · intro r hr
    obtain ⟨_, before, after, hsplit, hbefore, hafter⟩ :=
      selected_of_mem_results order horder positions r hr
    refine ⟨by rw [hsplit]; simp, ?_⟩
    intro p hp hpd
    rw [hsplit, List.mem_append, List.mem_cons] at hp
    rcases hp with hp | hp | hp
    · exact le_of_lt (hbefore p hp hpd)
    · rw [hp]
    · exact hafter p hp hpd
  · intro p hp
    have hkey : p.DriverNumber ∈ (resolveFinalPositions positions).map Prod.fst :=
      (keys_resolveFinalPositions positions p.DriverNumber).2 (List.mem_map.2 ⟨p, hp, rfl⟩)
    have hnum := (driverNumbers_results order horder positions).mem_iff.2 hkey
    obtain ⟨r, hr, hrd⟩ := List.mem_map.1 hnum
    exact ⟨r, hr, hrd⟩

/-- Instance of C8 with the map ranged over in insertion order. -/
theorem C8_latest_timestamp_witness :
    ∃ results, GetSessionResults id
        (.ok [⟨90, 44, 1, 3, 9⟩, ⟨95, 1, 1, 6, 9⟩, ⟨100, 44, 1, 2, 9⟩]) = .ok results ∧
      (∀ r ∈ results,
        r ∈ ([⟨90, 44, 1, 3, 9⟩, ⟨95, 1, 1, 6, 9⟩, ⟨100, 44, 1, 2, 9⟩] : List OpenF1Position) ∧
        ∀ p ∈ ([⟨90, 44, 1, 3, 9⟩, ⟨95, 1, 1, 6, 9⟩, ⟨100, 44, 1, 2, 9⟩] : List OpenF1Position),
          p.DriverNumber = r.DriverNumber → p.Date ≤ r.Date) ∧
      (∀ p ∈ ([⟨90, 44, 1, 3, 9⟩, ⟨95, 1, 1, 6, 9⟩, ⟨100, 44, 1, 2, 9⟩] : List OpenF1Position),
        ∃ r ∈ results, r.DriverNumber = p.DriverNumber) :=
  C8_latest_timestamp id (fun m => List.Perm.refl m)
    [⟨90, 44, 1, 3, 9⟩, ⟨95, 1, 1, 6, 9⟩, ⟨100, 44, 1, 2, 9⟩]

/-- The claim C9 as stated fails: of two records of driver 44 with the same
timestamp 100, the resolver returns the first (position 3), not the one that
occurs last in the input (position 5). -/
theorem C9_counterexample :
    GetSessionResults id (.ok [⟨100, 44, 1, 3, 9⟩, ⟨100, 44, 1, 5, 9⟩]) =
        .ok [⟨100, 44, 1, 3, 9⟩] ∧
      (⟨100, 44, 1, 3, 9⟩ : OpenF1Position) ≠ ⟨100, 44, 1, 5, 9⟩ :=
  ⟨rfl, by decide⟩

/-- C9, amended: among the records of one competitor the resolver keeps the
first-seen one with the maximal timestamp.  Every returned record sits at a
place of the input such that each record of the same competitor before it is
strictly earlier and no record of that competitor after it is later. -/
theorem C9_first_seen_wins_ties
    (order : List (Int × OpenF1Position) → List (Int × OpenF1Position))
    (horder : ∀ m, (order m).Perm m) (positions : List OpenF1Position) :
    ∃ results, GetSessionResults order (.ok positions) = .ok results ∧
      ∀ r ∈ results, ∃ before after, positions = before ++ r :: after ∧
        (∀ q ∈ before, q.DriverNumber = r.DriverNumber → q.Date < r.Date) ∧
        (∀ q ∈ after, q.DriverNumber = r.DriverNumber → q.Date ≤ r.Date) := by
  refine ⟨_, rfl, ?_⟩
  intro r hr
  exact (selected_of_mem_results order horder positions r hr).2

/-- Instance of C9, amended, on the input of the counterexample. -/
theorem C9_first_seen_wins_ties_witness :
    ∃ results, GetSessionResults id (.ok [⟨100, 44, 1, 3, 9⟩, ⟨100, 44, 1, 5, 9⟩]) = .ok results ∧
      ∀ r ∈ results, ∃ before after,
        ([⟨100, 44, 1, 3, 9⟩, ⟨100, 44, 1, 5, 9⟩] : List OpenF1Position) = before ++ r :: after ∧
        (∀ q ∈ before, q.DriverNumber = r.DriverNumber → q.Date < r.Date) ∧
        (∀ q ∈ after, q.DriverNumber = r.DriverNumber → q.Date ≤ r.Date) :=
  C9_first_seen_wins_ties id (fun m => List.Perm.refl m)
    [⟨100, 44, 1, 3, 9⟩, ⟨100, 44, 1, 5, 9⟩]

/-! ## Ranking (C10) -/

theorem outranks_eq_true_iff (a b : StandingEntry) :
    outranks a b = true ↔ a.Points > b.Points ∨ (a.Points = b.Points ∧ a.Wins > b.Wins) := by
  simp [outranks]

theorem outranks_eq_false_iff (a b : StandingEntry) :
    outranks b a = false ↔ RankedBefore a b := by
  rw [← Bool.not_eq_true, outranks_eq_true_iff, RankedBefore]
  omega

theorem length_compareSwap (i j : Nat) (standings : List StandingEntry) :
    (compareSwap i j standings).length = standings.length := by
  unfold compareSwap
  split
  · split_ifs
    · simp
    · rfl
  · rfl

/-- The list after one compare-and-swap, read index by index. -/
theorem getElem?_compareSwap {i j : Nat} {standings : List StandingEntry}
    {si sj : StandingEntry} (hij : i < j) (hi : standings[i]? = some si)
    (hj : standings[j]? = some sj) (k : Nat) :
    (compareSwap i j standings)[k]? =
      if outranks sj si = true then
        (if k = j then some si else if k = i then some sj else standings[k]?)
      else standings[k]? := by
  have hjlt : j < standings.length := by
    by_contra hc
    rw [List.getElem?_eq_none (Nat.le_of_not_lt hc)] at hj
    exact Option.noConfusion hj
  have hilt : i < standings.length := lt_trans hij hjlt
  unfold compareSwap
  rw [hi, hj]
  simp only
  split_ifs with hsw hkj hki
  · subst hkj
    rw [List.getElem?_set]
    simp [hjlt]
  · subst hki
    rw [List.getElem?_set, if_neg (fun h => hkj h.symm), List.getElem?_set]
    simp [hilt]
  · rw [List.getElem?_set, if_neg (fun h => hkj h.symm), List.getElem?_set,
      if_neg (fun h => hki h.symm)]
  · rfl

/-- One step of the inner loop keeps the sorted prefix and extends the part
of the suffix that index `i` is known to dominate. -/
theorem compareSwap_step {i j : Nat} {standings : List StandingEntry} (hij : i < j)
    (hj : j < standings.length) (hfront : ∀ p, p < i → Dominates standings p)
    (hdone : ∀ q a b, i < q → q < j → standings[i]? = some a → standings[q]? = some b →
      outranks b a = false) :
    (∀ p, p < i → Dominates (compareSwap i j standings) p) ∧
    (∀ q a b, i < q → q < j + 1 → (compareSwap i j standings)[i]? = some a →
      (compareSwap i j standings)[q]? = some b → outranks b a = false) := by
  have hi : i < standings.length := lt_trans hij hj
  have hsi : standings[i]? = some standings[i] := List.getElem?_eq_getElem hi
  have hsj : standings[j]? = some standings[j] := List.getElem?_eq_getElem hj
  have hget := getElem?_compareSwap hij hsi hsj
  cases hsw : outranks standings[j] standings[i] with
  | false =>
    have hsame : ∀ k : Nat, (compareSwap i j standings)[k]? = standings[k]? := by
      intro k
      rw [hget k, hsw]
      simp
    refine ⟨?_, ?_⟩
    · intro p hp q a b hpq ha hb
      rw [hsame] at ha hb
      exact hfront p hp q a b hpq ha hb
    · intro q a b hiq hqj ha hb
      rw [hsame] at ha hb
      by_cases hq : q = j
      · subst hq
        rw [hsi] at ha
        rw [hsj] at hb
        cases ha
        cases hb
        exact hsw
      · exact hdone q a b hiq (by omega) ha hb
  | true =>
    have hswapped : ∀ k : Nat, (compareSwap i j standings)[k]? =
        if k = j then some standings[i] else if k = i then some standings[j]
        else standings[k]? := by
      intro k
      rw [hget k, hsw]
      simp
    refine ⟨?_, ?_⟩
    · intro p hp q a b hpq ha hb
      rw [hswapped, if_neg (by omega), if_neg (by omega)] at ha
      rw [hswapped] at hb
      split_ifs at hb with h1 h2
      · exact hfront p hp i a b (by omega) ha (hsi.trans hb)
      · exact hfront p hp j a b (by omega) ha (hsj.trans hb)
      · exact hfront p hp q a b hpq ha hb
    · intro q a b hiq hqj ha hb
      rw [hswapped, if_neg (by omega), if_pos rfl] at ha
      cases ha
      rw [hswapped] at hb
      split_ifs at hb with h1 h2
      · cases hb
        rw [← Bool.not_eq_true, outranks_eq_true_iff]
        rw [outranks_eq_true_iff] at hsw
        omega
      · omega
      · have hold := hdone q standings[i] b hiq (by omega) hsi hb
        rw [← Bool.not_eq_true, outranks_eq_true_iff] at hold ⊢
        rw [outranks_eq_true_iff] at hsw
        omega

theorem innerLoop_aux (i : Nat) (standings : List StandingEntry)
    (hfront : ∀ p, p < i → Dominates standings p) (m : Nat)
    (hm : i + 1 + m ≤ standings.length) :
    ((List.range' (i + 1) m).foldl (fun s j => compareSwap i j s) standings).length =
        standings.length ∧
    (∀ p, p < i → Dominates
      ((List.range' (i + 1) m).foldl (fun s j => compareSwap i j s) standings) p) ∧
    (∀ q a b, i < q → q < i + 1 + m →
      ((List.range' (i + 1) m).foldl (fun s j => compareSwap i j s) standings)[i]? = some a →
      ((List.range' (i + 1) m).foldl (fun s j => compareSwap i j s) standings)[q]? = some b →
      outranks b a = false) := by
  induction m with
  | zero =>
    refine ⟨rfl, hfront, ?_⟩
    intro q a b h1 h2
    omega
  | succ m ih =>
    obtain ⟨hlen, hpre, hdone⟩ := ih (by omega)
    rw [List.range'_1_concat, List.foldl_append]
    simp only [List.foldl_cons, List.foldl_nil]
    have hstep := compareSwap_step (i := i) (j := i + 1 + m) (by omega)
      (by rw [hlen]; omega) hpre hdone
    exact ⟨by rw [length_compareSwap, hlen], hstep.1, hstep.2⟩

/-- After the inner loop for index `i`, index `i` joins the sorted prefix. -/
theorem innerLoop_spec (i : Nat) (standings : List StandingEntry) (hi : i < standings.length)
    (hfront : ∀ p, p < i → Dominates standings p) :
    (innerLoop i standings).length = standings.length ∧
      ∀ p, p < i + 1 → Dominates (innerLoop i standings) p := by
  obtain ⟨hlen, hpre, hdone⟩ :=
    innerLoop_aux i standings hfront (standings.length - (i + 1)) (by omega)
  refine ⟨hlen, ?_⟩
  intro p hp
  by_cases hpi : p < i
  · exact hpre p hpi
  · have hpeq : p = i := by omega
    subst hpeq
    intro q a b hpq ha hb
    have hq : q < (innerLoop p standings).length := by
      by_contra hc
      rw [List.getElem?_eq_none (Nat.le_of_not_lt hc)] at hb
      exact Option.noConfusion hb
    unfold innerLoop at hq
    rw [hlen] at hq
    exact hdone q a b hpq (by omega) ha hb

theorem sortStandings_aux (standings : List StandingEntry) (m : Nat)
    (hm : m ≤ standings.length - 1) :
    ((List.range m).foldl (fun s i => innerLoop i s) standings).length = standings.length ∧
      ∀ p, p < m → Dominates ((List.range m).foldl (fun s i => innerLoop i s) standings) p := by
  induction m with
  | zero =>
    refine ⟨rfl, ?_⟩
    intro p hp
    omega
  | succ m ih =>
    obtain ⟨hlen, hpre⟩ := ih (by omega)
    rw [List.range_succ, List.foldl_append]
    simp only [List.foldl_cons, List.foldl_nil]
    obtain ⟨hlen', hpre'⟩ := innerLoop_spec m _ (by rw [hlen]; omega) hpre
    exact ⟨hlen'.trans hlen, hpre'⟩

theorem length_sortStandings (standings : List StandingEntry) :
    (sortStandings standings).length = standings.length :=
  (sortStandings_aux standings (standings.length - 1) (le_refl _)).1

/-- The exchange sort leaves no entry behind one that it outranks. -/
theorem sortStandings_pairwise (standings : List StandingEntry) :
    List.Pairwise RankedBefore (sortStandings standings) := by
  rw [List.pairwise_iff_getElem]
  intro i j hi hj hij
  rw [← outranks_eq_false_iff]
  have hlen := length_sortStandings standings
  have hdom := (sortStandings_aux standings (standings.length - 1) (le_refl _)).2 i
    (by rw [hlen] at hj; omega)
  exact hdom j _ _ hij (List.getElem?_eq_getElem hi) (List.getElem?_eq_getElem hj)

theorem assignPositionAndGap_pairwise (standings : List StandingEntry)
    (h : List.Pairwise RankedBefore standings) :
    List.Pairwise RankedBefore (assignPositionAndGap standings) := by
  rw [List.pairwise_iff_getElem] at h ⊢
  intro i j hi hj hij
  have hi' : i < standings.length := by simpa [assignPositionAndGap] using hi
  have hj' : j < standings.length := by simpa [assignPositionAndGap] using hj
  have := h i j hi' hj' hij
  simpa [assignPositionAndGap, RankedBefore] using this

theorem rankStandings_pairwise (standings : List StandingEntry) :
    List.Pairwise RankedBefore (rankStandings standings) :=
  assignPositionAndGap_pairwise _ (sortStandings_pairwise standings)

/-- C10: for every input list the ranking step returns a list in which each
adjacent pair (a, b) has a.Points > b.Points, or equal points and
a.Wins ≥ b.Wins; the same holds for the list after the sort alone, and for
every list returned by the driver standings and by the constructor standings,
whatever the tables, the data source and the order of the map ranges. -/
theorem C10_standings_sorted (standings : List StandingEntry) :
    List.Chain' (fun a b => a.Points > b.Points ∨ (a.Points = b.Points ∧ a.Wins ≥ b.Wins))
      (rankStandings standings) ∧
    List.Chain' RankedBefore (sortStandings standings) ∧
    (∀ dsq adj src ord ranked, GetCurrentDriverStandings dsq adj src ord = .ok ranked →
      List.Chain' RankedBefore ranked) ∧
    (∀ dsq adj src ord ranked, GetCurrentConstructorStandings dsq adj src ord = .ok ranked →
      List.Chain' RankedBefore ranked) := by
  refine ⟨(rankStandings_pairwise standings).chain', (sortStandings_pairwise standings).chain',
    ?_, ?_⟩
  · intro dsq adj src ord ranked h
    unfold GetCurrentDriverStandings at h
    split at h
    · exact Except.noConfusion h
    · split at h
      · exact Except.noConfusion h
      · cases h
        exact (rankStandings_pairwise _).chain'
  · intro dsq adj src ord ranked h
    unfold GetCurrentConstructorStandings at h
    split at h
    · exact Except.noConfusion h
    · cases h
      exact (rankStandings_pairwise _).chain'

/-- Instance of C10: four entries given as (5, 0), (7, 0), (7, 1), (5, 0)
come out as (7, 1), (7, 0), (5, 0), (5, 0), and the driver standings of the
example data source are sorted. -/
theorem C10_standings_sorted_witness :
    (rankStandings [⟨0, "a", "t", 5, 0, ""⟩, ⟨0, "b", "t", 7, 0, ""⟩, ⟨0, "c", "u", 7, 1, ""⟩,
        ⟨0, "d", "u", 5, 0, ""⟩]).map (fun e => (e.Points, e.Wins)) =
      [(7, 1), (7, 0), (5, 0), (5, 0)] ∧
    List.Chain' (fun a b => a.Points > b.Points ∨ (a.Points = b.Points ∧ a.Wins ≥ b.Wins))
      (rankStandings [⟨0, "a", "t", 5, 0, ""⟩, ⟨0, "b", "t", 7, 0, ""⟩, ⟨0, "c", "u", 7, 1, ""⟩,
        ⟨0, "d", "u", 5, 0, ""⟩]) ∧
    ∃ ranked, GetCurrentDriverStandings DisqualifiedDrivers PositionAdjustments exampleSource
        insertionOrder = .ok ranked ∧
      ranked.map (fun e => (e.Driver, e.Points, e.Wins)) =
        [("Oscar PIASTRI", 32, 1), ("Lando NORRIS", 23, 0), ("Esteban OCON", 10, 0),
          ("Charles LECLERC", 0, 0)] ∧
      List.Chain' RankedBefore ranked :=
  ⟨by decide,
   (C10_standings_sorted [⟨0, "a", "t", 5, 0, ""⟩, ⟨0, "b", "t", 7, 0, ""⟩,
      ⟨0, "c", "u", 7, 1, ""⟩, ⟨0, "d", "u", 5, 0, ""⟩]).1,
   _, rfl, by decide,
   (C10_standings_sorted []).2.2.1 DisqualifiedDrivers PositionAdjustments exampleSource
      insertionOrder _ rfl⟩

/-! ## The sort permutes its input (C11) -/

theorem swap_perm (standings : List StandingEntry) (i j : Nat) (hi : i < standings.length)
    (hj : j < standings.length) :
    ((standings.set i standings[j]).set j standings[i]).Perm standings := by
  rw [List.perm_iff_count]
  intro b
  have hj' : j < (standings.set i standings[j]).length := by simpa using hj
  have h3 : (standings.set i standings[j])[j] = standings[j] := by
    rw [List.getElem_set]
    split_ifs <;> rfl
  rw [List.count_set _ _ _ _ hj', List.count_set _ _ _ _ hi, h3]
  have hc1 : standings[i] = b → 0 < List.count b standings :=
    fun h => List.count_pos_iff.2 (h ▸ List.getElem_mem hi)
  have hc2 : standings[j] = b → 0 < List.count b standings :=
    fun h => List.count_pos_iff.2 (h ▸ List.getElem_mem hj)
  by_cases hb1 : standings[i] = b <;> by_cases hb2 : standings[j] = b <;>
    simp only [hb1, hb2, beq_self_eq_true, beq_iff_eq, if_true, if_false] <;>
    first
      | omega
      | (have h := hc1 hb1; omega)

theorem compareSwap_perm (i j : Nat) (standings : List StandingEntry) :
    (compareSwap i j standings).Perm standings := by
  unfold compareSwap
  cases hi : standings[i]? with
  | none => exact List.Perm.refl _
  | some si =>
    cases hj : standings[j]? with
    | none => exact List.Perm.refl _
    | some sj =>
      simp only
      split_ifs
      · obtain ⟨hilt, hieq⟩ := List.getElem?_eq_some.1 hi
        obtain ⟨hjlt, hjeq⟩ := List.getElem?_eq_some.1 hj
        subst hieq
        subst hjeq
        exact swap_perm standings i j hilt hjlt
      · exact List.Perm.refl _

theorem foldl_perm {ι : Type} (step : List StandingEntry → ι → List StandingEntry)
    (hstep : ∀ s k, (step s k).Perm s) (ks : List ι) (standings : List StandingEntry) :
    (ks.foldl step standings).Perm standings := by
  induction ks generalizing standings with
  | nil => exact List.Perm.refl _
  | cons k rest ih => exact (ih (step standings k)).trans (hstep standings k)

theorem innerLoop_perm (i : Nat) (standings : List StandingEntry) :
    (innerLoop i standings).Perm standings :=
  foldl_perm (fun s j => compareSwap i j s) (fun s j => compareSwap_perm i j s) _ standings

/-- The exchange sort only reorders the entries. -/
theorem sortStandings_perm (standings : List StandingEntry) :
    (sortStandings standings).Perm standings :=
  foldl_perm (fun s i => innerLoop i s) (fun s i => innerLoop_perm i s) _ standings

theorem foldl_fixed {ι : Type} (step : List StandingEntry → ι → List StandingEntry)
    (standings : List StandingEntry) (ks : List ι)
    (hstep : ∀ k ∈ ks, step standings k = standings) : ks.foldl step standings = standings := by
  induction ks with
  | nil => rfl
  | cons k rest ih =>
    rw [List.foldl_cons, hstep k (List.mem_cons_self _ _)]
    exact ih (fun k' hk' => hstep k' (List.mem_cons_of_mem _ hk'))

/-- On a list in ranking order no compare-and-swap at `i < j` swaps. -/
theorem compareSwap_of_ranked {standings : List StandingEntry}
    (h : List.Pairwise RankedBefore standings) {i j : Nat} (hij : i < j) :
    compareSwap i j standings = standings := by
  unfold compareSwap
  cases hi : standings[i]? with
  | none => rfl
  | some si =>
    cases hj : standings[j]? with
    | none => rfl
    | some sj =>
      obtain ⟨hilt, hieq⟩ := List.getElem?_eq_some.1 hi
      obtain ⟨hjlt, hjeq⟩ := List.getElem?_eq_some.1 hj
      have hr := (List.pairwise_iff_getElem.1 h) i j hilt hjlt hij
      rw [hieq, hjeq, ← outranks_eq_false_iff] at hr
      simp [hr]

theorem sortStandings_of_ranked {standings : List StandingEntry}
    (h : List.Pairwise RankedBefore standings) : sortStandings standings = standings := by
  unfold sortStandings
  apply foldl_fixed
  intro i _
  unfold innerLoop
  apply foldl_fixed
  intro j hj
  rw [List.mem_range'_1] at hj
  exact compareSwap_of_ranked h (by omega)

/-- The claim C11 as stated fails: entries a and b have the same points and
wins and a stands before b in the input, but the swap of a with the later
entry c puts a behind b in the output. -/
theorem C11_counterexample :
    sortStandings [⟨0, "a", "t", 5, 0, ""⟩, ⟨0, "b", "t", 5, 0, ""⟩, ⟨0, "c", "t", 7, 0, ""⟩] =
      [⟨0, "c", "t", 7, 0, ""⟩, ⟨0, "b", "t", 5, 0, ""⟩, ⟨0, "a", "t", 5, 0, ""⟩] ∧
    (rankStandings [⟨0, "a", "t", 5, 0, ""⟩, ⟨0, "b", "t", 5, 0, ""⟩,
      ⟨0, "c", "t", 7, 0, ""⟩]).map (·.Driver) = ["c", "b", "a"] := by
  decide

/-- C11, amended: the ranking sort is not stable, it only reorders.  Its
output is a permutation of the list handed to it, in ranking order, and a list
that is already in ranking order (no entry outranked by a later one) comes
back unchanged, so that entries with equal points and equal wins keep their
relative order in that case. -/
theorem C11_sort_permutes (standings : List StandingEntry) :
    (sortStandings standings).Perm standings ∧
    List.Pairwise (fun a b => a.Points > b.Points ∨ (a.Points = b.Points ∧ a.Wins ≥ b.Wins))
      (sortStandings standings) ∧
    (List.Pairwise (fun a b => a.Points > b.Points ∨ (a.Points = b.Points ∧ a.Wins ≥ b.Wins))
        standings → sortStandings standings = standings) :=
  ⟨sortStandings_perm standings, sortStandings_pairwise standings,
    fun h => sortStandings_of_ranked h⟩

/-- Instance of C11, amended: a list in ranking order with a tie between a
and b is returned as it is. -/
theorem C11_sort_permutes_witness :
    sortStandings [⟨0, "c", "t", 7, 0, ""⟩, ⟨0, "a", "t", 5, 0, ""⟩, ⟨0, "b", "t", 5, 0, ""⟩] =
      [⟨0, "c", "t", 7, 0, ""⟩, ⟨0, "a", "t", 5, 0, ""⟩, ⟨0, "b", "t", 5, 0, ""⟩] :=
  (C11_sort_permutes [⟨0, "c", "t", 7, 0, ""⟩, ⟨0, "a", "t", 5, 0, ""⟩,
    ⟨0, "b", "t", 5, 0, ""⟩]).2.2 (by decide)

/-! ## Rank and gap (C12) -/

theorem rankStandings_positionsAndGaps (standings : List StandingEntry) :
    PositionsAndGaps (rankStandings standings) := by
  intro i entry hentry
  have hsorted := sortStandings_pairwise standings
  unfold rankStandings assignPositionAndGap at hentry ⊢
  rw [List.getElem?_mapIdx] at hentry
  cases hx : (sortStandings standings)[i]? with
  | none =>
    rw [hx] at hentry
    exact Option.noConfusion hentry
  | some x =>
    rw [hx] at hentry
    simp only [Option.map_some', Option.some.injEq] at hentry
    subst hentry
    obtain ⟨hilt, hieq⟩ := List.getElem?_eq_some.1 hx
    refine ⟨rfl, ?_, ?_⟩
    · intro h0
      simp [h0]
    · intro hpos
      have h0lt : 0 < (sortStandings standings).length := by omega
      have hy : (sortStandings standings)[0]? = some (sortStandings standings)[0] :=
        List.getElem?_eq_getElem h0lt
      have hr := (List.pairwise_iff_getElem.1 hsorted) 0 i h0lt hilt hpos
      rw [hieq] at hr
      have hlead : ∃ leader : StandingEntry,
          (List.mapIdx (fun (i : Nat) (entry : StandingEntry) =>
            ({ entry with
              Position := (i : Int) + 1
              Gap := if i = 0 then "Leader"
                     else "-" ++ toString ((((sortStandings standings)[0]?).map (·.Points)).getD 0
                       - entry.Points) } : StandingEntry))
            (sortStandings standings))[0]? = some leader ∧
          leader.Points = (sortStandings standings)[0].Points := by
        rw [List.getElem?_mapIdx, hy]
        exact ⟨_, rfl, rfl⟩
      obtain ⟨leader, hl, hlp⟩ := hlead
      refine ⟨leader, hl, ?_, ?_⟩
      · have hne : i ≠ 0 := by omega
        simp [hne, hy, hlp]
      · simp only [hlp]
        unfold RankedBefore at hr
        omega

/-- C12: in every list that the ranking step returns, and so in every list
returned by the driver standings and by the constructor standings, the entry
at index i has Position i + 1, the entry at index 0 has the gap Leader, and
each entry at an index above 0 has as gap a minus sign followed by the decimal
rendering of the points of entry 0 minus its own points, which is at least 0. -/
theorem C12_position_and_gap (standings : List StandingEntry) :
    PositionsAndGaps (rankStandings standings) ∧
    (∀ dsq adj src ord ranked, GetCurrentDriverStandings dsq adj src ord = .ok ranked →
      PositionsAndGaps ranked) ∧
    (∀ dsq adj src ord ranked, GetCurrentConstructorStandings dsq adj src ord = .ok ranked →
      PositionsAndGaps ranked) := by
  refine ⟨rankStandings_positionsAndGaps standings, ?_, ?_⟩
  · intro dsq adj src ord ranked h
    unfold GetCurrentDriverStandings at h
    split at h
    · exact Except.noConfusion h
    · split at h
      · exact Except.noConfusion h
      · cases h
        exact rankStandings_positionsAndGaps _
  · intro dsq adj src ord ranked h
    unfold GetCurrentConstructorStandings at h
    split at h
    · exact Except.noConfusion h
    · cases h
      exact rankStandings_positionsAndGaps _

/-- Instance of C12 on the driver standings of the example data source: the
third entry has position 3 and gap -22, the leader having 32 points. -/
theorem C12_position_and_gap_witness :
    ∃ ranked entry, GetCurrentDriverStandings DisqualifiedDrivers PositionAdjustments
        exampleSource insertionOrder = .ok ranked ∧ ranked[2]? = some entry ∧
      (entry.Position, entry.Points, entry.Gap) = (3, 10, "-22") ∧
      entry.Position = ((2 : Nat) : Int) + 1 ∧
      ∃ leader, ranked[0]? = some leader ∧
        entry.Gap = "-" ++ toString (leader.Points - entry.Points) ∧
        0 ≤ leader.Points - entry.Points :=
  ⟨_, _, rfl, rfl, by decide,
   ((C12_position_and_gap []).2.1 DisqualifiedDrivers PositionAdjustments exampleSource
      insertionOrder _ rfl 2 _ rfl).1,
   ((C12_position_and_gap []).2.1 DisqualifiedDrivers PositionAdjustments exampleSource
      insertionOrder _ rfl 2 _ rfl).2.2 (by decide)⟩

/-! ## The scenario of session 9998 (C14) -/

/-- C14: in a session named Race with key 9998 and a roster holding 31 and
16, a result of competitor 31, at raw position 7 or any other, adds exactly 10
points (the promoted position 5) and no win to competitor 31, and a result of
competitor 16, at position 1 or any other, changes nothing.  The registry lists exactly
16, 44 and 10 as disqualified for 9998 and maps 31 to 5 and 12 to 6 there. -/
theorem C14_session_9998 (session : OpenF1Session) (driverPoints : List (Int × StandingData))
    (standing31 standing16 : StandingData) (result31 result16 : OpenF1Position)
    (hkey : session.SessionKey = 9998) (hname : session.SessionName = "Race")
    (h31 : mapGet driverPoints 31 = some standing31)
    (h16 : mapGet driverPoints 16 = some standing16)
    (hr31 : result31.DriverNumber = 31) (hr16 : result16.DriverNumber = 16) :
    mapGet (awardResult DisqualifiedDrivers PositionAdjustments session driverPoints result31) 31 =
      some ⟨standing31.Points + 10, standing31.Wins⟩ ∧
    mapGet (awardResult DisqualifiedDrivers PositionAdjustments session driverPoints result16) 16 =
      some standing16 ∧
    (∀ driver : Int, isDisqualified DisqualifiedDrivers 9998 driver = true ↔
      driver = 16 ∨ driver = 44 ∨ driver = 10) ∧
    mapGet DisqualifiedDrivers 9998 = some [16, 44, 10] ∧
    (∃ adjustments, mapGet PositionAdjustments 9998 = some adjustments ∧
      mapGet adjustments 31 = some 5 ∧ mapGet adjustments 12 = some 6) := by
  refine ⟨?_, ?_, ?_, by decide,
    ⟨[(31, 5), (12, 6), (23, 7), (87, 8), (18, 9), (55, 10)], by decide, by decide, by decide⟩⟩
  · have hnot : isDisqualified DisqualifiedDrivers session.SessionKey result31.DriverNumber =
        false := by
      rw [hkey, hr31]
      decide
    have hpos : finalPosition PositionAdjustments session.SessionKey result31 = 5 := by
      have hadj : mapGet PositionAdjustments 9998 =
          some [(31, 5), (12, 6), (23, 7), (87, 8), (18, 9), (55, 10)] := by decide
      unfold finalPosition
      rw [hkey, hr31, hadj]
      rfl
    have hroster : mapGet driverPoints result31.DriverNumber = some standing31 := by
      rw [hr31]
      exact h31
    rw [awardResult_scored _ _ _ _ _ standing31 hroster hnot, hpos, hr31, mapGet_mapSet_self]
    simp [awardWin, awardPoints, selectPointsSystem, hname, PointsSystem, mapGet]
  · have hdsq : isDisqualified DisqualifiedDrivers session.SessionKey result16.DriverNumber =
        true := by
      rw [hkey, hr16]
      decide
    rw [awardResult_disqualified _ _ _ _ _ hdsq]
    exact h16
  · intro driver
    rw [isDisqualified_eq_true_iff]
    constructor
    · rintro ⟨ds, hds, hmem⟩
      have h2 : mapGet DisqualifiedDrivers 9998 = some [16, 44, 10] := by decide
      rw [h2] at hds
      cases hds
      simpa using hmem
    · intro h
      exact ⟨[16, 44, 10], by decide, by simpa using h⟩

/-- Instance of C14: from (3, 0) competitor 31 goes to (13, 0), and
competitor 16 stays at (20, 1) after a first place. -/
theorem C14_session_9998_witness :
    mapGet (awardResult DisqualifiedDrivers PositionAdjustments
        ⟨9998, "Race", 10, "Race", "Shanghai"⟩ [(16, ⟨20, 1⟩), (31, ⟨3, 0⟩)]
        ⟨40, 31, 1255, 7, 9998⟩) 31 = some ⟨3 + 10, 0⟩ ∧
    mapGet (awardResult DisqualifiedDrivers PositionAdjustments
        ⟨9998, "Race", 10, "Race", "Shanghai"⟩ [(16, ⟨20, 1⟩), (31, ⟨3, 0⟩)]
        ⟨40, 16, 1255, 1, 9998⟩) 16 = some ⟨20, 1⟩ :=
  ⟨(C14_session_9998 ⟨9998, "Race", 10, "Race", "Shanghai"⟩ [(16, ⟨20, 1⟩), (31, ⟨3, 0⟩)]
      ⟨3, 0⟩ ⟨20, 1⟩ ⟨40, 31, 1255, 7, 9998⟩ ⟨40, 16, 1255, 1, 9998⟩ rfl rfl (by decide)
      (by decide) rfl rfl).1,
   (C14_session_9998 ⟨9998, "Race", 10, "Race", "Shanghai"⟩ [(16, ⟨20, 1⟩), (31, ⟨3, 0⟩)]
      ⟨3, 0⟩ ⟨20, 1⟩ ⟨40, 31, 1255, 7, 9998⟩ ⟨40, 16, 1255, 1, 9998⟩ rfl rfl (by decide)
      (by decide) rfl rfl).2.1⟩

/-! ## Failures and skipped sessions (C17 to C20) -/

theorem foldl_filter_of_skip {α β : Type} (step : β → α → β) (keep : α → Bool)
    (hskip : ∀ b a, keep a = false → step b a = b) (l : List α) (b : β) :
    (l.filter keep).foldl step b = l.foldl step b := by
  induction l generalizing b with
  | nil => rfl
  | cons a rest ih =>
    cases hk : keep a with
    | true => simp [List.filter_cons, hk, ih]
    | false => simp [List.filter_cons, hk, ih, hskip b a hk]

theorem GetAllRaceAndSprintSessions_keepSessions (keep : OpenF1Session → Bool)
    (src : DataSource) :
    GetAllRaceAndSprintSessions (keepSessions keep src) =
      (GetAllRaceAndSprintSessions src).map (List.filter keep) := by
  obtain ⟨race, sprint, drivers, positions, now⟩ := src
  have hcomm : ∀ (p : OpenF1Session → Bool) (l : List OpenF1Session),
      (l.filter keep).filter p = (l.filter p).filter keep := by
    intro p l
    rw [List.filter_filter, List.filter_filter]
    apply List.filter_congr
    intro s _
    exact Bool.and_comm _ _
  cases race with
  | error e => rfl
  | ok rs =>
    cases sprint with
    | error e =>
      simp only [GetAllRaceAndSprintSessions, GetRaceSessions, GetSprintSessions, keepSessions,
        Except.map]
      rw [hcomm]
    | ok ss =>
      simp only [GetAllRaceAndSprintSessions, GetRaceSessions, GetSprintSessions, keepSessions,
        Except.map]
      rw [hcomm, hcomm, List.filter_append]

theorem processSession_of_not_started (dsq : List (Int × List Int))
    (adj : List (Int × List (Int × Int))) (src : DataSource) (ord : RangeOrder) (now : Int)
    (driverPoints : List (Int × StandingData)) (session : OpenF1Session)
    (h : now < session.DateStart) :
    processSession dsq adj src ord now driverPoints session = driverPoints := by
  unfold processSession
  rw [if_pos h]

theorem processSession_of_unavailable (dsq : List (Int × List Int))
    (adj : List (Int × List (Int × Int))) (src : DataSource) (ord : RangeOrder) (now : Int)
    (driverPoints : List (Int × StandingData)) (session : OpenF1Session)
    (h : resultsAvailable src session = false) :
    processSession dsq adj src ord now driverPoints session = driverPoints := by
  unfold processSession
  split_ifs
  · rfl
  · unfold resultsAvailable at h
    cases hresp : src.positions session.SessionKey with
    | error e => rfl
    | ok positions =>
      rw [hresp] at h
      exact Bool.noConfusion h

/-- An iteration depends on the clock reading only through the comparison
with the start time of its session. -/
theorem processSession_congr_now (dsq : List (Int × List Int))
    (adj : List (Int × List (Int × Int))) (src : DataSource) (ord : RangeOrder)
    (now now' : Int) (driverPoints : List (Int × StandingData)) (session : OpenF1Session)
    (h : now < session.DateStart ↔ now' < session.DateStart) :
    processSession dsq adj src ord now driverPoints session =
      processSession dsq adj src ord now' driverPoints session := by
  unfold processSession
  by_cases h1 : now < session.DateStart
  · rw [if_pos h1, if_pos (h.1 h1)]
  · rw [if_neg h1, if_neg (fun h2 => h1 (h.2 h2))]

/-- When every reading of the clock falls on the same side of each start time
as the instant `t`, the loop is the loop with every reading replaced by `t`. -/
theorem sessionLoop_uniform (dsq : List (Int × List Int))
    (adj : List (Int × List (Int × Int))) (src : DataSource) (ord : RangeOrder)
    (now : Nat → Int) (t : Int) (sessions : List OpenF1Session)
    (h : ∀ session ∈ sessions, ∀ k, (now k < session.DateStart ↔ t < session.DateStart))
    (k : Nat) (driverPoints : List (Int × StandingData)) :
    sessionLoop dsq adj src ord (readings now k sessions) driverPoints =
      sessions.foldl (processSession dsq adj src ord t) driverPoints := by
  induction sessions generalizing k driverPoints with
  | nil => rfl
  | cons session rest ih =>
    unfold sessionLoop at ih ⊢
    simp only [readings, List.foldl_cons]
    rw [processSession_congr_now dsq adj src ord (now k) t driverPoints session
      (h session (List.mem_cons_self _ _) k)]
    exact ih (fun s hs => h s (List.mem_cons_of_mem _ hs)) _ _

/-- Removing failing or skipped iterations from the loop, the other iterations
keeping their clock readings, leaves the map as it is. -/
theorem sessionLoop_filter (dsq : List (Int × List Int))
    (adj : List (Int × List (Int × Int))) (src : DataSource) (ord : RangeOrder)
    (keep : Int × OpenF1Session → Bool)
    (hskip : ∀ driverPoints reading, keep reading = false →
      processSession dsq adj src ord reading.1 driverPoints reading.2 = driverPoints)
    (timed : List (Int × OpenF1Session)) (driverPoints : List (Int × StandingData)) :
    sessionLoop dsq adj src ord (timed.filter keep) driverPoints =
      sessionLoop dsq adj src ord timed driverPoints :=
  foldl_filter_of_skip _ keep hskip timed driverPoints

/-- Two executions that see every session alike accumulate the same map, also
when the second leaves out sessions whose iteration changes nothing. -/
theorem accumulate_filter_of_sameStatus (dsq : List (Int × List Int))
    (adj : List (Int × List (Int × Int))) (src : DataSource) (ord : RangeOrder)
    (now' : Nat → Int) (keep : OpenF1Session → Bool) (drivers : List Driver)
    (sessions : List OpenF1Session) (hsame : SameStatus src.now now' sessions)
    (hskip : ∀ driverPoints session, keep session = false →
      processSession dsq adj src ord (src.now 0) driverPoints session = driverPoints) :
    accumulate dsq adj { src with now := now' } ord drivers (sessions.filter keep) =
      accumulate dsq adj src ord drivers sessions := by
  have hleft : accumulate dsq adj { src with now := now' } ord drivers (sessions.filter keep) =
      sessionLoop dsq adj src ord (readings now' 0 (sessions.filter keep))
        (initDriverPoints drivers) := rfl
  rw [hleft]
  unfold accumulate
  rw [sessionLoop_uniform dsq adj src ord now' (src.now 0) (sessions.filter keep)
      (fun s hs k => (hsame s (List.mem_of_mem_filter hs) 0 k).symm),
    sessionLoop_uniform dsq adj src ord src.now (src.now 0) sessions
      (fun s hs k => (hsame s hs k 0).trans (hsame s hs 0 0).symm)]
  exact foldl_filter_of_skip (processSession dsq adj src ord (src.now 0)) keep hskip sessions _

theorem accumulate_congr_clock (dsq : List (Int × List Int))
    (adj : List (Int × List (Int × Int))) (src : DataSource) (ord : RangeOrder)
    (now' : Nat → Int) (drivers : List Driver) (sessions : List OpenF1Session)
    (hsame : SameStatus src.now now' sessions) :
    accumulate dsq adj { src with now := now' } ord drivers sessions =
      accumulate dsq adj src ord drivers sessions := by
  have h := accumulate_filter_of_sameStatus dsq adj src ord now' (fun _ => true) drivers sessions
    hsame (fun _ _ hk => Bool.noConfusion hk)
  rwa [List.filter_true] at h

/-- Dropping sessions whose loop iteration changes nothing leaves the driver
standings as they are, when the execution without them sees every session as
the execution with them does. -/
theorem GetCurrentDriverStandings_keepSessions (dsq : List (Int × List Int))
    (adj : List (Int × List (Int × Int))) (src : DataSource) (ord : RangeOrder)
    (now' : Nat → Int) (keep : OpenF1Session → Bool)
    (hsame : ∀ sessions, GetAllRaceAndSprintSessions src = .ok sessions →
      SameStatus src.now now' sessions)
    (hskip : ∀ driverPoints session, keep session = false →
      processSession dsq adj src ord (src.now 0) driverPoints session = driverPoints) :
    GetCurrentDriverStandings dsq adj (keepSessions keep { src with now := now' }) ord =
      GetCurrentDriverStandings dsq adj src ord := by
  unfold GetCurrentDriverStandings
  rw [GetAllRaceAndSprintSessions_keepSessions]
  have hall : GetAllRaceAndSprintSessions { src with now := now' } =
      GetAllRaceAndSprintSessions src := rfl
  rw [hall]
  cases hs : GetAllRaceAndSprintSessions src with
  | error e => rfl
  | ok sessions =>
    simp only [Except.map]
    have hdrivers : (keepSessions keep { src with now := now' }).drivers = src.drivers := rfl
    rw [hdrivers]
    cases GetDrivers src.drivers with
    | error e => rfl
    | ok drivers =>
      simp only
      have hacc : accumulate dsq adj (keepSessions keep { src with now := now' }) ord drivers
          (sessions.filter keep) = accumulate dsq adj src ord drivers sessions :=
        accumulate_filter_of_sameStatus dsq adj src ord now' keep drivers sessions
          (hsame sessions hs) hskip
      rw [hacc]

/-- The driver standings of two executions that see every session alike are
the same. -/
theorem GetCurrentDriverStandings_congr_clock (dsq : List (Int × List Int))
    (adj : List (Int × List (Int × Int))) (src : DataSource) (ord : RangeOrder)
    (now' : Nat → Int)
    (hsame : ∀ sessions, GetAllRaceAndSprintSessions src = .ok sessions →
      SameStatus src.now now' sessions) :
    GetCurrentDriverStandings dsq adj { src with now := now' } ord =
      GetCurrentDriverStandings dsq adj src ord := by
  unfold GetCurrentDriverStandings
  have hall : GetAllRaceAndSprintSessions { src with now := now' } =
      GetAllRaceAndSprintSessions src := rfl
  rw [hall]
  cases hs : GetAllRaceAndSprintSessions src with
  | error e => rfl
  | ok sessions =>
    have hdrivers : ({ src with now := now' } : DataSource).drivers = src.drivers := rfl
    simp only [hdrivers]
    cases GetDrivers src.drivers with
    | error e => rfl
    | ok drivers =>
      simp only
      rw [accumulate_congr_clock dsq adj src ord now' drivers sessions (hsame sessions hs)]

/-- C17: when the race-session request fails, the driver standings return
that error; when it succeeds and the roster request fails, they return the
roster error; so a failure of either gives an error and no list.  When the
driver standings return an error, the constructor standings return it too. -/
theorem C17_fatal_fetch_errors (dsq : List (Int × List Int))
    (adj : List (Int × List (Int × Int))) (src : DataSource) (ord : RangeOrder) :
    (∀ err, src.raceSessions = .error err →
      GetCurrentDriverStandings dsq adj src ord = .error err) ∧
    (∀ err sessions, src.raceSessions = .ok sessions → src.drivers = .error err →
      GetCurrentDriverStandings dsq adj src ord = .error err) ∧
    (∀ err, src.drivers = .error err →
      ∃ err', GetCurrentDriverStandings dsq adj src ord = .error err') ∧
    (∀ err, GetCurrentDriverStandings dsq adj src ord = .error err →
      GetCurrentConstructorStandings dsq adj src ord = .error err) := by
  have hroster : ∀ err sessions, src.raceSessions = .ok sessions → src.drivers = .error err →
      GetCurrentDriverStandings dsq adj src ord = .error err := by
    intro err sessions hrace hdrv
    unfold GetCurrentDriverStandings GetAllRaceAndSprintSessions GetRaceSessions GetDrivers
    rw [hrace, hdrv]
    cases GetSprintSessions src.sprintSessions <;> rfl
  have hrace : ∀ err, src.raceSessions = .error err →
      GetCurrentDriverStandings dsq adj src ord = .error err := by
    intro err h
    unfold GetCurrentDriverStandings GetAllRaceAndSprintSessions GetRaceSessions
    rw [h]
  refine ⟨hrace, hroster, ?_, ?_⟩
  · intro err hdrv
    cases hr : src.raceSessions with
    | error e => exact ⟨e, hrace e hr⟩
    | ok sessions => exact ⟨err, hroster err sessions hr hdrv⟩
  · intro err h
    unfold GetCurrentConstructorStandings
    rw [h]

/-- Instance of C17: with the roster request failing, both standings return
the roster error. -/
theorem C17_fatal_fetch_errors_witness :
    GetCurrentDriverStandings DisqualifiedDrivers PositionAdjustments
      ⟨.ok [⟨9998, "Race", 10, "Race", "Shanghai"⟩], .ok [], .error "failed to make request",
        fun _ => .ok [], fun _ => 100⟩ insertionOrder = .error "failed to make request" ∧
    GetCurrentConstructorStandings DisqualifiedDrivers PositionAdjustments
      ⟨.ok [⟨9998, "Race", 10, "Race", "Shanghai"⟩], .ok [], .error "failed to make request",
        fun _ => .ok [], fun _ => 100⟩ insertionOrder = .error "failed to make request" :=
  ⟨(C17_fatal_fetch_errors DisqualifiedDrivers PositionAdjustments
      ⟨.ok [⟨9998, "Race", 10, "Race", "Shanghai"⟩], .ok [], .error "failed to make request",
        fun _ => .ok [], fun _ => 100⟩ insertionOrder).2.1 _ _ rfl rfl,
   (C17_fatal_fetch_errors DisqualifiedDrivers PositionAdjustments
      ⟨.ok [⟨9998, "Race", 10, "Race", "Shanghai"⟩], .ok [], .error "failed to make request",
        fun _ => .ok [], fun _ => 100⟩ insertionOrder).2.2.2 _ rfl⟩

/-- The claim C18 as stated fails: with the race-session request answered
and the sprint-session request failing, `GetAllRaceAndSprintSessions` returns
the race session and no error, and the driver standings are computed. -/
theorem C18_counterexample :
    GetAllRaceAndSprintSessions
        { exampleSource with sprintSessions := .error "failed to make request" } =
      .ok [⟨9998, "Race", 10, "Race", "Shanghai"⟩, ⟨7777, "Race", 900, "Race", "Monza"⟩] ∧
    ∃ ranked, GetCurrentDriverStandings DisqualifiedDrivers PositionAdjustments
        { exampleSource with sprintSessions := .error "failed to make request" }
        insertionOrder = .ok ranked ∧
      ranked.map (fun e => (e.Driver, e.Points, e.Wins)) =
        [("Oscar PIASTRI", 25, 1), ("Lando NORRIS", 15, 0), ("Esteban OCON", 10, 0),
          ("Charles LECLERC", 0, 0)] :=
  ⟨rfl, _, rfl, by decide⟩

/-- C18, amended: only a failure of the race-session request is fatal.  When
the sprint-session request fails while the race-session request succeeds,
`GetAllRaceAndSprintSessions` returns the race sessions alone with no error,
and the driver standings are those computed as if there were no sprint
session. -/
theorem C18_sprint_failure_tolerated (dsq : List (Int × List Int))
    (adj : List (Int × List (Int × Int))) (src : DataSource) (ord : RangeOrder) (err : String)
    (hsprint : src.sprintSessions = .error err) :
    GetAllRaceAndSprintSessions src = GetRaceSessions src.raceSessions ∧
    (∀ allSessions, src.raceSessions = .ok allSessions →
      GetAllRaceAndSprintSessions src =
        .ok (allSessions.filter (fun session => session.SessionName = "Race"))) ∧
    GetCurrentDriverStandings dsq adj src ord =
      GetCurrentDriverStandings dsq adj { src with sprintSessions := .ok [] } ord ∧
    (∀ err', src.raceSessions = .error err' → GetAllRaceAndSprintSessions src = .error err') := by
  have hall : GetAllRaceAndSprintSessions src = GetRaceSessions src.raceSessions := by
    unfold GetAllRaceAndSprintSessions
    rw [hsprint]
    cases GetRaceSessions src.raceSessions <;> rfl
  have hempty : GetAllRaceAndSprintSessions { src with sprintSessions := .ok [] } =
      GetRaceSessions src.raceSessions := by
    unfold GetAllRaceAndSprintSessions
    cases GetRaceSessions src.raceSessions with
    | error e => rfl
    | ok rs => simp [GetSprintSessions]
  refine ⟨hall, ?_, ?_, ?_⟩
  · intro allSessions hrace
    rw [hall, hrace]
    rfl
  · unfold GetCurrentDriverStandings
    rw [hall, hempty]
    rfl
  · intro err' hrace
    rw [hall, hrace]
    rfl

/-- Instance of C18, amended, on the data source of the counterexample. -/
theorem C18_sprint_failure_tolerated_witness :
    GetAllRaceAndSprintSessions
        { exampleSource with sprintSessions := .error "failed to make request" } =
      GetRaceSessions exampleSource.raceSessions :=
  (C18_sprint_failure_tolerated DisqualifiedDrivers PositionAdjustments
    { exampleSource with sprintSessions := .error "failed to make request" } insertionOrder
    "failed to make request" rfl).1

/-- The claim C19 as stated fails, because the clock is read afresh in every
iteration.  In `failingSource` the request for the results of race 900 fails
and race 902 starts at 3; the clock reads 0 in the first iteration and 5 in
the second.  The standings score race 902, read at 5, and give driver 4 its
25 points and win.  With the failing race 900 removed from the session list,
race 902 is read in the first iteration, at 0, has not started, and driver 4
has nothing. -/
theorem C19_counterexample :
    resultsAvailable failingSource ⟨900, "Race", -10, "Race", "Miami"⟩ = false ∧
    standingsTable (GetCurrentDriverStandings DisqualifiedDrivers PositionAdjustments
        failingSource insertionOrder) =
      [("Lando NORRIS", 25, 1), ("Oscar PIASTRI", 0, 0), ("Charles LECLERC", 0, 0)] ∧
    standingsTable (GetCurrentDriverStandings DisqualifiedDrivers PositionAdjustments
        (keepSessions (resultsAvailable failingSource) failingSource) insertionOrder) =
      [("Charles LECLERC", 0, 0), ("Oscar PIASTRI", 0, 0), ("Lando NORRIS", 0, 0)] := by
  decide

/-- C19, amended: a session whose result request fails is skipped and no
error surfaces.  Whenever the race-session and roster requests succeed, the
driver standings succeed.  The loop iteration of a failing session leaves the
map unchanged at every clock reading, so the loop gives the same map when the
failing iterations are taken out and the other sessions keep the clock
readings of their iterations.  The accumulated map and the driver standings
equal those of an execution over the session list with every failing session
removed, whatever clock that execution reads, provided the two executions see
every session alike: each reading of either clock falls on the same side of
each session's start time. -/
theorem C19_failed_session_skipped (dsq : List (Int × List Int))
    (adj : List (Int × List (Int × Int))) (src : DataSource) (ord : RangeOrder) :
    (∀ allSessions openF1Drivers, src.raceSessions = .ok allSessions →
      src.drivers = .ok openF1Drivers →
      ∃ ranked, GetCurrentDriverStandings dsq adj src ord = .ok ranked) ∧
    (∀ now driverPoints session err, src.positions session.SessionKey = .error err →
      processSession dsq adj src ord now driverPoints session = driverPoints) ∧
    (∀ timed driverPoints,
      sessionLoop dsq adj src ord
          (timed.filter (fun reading => resultsAvailable src reading.2)) driverPoints =
        sessionLoop dsq adj src ord timed driverPoints) ∧
    (∀ now' drivers sessions, SameStatus src.now now' sessions →
      accumulate dsq adj { src with now := now' } ord drivers
          (sessions.filter (resultsAvailable src)) =
        accumulate dsq adj src ord drivers sessions) ∧
    (∀ now', (∀ sessions, GetAllRaceAndSprintSessions src = .ok sessions →
        SameStatus src.now now' sessions) →
      GetCurrentDriverStandings dsq adj
          (keepSessions (resultsAvailable src) { src with now := now' }) ord =
        GetCurrentDriverStandings dsq adj src ord) := by
  refine ⟨?_, ?_, ?_, ?_, ?_⟩
  · intro allSessions openF1Drivers hrace hdrv
    unfold GetCurrentDriverStandings GetAllRaceAndSprintSessions GetRaceSessions GetDrivers
    rw [hrace, hdrv]
    cases GetSprintSessions src.sprintSessions <;> exact ⟨_, rfl⟩
  · intro now driverPoints session err herr
    apply processSession_of_unavailable
    unfold resultsAvailable
    rw [herr]
  · intro timed driverPoints
    exact sessionLoop_filter dsq adj src ord (fun reading => resultsAvailable src reading.2)
      (fun dp reading h => processSession_of_unavailable dsq adj src ord reading.1 dp reading.2 h)
      timed driverPoints
  · intro now' drivers sessions hsame
    exact accumulate_filter_of_sameStatus dsq adj src ord now' (resultsAvailable src) drivers
      sessions hsame
      (fun dp s h => processSession_of_unavailable dsq adj src ord (src.now 0) dp s h)
  · intro now' hsame
    exact GetCurrentDriverStandings_keepSessions dsq adj src ord now' (resultsAvailable src) hsame
      (fun dp s h => processSession_of_unavailable dsq adj src ord (src.now 0) dp s h)

/-- Instance of C19, amended: in the example data source let the sprint 10028
have no results.  The standings succeed, the iteration of the sprint leaves
the map unchanged, and an execution without the sprint whose clock reads 150
throughout, where the first reads 100, returns the same standings. -/
theorem C19_failed_session_skipped_witness :
    (∃ ranked, GetCurrentDriverStandings DisqualifiedDrivers PositionAdjustments
      { exampleSource with
        positions := fun k => if k = 9998 then exampleSource.positions k else .error "404" }
      insertionOrder = .ok ranked) ∧
    processSession DisqualifiedDrivers PositionAdjustments
      { exampleSource with
        positions := fun k => if k = 9998 then exampleSource.positions k else .error "404" }
      insertionOrder 100 [(4, ⟨15, 0⟩)] ⟨10028, "Sprint", 20, "Race", "Miami"⟩ =
        [(4, ⟨15, 0⟩)] ∧
    GetCurrentDriverStandings DisqualifiedDrivers PositionAdjustments
      (keepSessions
        (resultsAvailable { exampleSource with
          positions := fun k => if k = 9998 then exampleSource.positions k else .error "404" })
        { exampleSource with
          positions := fun k => if k = 9998 then exampleSource.positions k else .error "404"
          now := fun _ => 150 }) insertionOrder =
      GetCurrentDriverStandings DisqualifiedDrivers PositionAdjustments
        { exampleSource with
          positions := fun k => if k = 9998 then exampleSource.positions k else .error "404" }
        insertionOrder :=
  ⟨(C19_failed_session_skipped DisqualifiedDrivers PositionAdjustments
      { exampleSource with
        positions := fun k => if k = 9998 then exampleSource.positions k else .error "404" }
      insertionOrder).1 _ _ rfl rfl,
   (C19_failed_session_skipped DisqualifiedDrivers PositionAdjustments
      { exampleSource with
        positions := fun k => if k = 9998 then exampleSource.positions k else .error "404" }
      insertionOrder).2.1 100 _ ⟨10028, "Sprint", 20, "Race", "Miami"⟩ "404" rfl,
   (C19_failed_session_skipped DisqualifiedDrivers PositionAdjustments
      { exampleSource with
        positions := fun k => if k = 9998 then exampleSource.positions k else .error "404" }
      insertionOrder).2.2.2.2 (fun _ => 150) (fun sessions hs session hmem k k' => by
        have hlist : sessions = [⟨9998, "Race", 10, "Race", "Shanghai"⟩,
            ⟨7777, "Race", 900, "Race", "Monza"⟩, ⟨10028, "Sprint", 20, "Race", "Miami"⟩] :=
          (Except.ok.inj hs).symm
        subst hlist
        simp only [List.mem_cons, List.mem_singleton, List.not_mem_nil, or_false] at hmem
        rcases hmem with h | h | h <;> subst h
        · show ((100 : Int) < 10 ↔ (150 : Int) < 10)
          decide
        · show ((100 : Int) < 900 ↔ (150 : Int) < 900)
          decide
        · show ((100 : Int) < 20 ↔ (150 : Int) < 20)
          decide)⟩

/-- The claim C20 as stated fails, because there is no one current time: the
clock is read afresh in every iteration.  In `clockSource` the loop ranges
over race 901 (start 2), race 900 (start -10) and race 902 (start 3) and reads
the clock as 0, 5 and 10.  Race 901 is skipped and the later-starting race 902
is scored, so driver 16 has nothing and driver 4 has 25 points and a win,
which no single clock value gives.  In `futureSource` race 903 (start 100) is
skipped at reading 0 and race 902 is scored at reading 5; with race 903
removed from the session list, race 902 is read at 0 and skipped, so the
totals are not those computed with the skipped session removed. -/
theorem C20_counterexample :
    standingsTable (GetCurrentDriverStandings DisqualifiedDrivers PositionAdjustments
        clockSource insertionOrder) =
      [("Oscar PIASTRI", 25, 1), ("Lando NORRIS", 25, 1), ("Charles LECLERC", 0, 0)] ∧
    (∀ t : Int,
      GetCurrentDriverStandings DisqualifiedDrivers PositionAdjustments
          { clockSource with now := fun _ => t } insertionOrder ≠
        GetCurrentDriverStandings DisqualifiedDrivers PositionAdjustments
          clockSource insertionOrder) ∧
    standingsTable (GetCurrentDriverStandings DisqualifiedDrivers PositionAdjustments
        futureSource insertionOrder) =
      [("Lando NORRIS", 25, 1), ("Oscar PIASTRI", 0, 0), ("Charles LECLERC", 0, 0)] ∧
    standingsTable (GetCurrentDriverStandings DisqualifiedDrivers PositionAdjustments
        (keepSessions (fun session => decide (session.SessionKey ≠ 903)) futureSource)
        insertionOrder) =
      [("Charles LECLERC", 0, 0), ("Oscar PIASTRI", 0, 0), ("Lando NORRIS", 0, 0)] := by
  refine ⟨by decide, ?_, by decide, by decide⟩
  intro t h
  have hfrozen : ∀ t0 : Int, (t0 < 2 ↔ t < 2) → (t0 < -10 ↔ t < -10) → (t0 < 3 ↔ t < 3) →
      GetCurrentDriverStandings DisqualifiedDrivers PositionAdjustments
          { clockSource with now := fun _ => t } insertionOrder =
        GetCurrentDriverStandings DisqualifiedDrivers PositionAdjustments
          { clockSource with now := fun _ => t0 } insertionOrder := by
    intro t0 h2 h10 h3
    apply GetCurrentDriverStandings_congr_clock DisqualifiedDrivers PositionAdjustments
      { clockSource with now := fun _ => t0 } insertionOrder (fun _ => t)
    intro sessions hs session hmem k k'
    have hlist : sessions = [⟨901, "Race", 2, "Race", "Imola"⟩,
        ⟨900, "Race", -10, "Race", "Miami"⟩, ⟨902, "Race", 3, "Race", "Monaco"⟩] :=
      (Except.ok.inj hs).symm
    subst hlist
    simp only [List.mem_cons, List.mem_singleton, List.not_mem_nil, or_false] at hmem
    rcases hmem with hm | hm | hm <;> subst hm
    · exact h2
    · exact h10
    · exact h3
  have hcases : t < -10 ∨ (-10 ≤ t ∧ t < 2) ∨ (2 ≤ t ∧ t < 3) ∨ 3 ≤ t := by omega
  rcases hcases with hc | hc | hc | hc
  · rw [hfrozen (-11) (by omega) (by omega) (by omega)] at h
    exact absurd (congrArg standingsTable h) (by decide)
  · rw [hfrozen 0 (by omega) (by omega) (by omega)] at h
    exact absurd (congrArg standingsTable h) (by decide)
  · rw [hfrozen 2 (by omega) (by omega) (by omega)] at h
    exact absurd (congrArg standingsTable h) (by decide)
  · rw [hfrozen 3 (by omega) (by omega) (by omega)] at h
    exact absurd (congrArg standingsTable h) (by decide)

/-- C20, amended: only sessions that have started count, each judged at the
clock reading of its own iteration.  A session whose start time is strictly
after that reading leaves the map unchanged whatever the result request would
answer; a session whose start time is at or before that reading has its
results resolved and scored.  So the loop gives the same map when the skipped
iterations are taken out and the other sessions keep the clock readings of
their iterations, and the driver standings do not depend on the answers for
sessions that have not started at their reading.  The accumulated map and the
driver standings equal those of an execution over the session list with the
sessions not started at the first reading removed, whatever clock that
execution reads, provided the two executions see every session alike: each
reading of either clock falls on the same side of each session's start
time. -/
theorem C20_only_started_sessions (dsq : List (Int × List Int))
    (adj : List (Int × List (Int × Int))) (src : DataSource) (ord : RangeOrder) :
    (∀ now driverPoints session positions', now < session.DateStart →
      processSession dsq adj { src with positions := positions' } ord now driverPoints
        session = driverPoints) ∧
    (∀ now driverPoints session, session.DateStart ≤ now →
      processSession dsq adj src ord now driverPoints session =
        match GetSessionResults ord.finalPositions (src.positions session.SessionKey) with
        | .error _ => driverPoints
        | .ok results => awardSession dsq adj session driverPoints results) ∧
    (∀ timed driverPoints,
      sessionLoop dsq adj src ord
          (timed.filter (fun reading => decide (reading.2.DateStart ≤ reading.1)))
          driverPoints =
        sessionLoop dsq adj src ord timed driverPoints) ∧
    (∀ positions' : Int → Except String (List OpenF1Position),
      (∀ sessions, GetAllRaceAndSprintSessions src = .ok sessions →
        ∀ reading ∈ readings src.now 0 sessions, reading.2.DateStart ≤ reading.1 →
          positions' reading.2.SessionKey = src.positions reading.2.SessionKey) →
      GetCurrentDriverStandings dsq adj { src with positions := positions' } ord =
        GetCurrentDriverStandings dsq adj src ord) ∧
    (∀ now' drivers sessions, SameStatus src.now now' sessions →
      accumulate dsq adj { src with now := now' } ord drivers
          (sessions.filter (hasStarted src)) =
        accumulate dsq adj src ord drivers sessions) ∧
    (∀ now', (∀ sessions, GetAllRaceAndSprintSessions src = .ok sessions →
        SameStatus src.now now' sessions) →
      GetCurrentDriverStandings dsq adj
          (keepSessions (hasStarted src) { src with now := now' }) ord =
        GetCurrentDriverStandings dsq adj src ord) := by
  have hskip : ∀ driverPoints session, hasStarted src session = false →
      processSession dsq adj src ord (src.now 0) driverPoints session = driverPoints := by
    intro dp s h
    apply processSession_of_not_started
    unfold hasStarted at h
    simpa using h
  refine ⟨?_, ?_, ?_, GetCurrentDriverStandings_congr_positions dsq adj src ord, ?_, ?_⟩
  · intro now dp s positions' h
    exact processSession_of_not_started dsq adj _ ord now dp s h
  · intro now dp s h
    unfold processSession
    rw [if_neg (not_lt.2 h)]
  · intro timed driverPoints
    apply sessionLoop_filter
    intro dp reading h
    apply processSession_of_not_started
    simpa using h
  · intro now' drivers sessions hsame
    exact accumulate_filter_of_sameStatus dsq adj src ord now' (hasStarted src) drivers
      sessions hsame hskip
  · intro now' hsame
    exact GetCurrentDriverStandings_keepSessions dsq adj src ord now' (hasStarted src) hsame hskip

/-- Instance of C20, amended: at clock reading 100 the race 7777, which starts
at 900, leaves the map unchanged, and the sprint 10028, which started at 20,
is scored: driver 4 goes from 15 to 23 points.  The driver standings of the
example data source stay the same when the result request for race 7777
answers with a first place of driver 4 instead of failing. -/
theorem C20_only_started_sessions_witness :
    processSession DisqualifiedDrivers PositionAdjustments
      { exampleSource with positions := fun _ => .ok [⟨950, 4, 1300, 1, 7777⟩] } insertionOrder
      100 [(4, ⟨15, 0⟩)] ⟨7777, "Race", 900, "Race", "Monza"⟩ = [(4, ⟨15, 0⟩)] ∧
    processSession DisqualifiedDrivers PositionAdjustments exampleSource insertionOrder
      100 [(4, ⟨15, 0⟩)] ⟨10028, "Sprint", 20, "Race", "Miami"⟩ = [(4, ⟨23, 0⟩)] ∧
    GetCurrentDriverStandings DisqualifiedDrivers PositionAdjustments
      { exampleSource with
        positions := fun k =>
          if k = 7777 then .ok [⟨950, 4, 1300, 1, 7777⟩] else exampleSource.positions k }
      insertionOrder =
      GetCurrentDriverStandings DisqualifiedDrivers PositionAdjustments exampleSource
        insertionOrder :=
  ⟨(C20_only_started_sessions DisqualifiedDrivers PositionAdjustments exampleSource
      insertionOrder).1 100 [(4, ⟨15, 0⟩)] ⟨7777, "Race", 900, "Race", "Monza"⟩
      (fun _ => .ok [⟨950, 4, 1300, 1, 7777⟩]) (by decide),
   ((C20_only_started_sessions DisqualifiedDrivers PositionAdjustments exampleSource
      insertionOrder).2.1 100 [(4, ⟨15, 0⟩)] ⟨10028, "Sprint", 20, "Race", "Miami"⟩
      (by decide)).trans (by decide),
   (C20_only_started_sessions DisqualifiedDrivers PositionAdjustments exampleSource
      insertionOrder).2.2.2.1
      (fun k => if k = 7777 then .ok [⟨950, 4, 1300, 1, 7777⟩] else exampleSource.positions k)
      (fun sessions hs reading hmem hstarted => by
        have hlist : sessions = [⟨9998, "Race", 10, "Race", "Shanghai"⟩,
            ⟨7777, "Race", 900, "Race", "Monza"⟩, ⟨10028, "Sprint", 20, "Race", "Miami"⟩] :=
          (Except.ok.inj hs).symm
        subst hlist
        simp only [readings, List.mem_cons, List.mem_singleton, List.not_mem_nil,
          or_false] at hmem
        rcases hmem with h | h | h <;> subst h
        · rfl
        · exact absurd hstarted (by decide)
        · rfl)⟩

/-! ## What the ranking step keeps -/

theorem length_assignPositionAndGap (standings : List StandingEntry) :
    (assignPositionAndGap standings).length = standings.length := by
  simp [assignPositionAndGap]

theorem length_rankStandings (standings : List StandingEntry) :
    (rankStandings standings).length = standings.length := by
  unfold rankStandings
  rw [length_assignPositionAndGap, length_sortStandings]

theorem assignPositionAndGap_entryData (standings : List StandingEntry) :
    (assignPositionAndGap standings).map entryData = standings.map entryData := by
  apply List.ext_getElem?
  intro i
  unfold assignPositionAndGap
  rw [List.getElem?_map, List.getElem?_map, List.getElem?_mapIdx]
  cases standings[i]? <;> rfl

/-- The ranking step keeps the multiset of (name, team, points, wins). -/
theorem rankStandings_entryData (standings : List StandingEntry) :
    ((rankStandings standings).map entryData).Perm (standings.map entryData) := by
  unfold rankStandings
  rw [assignPositionAndGap_entryData]
  exact (sortStandings_perm standings).map entryData

theorem mem_rankStandings {standings : List StandingEntry} {entry : StandingEntry}
    (h : entry ∈ rankStandings standings) :
    ∃ e0 ∈ standings, entryData e0 = entryData entry := by
  have h1 : entryData entry ∈ (rankStandings standings).map entryData :=
    List.mem_map_of_mem entryData h
  rw [(rankStandings_entryData standings).mem_iff] at h1
  obtain ⟨e0, he0, heq⟩ := List.mem_map.1 h1
  exact ⟨e0, he0, heq⟩

/-! ## Constructor aggregation (C13) -/

/-- A map filled by `m[key] += val` holds, for each key that occurs, the sum
of the values filed under it, and nothing for any other key. -/
theorem mapGet_foldl_add {α : Type} (key : α → String) (val : α → Int) (l : List α)
    (t : String) :
    mapGet (l.foldl (fun m a => mapSet m (key a) ((mapGet m (key a)).getD 0 + val a)) []) t =
      if t ∈ l.map key then some (((l.filter (fun a => decide (key a = t))).map val).sum)
      else none := by
  induction l using List.reverseRecOn with
  | nil => simp [mapGet]
  | append_singleton init a ih =>
    rw [List.foldl_append, List.foldl_cons, List.foldl_nil, mapGet_mapSet]
    by_cases hk : key a = t
    · subst hk
      rw [if_pos rfl, ih]
      have hmem : key a ∈ (init ++ [a]).map key := by simp
      rw [if_pos hmem]
      congr 1
      by_cases hin : key a ∈ init.map key
      · simp [hin, List.filter_append]
      · have hnil : init.filter (fun b => decide (key b = key a)) = [] := by
          rw [List.filter_eq_nil_iff]
          intro b hb
          simp only [decide_eq_true_eq]
          intro hbk
          exact hin (List.mem_map.2 ⟨b, hb, hbk⟩)
        simp [hin, List.filter_append, hnil]
    · rw [if_neg hk, ih]
      have hmem : t ∈ (init ++ [a]).map key ↔ t ∈ init.map key := by
        simp only [List.map_append, List.mem_append, List.map_cons, List.map_nil,
          List.mem_singleton]
        constructor
        · rintro (h | h)
          · exact h
          · exact absurd h.symm hk
        · exact Or.inl
      have hfil : (init ++ [a]).filter (fun b => decide (key b = t)) =
          init.filter (fun b => decide (key b = t)) := by
        simp [List.filter_append, hk]
      simp only [hmem, hfil]

theorem nodup_keys_foldl_mapSet {α κ ν : Type} [DecidableEq κ] (key : α → κ)
    (val : List (κ × ν) → α → ν) (l : List α) (m : List (κ × ν))
    (h : (m.map Prod.fst).Nodup) :
    ((l.foldl (fun m a => mapSet m (key a) (val m a)) m).map Prod.fst).Nodup := by
  induction l generalizing m with
  | nil => exact h
  | cons a rest ih => exact ih _ (nodup_keys_mapSet _ _ h)

theorem teamTotals_fst_aux (driverStandings : List StandingEntry)
    (maps : List (String × Int) × List (String × Int) × List (String × String)) :
    (driverStandings.foldl (fun maps standing =>
      (mapSet maps.1 standing.Team ((mapGet maps.1 standing.Team).getD 0 + standing.Points),
       mapSet maps.2.1 standing.Team ((mapGet maps.2.1 standing.Team).getD 0 + standing.Wins),
       match mapGet maps.2.2 standing.Team with
       | some _ => maps.2.2
       | none => mapSet maps.2.2 standing.Team standing.Team)) maps).1 =
      driverStandings.foldl
        (fun m a => mapSet m a.Team ((mapGet m a.Team).getD 0 + a.Points)) maps.1 := by
  induction driverStandings generalizing maps with
  | nil => rfl
  | cons a rest ih => exact ih _

theorem teamTotals_snd_aux (driverStandings : List StandingEntry)
    (maps : List (String × Int) × List (String × Int) × List (String × String)) :
    (driverStandings.foldl (fun maps standing =>
      (mapSet maps.1 standing.Team ((mapGet maps.1 standing.Team).getD 0 + standing.Points),
       mapSet maps.2.1 standing.Team ((mapGet maps.2.1 standing.Team).getD 0 + standing.Wins),
       match mapGet maps.2.2 standing.Team with
       | some _ => maps.2.2
       | none => mapSet maps.2.2 standing.Team standing.Team)) maps).2.1 =
      driverStandings.foldl
        (fun m a => mapSet m a.Team ((mapGet m a.Team).getD 0 + a.Wins)) maps.2.1 := by
  induction driverStandings generalizing maps with
  | nil => rfl
  | cons a rest ih => exact ih _

/-- What `teamPoints` holds after the loop. -/
theorem mapGet_teamPoints (driverStandings : List StandingEntry) (team : String) :
    mapGet (teamTotals driverStandings).1 team =
      if team ∈ driverStandings.map (·.Team) then some (teamPointsOf driverStandings team)
      else none := by
  unfold teamTotals teamPointsOf
  rw [teamTotals_fst_aux]
  exact mapGet_foldl_add (fun d : StandingEntry => d.Team) (fun d => d.Points) driverStandings
    team

/-- What `teamWins` holds after the loop. -/
theorem mapGet_teamWins (driverStandings : List StandingEntry) (team : String) :
    mapGet (teamTotals driverStandings).2.1 team =
      if team ∈ driverStandings.map (·.Team) then some (teamWinsOf driverStandings team)
      else none := by
  unfold teamTotals teamWinsOf
  rw [teamTotals_snd_aux]
  exact mapGet_foldl_add (fun d : StandingEntry => d.Team) (fun d => d.Wins) driverStandings
    team

theorem nodup_keys_teamPoints (driverStandings : List StandingEntry) :
    ((teamTotals driverStandings).1.map Prod.fst).Nodup := by
  unfold teamTotals
  rw [teamTotals_fst_aux]
  exact nodup_keys_foldl_mapSet (fun d : StandingEntry => d.Team)
    (fun m d => (mapGet m d.Team).getD 0 + d.Points) driverStandings [] List.nodup_nil

theorem keys_teamPoints (driverStandings : List StandingEntry) (team : String) :
    team ∈ (teamTotals driverStandings).1.map Prod.fst ↔
      team ∈ driverStandings.map (·.Team) := by
  have h := mapGet_teamPoints driverStandings team
  have hnone := mapGet_eq_none_iff (teamTotals driverStandings).1 team
  by_cases hmem : team ∈ driverStandings.map (·.Team)
  · rw [if_pos hmem] at h
    refine ⟨fun _ => hmem, fun _ => ?_⟩
    by_contra hc
    rw [hnone.2 hc] at h
    exact Option.noConfusion h
  · rw [if_neg hmem] at h
    exact ⟨fun hk => absurd hk (hnone.1 h), fun hk => absurd hk hmem⟩

theorem GetCurrentConstructorStandings_eq (dsq : List (Int × List Int))
    (adj : List (Int × List (Int × Int))) (src : DataSource) (ord : RangeOrder) :
    GetCurrentConstructorStandings dsq adj src ord =
      (GetCurrentDriverStandings dsq adj src ord).map (constructorStandingsFrom ord.teamPoints) := by
  unfold GetCurrentConstructorStandings
  cases GetCurrentDriverStandings dsq adj src ord <;> rfl

/-- Each constructor entry comes from one entry of `teamPoints`. -/
theorem mem_constructorStandingsFrom (order : List (String × Int) → List (String × Int))
    (horder : ∀ m, (order m).Perm m) (driverStandings : List StandingEntry)
    (entry : StandingEntry) (h : entry ∈ constructorStandingsFrom order driverStandings) :
    ∃ kv ∈ (teamTotals driverStandings).1, entry.Driver = kv.1 ∧ entry.Points = kv.2 ∧
      entry.Wins = (mapGet (teamTotals driverStandings).2.1 kv.1).getD 0 := by
  obtain ⟨e0, he0, hdata⟩ := mem_rankStandings h
  obtain ⟨kv, hkv, hkv0⟩ := List.mem_map.1 he0
  refine ⟨kv, (horder _).mem_iff.1 hkv, ?_, ?_, ?_⟩
  · have : e0.Driver = entry.Driver := congrArg (fun d => d.1) hdata
    rw [← this, ← hkv0]
  · have : e0.Points = entry.Points := congrArg (fun d => d.2.2.1) hdata
    rw [← this, ← hkv0]
  · have : e0.Wins = entry.Wins := congrArg (fun d => d.2.2.2) hdata
    rw [← this, ← hkv0]

theorem names_constructorStandingsFrom (order : List (String × Int) → List (String × Int))
    (horder : ∀ m, (order m).Perm m) (driverStandings : List StandingEntry) :
    ((constructorStandingsFrom order driverStandings).map (·.Driver)).Perm
      ((teamTotals driverStandings).1.map Prod.fst) := by
  have h1 := (rankStandings_entryData (teamEntries (teamTotals driverStandings).2.1
    (teamTotals driverStandings).2.2 (order (teamTotals driverStandings).1))).map Prod.fst
  rw [List.map_map, List.map_map] at h1
  have h2 : (teamEntries (teamTotals driverStandings).2.1 (teamTotals driverStandings).2.2
      (order (teamTotals driverStandings).1)).map (Prod.fst ∘ entryData) =
      (order (teamTotals driverStandings).1).map Prod.fst := by
    unfold teamEntries
    rw [List.map_map]
    rfl
  rw [h2] at h1
  exact h1.trans ((horder _).map Prod.fst)

/-- C13: for every driver standings list and every order of the range over
`teamPoints`, the constructor standings hold exactly one entry for each team
name that occurs in the driver standings and none for any other name, and the
entry of a team has as points the sum of the points, and as wins the sum of
the wins, of the driver entries with that team name.  This list is what
`GetCurrentConstructorStandings` returns when the driver standings succeed. -/
theorem C13_constructor_totals (order : List (String × Int) → List (String × Int))
    (horder : ∀ m, (order m).Perm m) (driverStandings : List StandingEntry) :
    (∀ team : String,
      ((constructorStandingsFrom order driverStandings).map (·.Driver)).count team =
        if team ∈ driverStandings.map (·.Team) then 1 else 0) ∧
    (∀ entry ∈ constructorStandingsFrom order driverStandings,
      entry.Points =
        ((driverStandings.filter (fun d => decide (d.Team = entry.Driver))).map (·.Points)).sum ∧
      entry.Wins =
        ((driverStandings.filter (fun d => decide (d.Team = entry.Driver))).map (·.Wins)).sum) ∧
    (∀ dsq adj src ord, ord.teamPoints = order →
      GetCurrentDriverStandings dsq adj src ord = .ok driverStandings →
      GetCurrentConstructorStandings dsq adj src ord =
        .ok (constructorStandingsFrom order driverStandings)) := by
  refine ⟨?_, ?_, ?_⟩
  · intro team
    rw [(names_constructorStandingsFrom order horder driverStandings).count_eq,
      List.count_eq_of_nodup (nodup_keys_teamPoints driverStandings)]
    simp only [keys_teamPoints]
  · intro entry hentry
    obtain ⟨kv, hkv, hname, hpoints, hwins⟩ :=
      mem_constructorStandingsFrom order horder driverStandings entry hentry
    have hget : mapGet (teamTotals driverStandings).1 kv.1 = some kv.2 :=
      mapGet_of_mem (nodup_keys_teamPoints driverStandings) hkv
    have hteam : kv.1 ∈ driverStandings.map (·.Team) :=
      (keys_teamPoints driverStandings kv.1).1 (List.mem_map.2 ⟨kv, hkv, rfl⟩)
    rw [mapGet_teamPoints, if_pos hteam] at hget
    rw [mapGet_teamWins, if_pos hteam] at hwins
    rw [hname, hpoints, hwins]
    exact ⟨(Option.some.inj hget).symm, rfl⟩
  · intro dsq adj src ord hord hdrivers
    rw [GetCurrentConstructorStandings_eq, hdrivers, hord]
    rfl

/-- Instance of C13 on the example data source: McLaren has the 32 + 23
points of its two drivers and one win. -/
theorem C13_constructor_totals_witness :
    ∃ driverStandings ranked,
      GetCurrentDriverStandings DisqualifiedDrivers PositionAdjustments exampleSource
        insertionOrder = .ok driverStandings ∧
      GetCurrentConstructorStandings DisqualifiedDrivers PositionAdjustments exampleSource
        insertionOrder = .ok ranked ∧
      ranked.map (fun e => (e.Driver, e.Points, e.Wins)) =
        [("McLaren", 55, 1), ("Haas F1 Team", 10, 0), ("Ferrari", 0, 0)] ∧
      ∀ team : String, (ranked.map (·.Driver)).count team =
        if team ∈ driverStandings.map (·.Team) then 1 else 0 :=
  ⟨_, _, rfl, rfl, by decide,
   (C13_constructor_totals id (fun m => List.Perm.refl m) _).1⟩

/-! ## Points awarded by one session (C15) -/

theorem totalPoints_mapSet (driverPoints : List (Int × StandingData)) (k : Int)
    (old new : StandingData) (h : mapGet driverPoints k = some old) :
    totalPoints (mapSet driverPoints k new) = totalPoints driverPoints - old.Points + new.Points := by
  unfold totalPoints
  induction driverPoints with
  | nil => simp [mapGet] at h
  | cons e rest ih =>
    obtain ⟨k0, v0⟩ := e
    by_cases h0 : k0 = k
    · simp only [mapGet, h0, if_true, Option.some.injEq] at h
      subst h
      simp only [mapSet, h0, if_true, List.map_cons, List.sum_cons]
      omega
    · simp only [mapGet, h0, if_false] at h
      simp only [mapSet, h0, if_false, List.map_cons, List.sum_cons, ih h]
      omega

/-- The points that the result scores: the table value at the adjusted
position when the driver is in the map and not disqualified, else nothing. -/
theorem totalPoints_awardResult (dsq : List (Int × List Int))
    (adj : List (Int × List (Int × Int))) (session : OpenF1Session)
    (driverPoints : List (Int × StandingData)) (result : OpenF1Position) :
    totalPoints (awardResult dsq adj session driverPoints result) =
      totalPoints driverPoints +
        if (mapGet driverPoints result.DriverNumber).isSome = true ∧
            isDisqualified dsq session.SessionKey result.DriverNumber = false
        then (mapGet (selectPointsSystem session)
          (finalPosition adj session.SessionKey result)).getD 0
        else 0 := by
  cases hroster : mapGet driverPoints result.DriverNumber with
  | none => simp [awardResult, hroster]
  | some standing =>
    cases hdsq : isDisqualified dsq session.SessionKey result.DriverNumber with
    | true => simp [awardResult, hroster, hdsq]
    | false =>
      rw [awardResult_scored dsq adj session driverPoints result standing hroster hdsq,
        totalPoints_mapSet _ _ standing _ hroster, awardWin_Points, awardPoints_Points]
      simp only [Option.isSome_some, and_self, if_true]
      omega

/-- A result never adds or removes a key of the map. -/
theorem isSome_awardResult (dsq : List (Int × List Int)) (adj : List (Int × List (Int × Int)))
    (session : OpenF1Session) (driverPoints : List (Int × StandingData))
    (result : OpenF1Position) (driver : Int) :
    (mapGet (awardResult dsq adj session driverPoints result) driver).isSome =
      (mapGet driverPoints driver).isSome := by
  by_cases hd : driver = result.DriverNumber
  · subst hd
    cases hroster : mapGet driverPoints result.DriverNumber with
    | none => simp [awardResult, hroster]
    | some standing =>
      cases hdsq : isDisqualified dsq session.SessionKey result.DriverNumber with
      | true => simp [awardResult, hroster, hdsq]
      | false =>
        rw [awardResult_scored dsq adj session driverPoints result standing hroster hdsq,
          mapGet_mapSet_self]
        rfl
  · rw [awardResult_other dsq adj session driverPoints result hd]

/-- The points that a session adds are the table values at the adjusted
positions of the results of drivers in the map who are not disqualified. -/
theorem totalPoints_awardSession (dsq : List (Int × List Int))
    (adj : List (Int × List (Int × Int))) (session : OpenF1Session)
    (results : List OpenF1Position) (driverPoints : List (Int × StandingData)) :
    totalPoints (awardSession dsq adj session driverPoints results) =
      totalPoints driverPoints +
        (((results.filter (fun r => (mapGet driverPoints r.DriverNumber).isSome &&
            !isDisqualified dsq session.SessionKey r.DriverNumber)).map
          (finalPosition adj session.SessionKey)).map
          (fun p => (mapGet (selectPointsSystem session) p).getD 0)).sum := by
  unfold awardSession
  induction results generalizing driverPoints with
  | nil => simp
  | cons result rest ih =>
    rw [List.foldl_cons, ih, totalPoints_awardResult]
    have hkeys : (fun r : OpenF1Position =>
        (mapGet (awardResult dsq adj session driverPoints result) r.DriverNumber).isSome &&
          !isDisqualified dsq session.SessionKey r.DriverNumber) =
        (fun r : OpenF1Position => (mapGet driverPoints r.DriverNumber).isSome &&
          !isDisqualified dsq session.SessionKey r.DriverNumber) := by
      funext r
      rw [isSome_awardResult]
    rw [hkeys, List.filter_cons]
    by_cases hs : (mapGet driverPoints result.DriverNumber).isSome = true ∧
        isDisqualified dsq session.SessionKey result.DriverNumber = false
    · simp only [hs, and_self, if_true, Bool.not_false, Bool.and_self, List.map_cons,
        List.sum_cons]
      omega
    · have hb : ((mapGet driverPoints result.DriverNumber).isSome &&
          !isDisqualified dsq session.SessionKey result.DriverNumber) = false := by
        cases h1 : (mapGet driverPoints result.DriverNumber).isSome <;>
          cases h2 : isDisqualified dsq session.SessionKey result.DriverNumber <;>
          simp_all
      simp only [hs, if_false, hb, Bool.false_eq_true]
      omega

/-- Over pairwise distinct positions, the values looked up in a table with
no negative value add up to at most the sum of all its values. -/
theorem sum_lookup_le (table : List (Int × Int)) (hnonneg : ∀ e ∈ table, 0 ≤ e.2)
    (positions : List Int) (hnodup : positions.Nodup) :
    (positions.map (fun p => (mapGet table p).getD 0)).sum ≤ (table.map Prod.snd).sum := by
  induction table generalizing positions with
  | nil => simp [mapGet]
  | cons e rest ih =>
    obtain ⟨k, v⟩ := e
    have hv : 0 ≤ v := hnonneg (k, v) (List.mem_cons_self _ _)
    have hrest : ∀ e ∈ rest, 0 ≤ e.2 := fun e he => hnonneg e (List.mem_cons_of_mem _ he)
    have hother : ∀ l : List Int, k ∉ l →
        (l.map (fun p => (mapGet ((k, v) :: rest) p).getD 0)).sum =
          (l.map (fun p => (mapGet rest p).getD 0)).sum := by
      intro l hl
      congr 1
      apply List.map_congr_left
      intro p hp
      have hne : ¬ k = p := fun h => hl (h ▸ hp)
      simp [mapGet, hne]
    simp only [List.map_cons, List.sum_cons]
    by_cases hk : k ∈ positions
    · have hperm := List.perm_cons_erase hk
      have hsum := (hperm.map (fun p => (mapGet ((k, v) :: rest) p).getD 0)).sum_eq
      rw [hsum, List.map_cons, List.sum_cons,
        hother _ (fun h => (List.Nodup.mem_erase_iff hnodup).1 h |>.1 rfl)]
      have hih := ih hrest (positions.erase k) (hnodup.erase k)
      simp only [mapGet, if_true, Option.getD_some]
      omega
    · rw [hother _ hk]
      have hih := ih hrest positions hnodup
      omega

/-- The claim C15 as stated fails: in the race 9998 ten drivers finish at the
raw positions 1 to 10 and the drivers 31, 12 and 23 at the raw positions 11,
12 and 13; the adjustment table promotes these three to the positions 5, 6 and
7, which the drivers 14, 27 and 5 hold too, and the session awards 125 points,
more than 115 (and more than the 101 that the race table adds up to). -/
theorem C15_counterexample :
    totalPoints (awardSession DisqualifiedDrivers PositionAdjustments
        ⟨9998, "Race", 10, "Race", "Shanghai"⟩
        [(1, ⟨0, 0⟩), (4, ⟨0, 0⟩), (63, ⟨0, 0⟩), (81, ⟨0, 0⟩), (14, ⟨0, 0⟩), (27, ⟨0, 0⟩),
          (5, ⟨0, 0⟩), (6, ⟨0, 0⟩), (22, ⟨0, 0⟩), (7, ⟨0, 0⟩), (31, ⟨0, 0⟩), (12, ⟨0, 0⟩),
          (23, ⟨0, 0⟩)]
        [⟨40, 1, 1255, 1, 9998⟩, ⟨40, 4, 1255, 2, 9998⟩, ⟨40, 63, 1255, 3, 9998⟩,
          ⟨40, 81, 1255, 4, 9998⟩, ⟨40, 14, 1255, 5, 9998⟩, ⟨40, 27, 1255, 6, 9998⟩,
          ⟨40, 5, 1255, 7, 9998⟩, ⟨40, 6, 1255, 8, 9998⟩, ⟨40, 22, 1255, 9, 9998⟩,
          ⟨40, 7, 1255, 10, 9998⟩, ⟨40, 31, 1255, 11, 9998⟩, ⟨40, 12, 1255, 12, 9998⟩,
          ⟨40, 23, 1255, 13, 9998⟩]) -
      totalPoints [(1, ⟨0, 0⟩), (4, ⟨0, 0⟩), (63, ⟨0, 0⟩), (81, ⟨0, 0⟩), (14, ⟨0, 0⟩),
        (27, ⟨0, 0⟩), (5, ⟨0, 0⟩), (6, ⟨0, 0⟩), (22, ⟨0, 0⟩), (7, ⟨0, 0⟩), (31, ⟨0, 0⟩),
        (12, ⟨0, 0⟩), (23, ⟨0, 0⟩)] = 125 ∧
    ¬ ((125 : Int) ≤ 115) := by
  decide

/-- C15, amended: when no two results of competitors who are not
disqualified in the session have the same adjusted position, the points that
the session awards over all competitors add up to at most the sum of the
table in use.  That sum is 36 for the sprint table and 101 for the race table
(25 + 18 + 15 + 12 + 10 + 8 + 6 + 4 + 2 + 1), so the total is at most 36 in a
session named Sprint and at most 101, hence at most 115, in every other
session, in particular one named Race. -/
theorem C15_session_points_bounded (dsq : List (Int × List Int))
    (adj : List (Int × List (Int × Int))) (session : OpenF1Session)
    (driverPoints : List (Int × StandingData)) (results : List OpenF1Position)
    (hdistinct : ((results.filter
        (fun r => !isDisqualified dsq session.SessionKey r.DriverNumber)).map
      (finalPosition adj session.SessionKey)).Nodup) :
    totalPoints (awardSession dsq adj session driverPoints results) - totalPoints driverPoints ≤
        ((selectPointsSystem session).map Prod.snd).sum ∧
    (PointsSystem.map Prod.snd).sum = 101 ∧ (SprintPointsSystem.map Prod.snd).sum = 36 ∧
    (session.SessionName = "Race" →
      totalPoints (awardSession dsq adj session driverPoints results) -
        totalPoints driverPoints ≤ 101 ∧
      totalPoints (awardSession dsq adj session driverPoints results) -
        totalPoints driverPoints ≤ 115) ∧
    (session.SessionName = "Sprint" →
      totalPoints (awardSession dsq adj session driverPoints results) -
        totalPoints driverPoints ≤ 36) := by
  have hscoring : ((results.filter (fun r => (mapGet driverPoints r.DriverNumber).isSome &&
      !isDisqualified dsq session.SessionKey r.DriverNumber)).map
      (finalPosition adj session.SessionKey)).Nodup := by
    rw [← List.filter_filter]
    exact hdistinct.sublist (List.Sublist.map _ (List.filter_sublist _))
  have hrace : (PointsSystem.map Prod.snd).sum = 101 := by decide
  have hsprint : (SprintPointsSystem.map Prod.snd).sum = 36 := by decide
  have hbound : totalPoints (awardSession dsq adj session driverPoints results) -
      totalPoints driverPoints ≤ ((selectPointsSystem session).map Prod.snd).sum := by
    rw [totalPoints_awardSession]
    have hnonneg : ∀ e ∈ selectPointsSystem session, 0 ≤ e.2 := by
      unfold selectPointsSystem
      split_ifs
      · decide
      · decide
    have h := sum_lookup_le (selectPointsSystem session) hnonneg _ hscoring
    omega
  refine ⟨hbound, hrace, hsprint, ?_, ?_⟩
  · intro hname
    have hne : ¬ session.SessionName = "Sprint" := by
      rw [hname]
      decide
    have htable : selectPointsSystem session = PointsSystem := by
      simp [selectPointsSystem, hne]
    rw [htable, hrace] at hbound
    exact ⟨hbound, by omega⟩
  · intro hname
    have htable : selectPointsSystem session = SprintPointsSystem := by
      simp [selectPointsSystem, hname]
    rw [htable, hsprint] at hbound
    exact hbound

/-- Instance of C15, amended: the resolved results of race 9998 in the
example data source award 25 + 15 + 10 points, no more than 101. -/
theorem C15_session_points_bounded_witness :
    totalPoints (awardSession DisqualifiedDrivers PositionAdjustments
        ⟨9998, "Race", 10, "Race", "Shanghai"⟩
        [(16, ⟨0, 0⟩), (31, ⟨0, 0⟩), (81, ⟨0, 0⟩), (4, ⟨0, 0⟩)]
        [⟨40, 16, 1255, 2, 9998⟩, ⟨40, 81, 1255, 1, 9998⟩, ⟨31, 31, 1255, 7, 9998⟩,
          ⟨36, 4, 1255, 3, 9998⟩, ⟨41, 99, 1255, 4, 9998⟩]) -
      totalPoints [(16, ⟨0, 0⟩), (31, ⟨0, 0⟩), (81, ⟨0, 0⟩), (4, ⟨0, 0⟩)] ≤ 101 :=
  ((C15_session_points_bounded DisqualifiedDrivers PositionAdjustments
    ⟨9998, "Race", 10, "Race", "Shanghai"⟩
    [(16, ⟨0, 0⟩), (31, ⟨0, 0⟩), (81, ⟨0, 0⟩), (4, ⟨0, 0⟩)]
    [⟨40, 16, 1255, 2, 9998⟩, ⟨40, 81, 1255, 1, 9998⟩, ⟨31, 31, 1255, 7, 9998⟩,
      ⟨36, 4, 1255, 3, 9998⟩, ⟨41, 99, 1255, 4, 9998⟩] (by decide)).2.2.2.1 rfl).1

/-! ## Roster and standings without sessions (C16) -/

/-- The roster loop returns pairwise distinct numbers, none of them seen. -/
theorem dedupDrivers_nodup (openF1Drivers : List OpenF1Driver) (seen : List Int) :
    ((dedupDrivers seen openF1Drivers).map (·.Number)).Nodup ∧
      ∀ d ∈ dedupDrivers seen openF1Drivers, d.Number ∉ seen := by
  induction openF1Drivers generalizing seen with
  | nil => simp [dedupDrivers]
  | cons driver rest ih =>
    unfold dedupDrivers
    split_ifs with hseen
    · exact ih seen
    · obtain ⟨hnodup, hfresh⟩ := ih (driver.DriverNumber :: seen)
      refine ⟨?_, ?_⟩
      · rw [List.map_cons, List.nodup_cons]
        refine ⟨?_, hnodup⟩
        intro hmem
        obtain ⟨d, hd, hnum⟩ := List.mem_map.1 hmem
        exact hfresh d hd (by rw [hnum]; exact List.mem_cons_self _ _)
      · intro d hd
        rw [List.mem_cons] at hd
        rcases hd with hd | hd
        · rw [hd]
          exact hseen
        · exact fun h => hfresh d hd (List.mem_cons_of_mem _ h)

theorem dedupDrivers_eq_nil_iff (openF1Drivers : List OpenF1Driver) :
    dedupDrivers [] openF1Drivers = [] ↔ openF1Drivers = [] := by
  cases openF1Drivers with
  | nil => simp [dedupDrivers]
  | cons driver rest => simp [dedupDrivers]

/-- Keys of a map seeded from drivers with pairwise distinct numbers. -/
theorem keys_foldl_seed {ν : Type} (val : Driver → ν) (drivers : List Driver)
    (m : List (Int × ν))
    (h : (m.map Prod.fst ++ drivers.map (·.Number)).Nodup) :
    (drivers.foldl (fun m driver => mapSet m driver.Number (val driver)) m).map Prod.fst =
      m.map Prod.fst ++ drivers.map (·.Number) := by
  induction drivers generalizing m with
  | nil => simp
  | cons d rest ih =>
    have hfresh : d.Number ∉ m.map Prod.fst := by
      intro hmem
      rw [List.nodup_append] at h
      exact h.2.2 hmem (by simp)
    have hkeys : (mapSet m d.Number (val d)).map Prod.fst = m.map Prod.fst ++ [d.Number] := by
      rw [keys_mapSet, if_neg hfresh]
    rw [List.foldl_cons, ih]
    · rw [hkeys]
      simp
    · rw [hkeys]
      simpa using h

theorem values_foldl_seed {ν : Type} (val : Driver → ν) (P : ν → Prop)
    (hval : ∀ d, P (val d)) (drivers : List Driver) (m : List (Int × ν))
    (h : ∀ e ∈ m, P e.2) :
    ∀ e ∈ drivers.foldl (fun m driver => mapSet m driver.Number (val driver)) m, P e.2 := by
  induction drivers generalizing m with
  | nil => exact h
  | cons d rest ih =>
    rw [List.foldl_cons]
    apply ih
    intro e he
    rcases mem_mapSet he with he | he
    · exact h e he
    · rw [he]
      exact hval d

theorem mem_driverEntries {driverNames driverTeams : List (Int × String)}
    {visited : List (Int × StandingData)} {entry : StandingEntry}
    (h : entry ∈ driverEntries driverNames driverTeams visited) :
    ∃ kv ∈ visited, mapGet driverNames kv.1 = some entry.Driver ∧
      entry.Team = (mapGet driverTeams kv.1).getD "" ∧
      entry.Points = kv.2.Points ∧ entry.Wins = kv.2.Wins := by
  unfold driverEntries at h
  obtain ⟨kv, hkv, hsome⟩ := List.mem_filterMap.1 h
  refine ⟨kv, hkv, ?_⟩
  cases hname : mapGet driverNames kv.1 with
  | none =>
    rw [hname] at hsome
    exact Option.noConfusion hsome
  | some driverName =>
    rw [hname] at hsome
    simp only [Option.some.injEq] at hsome
    subst hsome
    exact ⟨rfl, rfl, rfl, rfl⟩

theorem length_driverEntries (driverNames driverTeams : List (Int × String))
    (visited : List (Int × StandingData))
    (h : ∀ kv ∈ visited, kv.1 ∈ driverNames.map Prod.fst) :
    (driverEntries driverNames driverTeams visited).length = visited.length := by
  unfold driverEntries
  induction visited with
  | nil => rfl
  | cons kv rest ih =>
    have hkey := h kv (List.mem_cons_self _ _)
    cases hname : mapGet driverNames kv.1 with
    | none => exact absurd hkey ((mapGet_eq_none_iff _ _).1 hname)
    | some driverName =>
      rw [List.filterMap_cons, hname]
      simp only [List.length_cons]
      rw [ih (fun kv' hkv' => h kv' (List.mem_cons_of_mem _ hkv'))]

/-- The claim C16 as stated fails: with both session responses empty the
example roster of four drivers yields four entries of 0 points, not the empty
list. -/
theorem C16_counterexample :
    GetAllRaceAndSprintSessions
        { exampleSource with raceSessions := .ok [], sprintSessions := .ok [] } = .ok [] ∧
    ∃ ranked, GetCurrentDriverStandings DisqualifiedDrivers PositionAdjustments
        { exampleSource with raceSessions := .ok [], sprintSessions := .ok [] }
        insertionOrder = .ok ranked ∧
      ranked.map (fun e => (e.Position, e.Driver, e.Points, e.Wins, e.Gap)) =
        [(1, "Charles LECLERC", 0, 0, "Leader"), (2, "Esteban OCON", 0, 0, "-0"),
          (3, "Oscar PIASTRI", 0, 0, "-0"), (4, "Lando NORRIS", 0, 0, "-0")] ∧
      ranked ≠ [] :=
  ⟨rfl, _, rfl, by decide, by decide⟩

/-- C16, amended: when the session list is empty and the roster request
succeeds, the driver standings return no error and one entry for each driver
of the roster, every entry with 0 points and 0 wins; the list is empty exactly
when the roster response is empty. -/
theorem C16_no_sessions (dsq : List (Int × List Int)) (adj : List (Int × List (Int × Int)))
    (src : DataSource) (ord : RangeOrder) (openF1Drivers : List OpenF1Driver)
    (hord : ∀ m, (ord.driverPoints m).Perm m)
    (hsessions : GetAllRaceAndSprintSessions src = .ok [])
    (hdrivers : src.drivers = .ok openF1Drivers) :
    ∃ ranked, GetCurrentDriverStandings dsq adj src ord = .ok ranked ∧
      ranked.length = (dedupDrivers [] openF1Drivers).length ∧
      (∀ entry ∈ ranked, entry.Points = 0 ∧ entry.Wins = 0) ∧
      (ranked = [] ↔ openF1Drivers = []) := by
  have hnodup := (dedupDrivers_nodup openF1Drivers []).1
  have hkeysP : (initDriverPoints (dedupDrivers [] openF1Drivers)).map Prod.fst =
      (dedupDrivers [] openF1Drivers).map (·.Number) := by
    unfold initDriverPoints
    rw [keys_foldl_seed (fun _ => ({ Points := 0, Wins := 0 } : StandingData)) _ []
      (by simpa using hnodup)]
    simp
  have hkeysN : (initDriverNames (dedupDrivers [] openF1Drivers)).map Prod.fst =
      (dedupDrivers [] openF1Drivers).map (·.Number) := by
    unfold initDriverNames
    rw [keys_foldl_seed (fun d => d.Name) _ [] (by simpa using hnodup)]
    simp
  have hzero : ∀ e ∈ initDriverPoints (dedupDrivers [] openF1Drivers),
      e.2.Points = 0 ∧ e.2.Wins = 0 :=
    values_foldl_seed (fun _ => ({ Points := 0, Wins := 0 } : StandingData))
      (fun st => st.Points = 0 ∧ st.Wins = 0) (fun _ => ⟨rfl, rfl⟩) _ []
      (fun _ h => absurd h (List.not_mem_nil _))
  have hlen : (rankStandings (driverEntries (initDriverNames (dedupDrivers [] openF1Drivers))
      (initDriverTeams (dedupDrivers [] openF1Drivers))
      (ord.driverPoints (initDriverPoints (dedupDrivers [] openF1Drivers))))).length =
      (dedupDrivers [] openF1Drivers).length := by
    rw [length_rankStandings, length_driverEntries, (hord _).length_eq,
      ← List.length_map (initDriverPoints (dedupDrivers [] openF1Drivers)) Prod.fst, hkeysP,
      List.length_map]
    intro kv hkv
    rw [hkeysN, ← hkeysP]
    exact List.mem_map.2 ⟨kv, (hord _).mem_iff.1 hkv, rfl⟩
  refine ⟨rankStandings (driverEntries (initDriverNames (dedupDrivers [] openF1Drivers))
      (initDriverTeams (dedupDrivers [] openF1Drivers))
      (ord.driverPoints (initDriverPoints (dedupDrivers [] openF1Drivers)))), ?_, hlen, ?_, ?_⟩
  · unfold GetCurrentDriverStandings GetDrivers
    rw [hsessions, hdrivers]
    rfl
  · intro entry hentry
    obtain ⟨e0, he0, hdata⟩ := mem_rankStandings hentry
    obtain ⟨kv, hkv, _, _, hp, hw⟩ := mem_driverEntries he0
    have hz := hzero kv ((hord _).mem_iff.1 hkv)
    have h1 : e0.Points = entry.Points := congrArg (fun d => d.2.2.1) hdata
    have h2 : e0.Wins = entry.Wins := congrArg (fun d => d.2.2.2) hdata
    rw [← h1, ← h2, hp, hw]
    exact hz
  · rw [← List.length_eq_zero, hlen, List.length_eq_zero]
    exact dedupDrivers_eq_nil_iff openF1Drivers

/-- Instance of C16, amended, on the data source of the counterexample. -/
theorem C16_no_sessions_witness :
    ∃ ranked, GetCurrentDriverStandings DisqualifiedDrivers PositionAdjustments
        { exampleSource with raceSessions := .ok [], sprintSessions := .ok [] }
        insertionOrder = .ok ranked ∧
      ranked.length = 4 ∧ (∀ entry ∈ ranked, entry.Points = 0 ∧ entry.Wins = 0) := by
  obtain ⟨ranked, h1, h2, h3, _⟩ := C16_no_sessions DisqualifiedDrivers PositionAdjustments
    { exampleSource with raceSessions := .ok [], sprintSessions := .ok [] } insertionOrder _
    (fun m => List.Perm.refl m) rfl rfl
  exact ⟨ranked, h1, h2.trans (by decide), h3⟩

/-! ## Closed form of the accumulation -/

theorem award_eq_addGain (adj : List (Int × List (Int × Int))) (session : OpenF1Session)
    (result : OpenF1Position) (standing : StandingData) :
    awardWin session (finalPosition adj session.SessionKey result)
        (awardPoints (selectPointsSystem session) (finalPosition adj session.SessionKey result)
          standing) =
      addGain (resultPoints adj session result, resultWins adj session result) standing := by
  unfold awardWin awardPoints addGain resultPoints resultWins
  cases mapGet (selectPointsSystem session) (finalPosition adj session.SessionKey result) <;>
    split_ifs <;> simp

theorem mapGet_awardResult (dsq : List (Int × List Int)) (adj : List (Int × List (Int × Int)))
    (session : OpenF1Session) (driverPoints : List (Int × StandingData))
    (result : OpenF1Position) (driver : Int) :
    mapGet (awardResult dsq adj session driverPoints result) driver =
      (mapGet driverPoints driver).map (fun standing =>
        if countsFor dsq session driver result = true then
          addGain (resultPoints adj session result, resultWins adj session result) standing
        else standing) := by
  by_cases hd : driver = result.DriverNumber
  · subst hd
    cases hroster : mapGet driverPoints result.DriverNumber with
    | none => simp [awardResult, hroster]
    | some standing =>
      cases hdsq : isDisqualified dsq session.SessionKey result.DriverNumber with
      | true => simp [awardResult, hroster, hdsq, countsFor]
      | false =>
        rw [awardResult_scored dsq adj session driverPoints result standing hroster hdsq,
          mapGet_mapSet_self, award_eq_addGain]
        simp [countsFor, hdsq]
  · rw [awardResult_other dsq adj session driverPoints result hd]
    have hne : ¬ result.DriverNumber = driver := fun h => hd h.symm
    cases mapGet driverPoints driver <;> simp [countsFor, hne]

theorem addGain_addGain (g h : Int × Int) (standing : StandingData) :
    addGain g (addGain h standing) = addGain (h.1 + g.1, h.2 + g.2) standing := by
  simp [addGain, add_assoc]

theorem addGain_zero (standing : StandingData) : addGain (0, 0) standing = standing := by
  simp [addGain]

theorem addGain_zero' (standing : StandingData) : addGain 0 standing = standing := by
  simp [addGain]

/-- After the result loop of a session each entry has grown by the gain that
the results hold for its driver. -/
theorem mapGet_awardSession (dsq : List (Int × List Int)) (adj : List (Int × List (Int × Int)))
    (session : OpenF1Session) (results : List OpenF1Position)
    (driverPoints : List (Int × StandingData)) (driver : Int) :
    mapGet (awardSession dsq adj session driverPoints results) driver =
      (mapGet driverPoints driver).map (addGain (sessionGain dsq adj session results driver)) := by
  unfold awardSession
  induction results generalizing driverPoints with
  | nil =>
    rw [List.foldl_nil]
    cases mapGet driverPoints driver with
    | none => rfl
    | some st => simp [sessionGain, addGain_zero']
  | cons result rest ih =>
    rw [List.foldl_cons, ih, mapGet_awardResult]
    cases mapGet driverPoints driver with
    | none => rfl
    | some st =>
      simp only [Option.map_some', Option.some.injEq]
      cases hc : countsFor dsq session driver result with
      | true =>
        simp only [if_true]
        rw [addGain_addGain]
        simp [sessionGain, List.filter_cons, hc]
      | false =>
        simp [sessionGain, List.filter_cons, hc]

/-- After one iteration of the session loop each entry has grown by the gain
of that iteration. -/
theorem mapGet_processSession (dsq : List (Int × List Int))
    (adj : List (Int × List (Int × Int))) (src : DataSource) (ord : RangeOrder) (now : Int)
    (driverPoints : List (Int × StandingData)) (session : OpenF1Session) (driver : Int) :
    mapGet (processSession dsq adj src ord now driverPoints session) driver =
      (mapGet driverPoints driver).map
        (addGain (iterationGain dsq adj src ord.finalPositions driver (now, session))) := by
  unfold processSession iterationGain
  simp only
  split_ifs
  · cases mapGet driverPoints driver <;> simp [addGain_zero, addGain_zero']
  · cases GetSessionResults ord.finalPositions (src.positions session.SessionKey) with
    | error e => cases mapGet driverPoints driver <;> simp [addGain_zero, addGain_zero']
    | ok results => exact mapGet_awardSession dsq adj session results driverPoints driver

/-- After the session loop each entry has grown by the sum of the gains of
the iterations. -/
theorem mapGet_sessionLoop (dsq : List (Int × List Int))
    (adj : List (Int × List (Int × Int))) (src : DataSource) (ord : RangeOrder)
    (timed : List (Int × OpenF1Session)) (driverPoints : List (Int × StandingData))
    (driver : Int) :
    mapGet (sessionLoop dsq adj src ord timed driverPoints) driver =
      (mapGet driverPoints driver).map (addGain
        (((timed.map (iterationGain dsq adj src ord.finalPositions driver)).map Prod.fst).sum,
         ((timed.map (iterationGain dsq adj src ord.finalPositions driver)).map
           Prod.snd).sum)) := by
  unfold sessionLoop
  induction timed generalizing driverPoints with
  | nil =>
    rw [List.foldl_nil]
    cases mapGet driverPoints driver <;> simp [addGain_zero, addGain_zero']
  | cons reading rest ih =>
    rw [List.foldl_cons, ih, mapGet_processSession]
    cases mapGet driverPoints driver with
    | none => rfl
    | some st =>
      simp only [Option.map_some', Option.some.injEq]
      rw [addGain_addGain]
      simp

theorem foldl_processSession_eq_sessionLoop (dsq : List (Int × List Int))
    (adj : List (Int × List (Int × Int))) (src : DataSource) (ord : RangeOrder) (t : Int)
    (sessions : List OpenF1Session) (driverPoints : List (Int × StandingData)) :
    sessions.foldl (processSession dsq adj src ord t) driverPoints =
      sessionLoop dsq adj src ord (sessions.map (fun session => (t, session))) driverPoints := by
  unfold sessionLoop
  rw [List.foldl_map]

/-! ## Keys of the accumulated map (C21, C22) -/

theorem keys_awardResult (dsq : List (Int × List Int)) (adj : List (Int × List (Int × Int)))
    (session : OpenF1Session) (driverPoints : List (Int × StandingData))
    (result : OpenF1Position) :
    (awardResult dsq adj session driverPoints result).map Prod.fst =
      driverPoints.map Prod.fst := by
  unfold awardResult
  cases hroster : mapGet driverPoints result.DriverNumber with
  | none => rfl
  | some standing =>
    simp only
    split_ifs
    · rfl
    · rw [keys_mapSet, if_pos]
      by_contra hc
      rw [(mapGet_eq_none_iff _ _).2 hc] at hroster
      exact Option.noConfusion hroster

theorem keys_awardSession (dsq : List (Int × List Int)) (adj : List (Int × List (Int × Int)))
    (session : OpenF1Session) (results : List OpenF1Position)
    (driverPoints : List (Int × StandingData)) :
    (awardSession dsq adj session driverPoints results).map Prod.fst =
      driverPoints.map Prod.fst := by
  unfold awardSession
  induction results generalizing driverPoints with
  | nil => rfl
  | cons result rest ih => rw [List.foldl_cons, ih, keys_awardResult]

theorem keys_processSession (dsq : List (Int × List Int)) (adj : List (Int × List (Int × Int)))
    (src : DataSource) (ord : RangeOrder) (now : Int) (driverPoints : List (Int × StandingData))
    (session : OpenF1Session) :
    (processSession dsq adj src ord now driverPoints session).map Prod.fst =
      driverPoints.map Prod.fst := by
  unfold processSession
  split_ifs
  · rfl
  · cases GetSessionResults ord.finalPositions (src.positions session.SessionKey) with
    | error e => rfl
    | ok results => exact keys_awardSession dsq adj session results driverPoints

theorem keys_sessionLoop (dsq : List (Int × List Int))
    (adj : List (Int × List (Int × Int))) (src : DataSource) (ord : RangeOrder)
    (timed : List (Int × OpenF1Session)) (driverPoints : List (Int × StandingData)) :
    (sessionLoop dsq adj src ord timed driverPoints).map Prod.fst =
      driverPoints.map Prod.fst := by
  unfold sessionLoop
  induction timed generalizing driverPoints with
  | nil => rfl
  | cons reading rest ih => rw [List.foldl_cons, ih, keys_processSession]

/-- The session loop neither adds nor removes a key of the seeded map. -/
theorem keys_accumulate (dsq : List (Int × List Int)) (adj : List (Int × List (Int × Int)))
    (src : DataSource) (ord : RangeOrder) (drivers : List Driver)
    (sessions : List OpenF1Session) :
    (accumulate dsq adj src ord drivers sessions).map Prod.fst =
      (initDriverPoints drivers).map Prod.fst :=
  keys_sessionLoop dsq adj src ord _ _

theorem nodup_keys_initDriverPoints (drivers : List Driver) :
    ((initDriverPoints drivers).map Prod.fst).Nodup :=
  nodup_keys_foldl_mapSet (fun d : Driver => d.Number)
    (fun _ _ => ({ Points := 0, Wins := 0 } : StandingData)) drivers [] List.nodup_nil

/-- Two maps with the same pairwise distinct keys in the same order and the
same value under every key are the same list. -/
theorem map_ext {κ ν : Type} [DecidableEq κ] (m1 m2 : List (κ × ν))
    (hkeys : m1.map Prod.fst = m2.map Prod.fst) (hnodup : (m1.map Prod.fst).Nodup)
    (hget : ∀ k, mapGet m1 k = mapGet m2 k) : m1 = m2 := by
  induction m1 generalizing m2 with
  | nil =>
    cases m2 with
    | nil => rfl
    | cons e rest => simp at hkeys
  | cons e1 rest1 ih =>
    cases m2 with
    | nil => simp at hkeys
    | cons e2 rest2 =>
      obtain ⟨k1, v1⟩ := e1
      obtain ⟨k2, v2⟩ := e2
      simp only [List.map_cons, List.cons.injEq] at hkeys
      obtain ⟨hk, hrest⟩ := hkeys
      subst hk
      rw [List.map_cons, List.nodup_cons] at hnodup
      have hv : v1 = v2 := by
        have h := hget k1
        simpa [mapGet] using h
      subst hv
      congr 1
      apply ih rest2 hrest hnodup.2
      intro k
      have h := hget k
      by_cases hkk : k1 = k
      · subst hkk
        rw [(mapGet_eq_none_iff _ _).2 hnodup.1,
          (mapGet_eq_none_iff _ _).2 (hrest ▸ hnodup.1)]
      · simpa [mapGet, hkk] using h

theorem awardSession_filter_roster (dsq : List (Int × List Int))
    (adj : List (Int × List (Int × Int))) (session : OpenF1Session)
    (roster : List (Int × StandingData)) (results : List OpenF1Position)
    (driverPoints : List (Int × StandingData))
    (hkeys : ∀ d, (mapGet driverPoints d).isSome = (mapGet roster d).isSome) :
    awardSession dsq adj session driverPoints
        (results.filter (fun r => (mapGet roster r.DriverNumber).isSome)) =
      awardSession dsq adj session driverPoints results := by
  unfold awardSession
  induction results generalizing driverPoints with
  | nil => rfl
  | cons result rest ih =>
    cases hin : (mapGet roster result.DriverNumber).isSome with
    | true =>
      rw [List.filter_cons, hin]
      simp only [if_true, List.foldl_cons]
      apply ih
      intro d
      rw [isSome_awardResult, hkeys]
    | false =>
      rw [List.filter_cons, hin]
      simp only [Bool.false_eq_true, if_false, List.foldl_cons]
      have hnone : mapGet driverPoints result.DriverNumber = none := by
        have h := hkeys result.DriverNumber
        rw [hin] at h
        cases hget : mapGet driverPoints result.DriverNumber with
        | none => rfl
        | some st =>
          rw [hget] at h
          exact Bool.noConfusion h
      have hsame : awardResult dsq adj session driverPoints result = driverPoints := by
        unfold awardResult
        rw [hnone]
      rw [hsame]
      exact ih driverPoints hkeys

/-- C21: the result of a competitor who has no entry in the map (absent from
the roster) leaves the whole map as it was, whatever its position and
session: no entry changes and none is created.  The result loop of a session
gives the same map with such results dropped, and in every case it keeps the
keys of the map. -/
theorem C21_unknown_competitor_ignored (dsq : List (Int × List Int))
    (adj : List (Int × List (Int × Int))) (session : OpenF1Session)
    (driverPoints : List (Int × StandingData)) (result : OpenF1Position)
    (habsent : mapGet driverPoints result.DriverNumber = none) :
    awardResult dsq adj session driverPoints result = driverPoints ∧
    (∀ results, awardSession dsq adj session driverPoints (result :: results) =
      awardSession dsq adj session driverPoints results) ∧
    (∀ results, awardSession dsq adj session driverPoints
        (results.filter (fun r => (mapGet driverPoints r.DriverNumber).isSome)) =
      awardSession dsq adj session driverPoints results) ∧
    (∀ results, (awardSession dsq adj session driverPoints results).map Prod.fst =
      driverPoints.map Prod.fst) ∧
    (∀ results, mapGet (awardSession dsq adj session driverPoints results)
      result.DriverNumber = none) := by
  have hsame : awardResult dsq adj session driverPoints result = driverPoints := by
    unfold awardResult
    rw [habsent]
  refine ⟨hsame, ?_, ?_, ?_, ?_⟩
  · intro results
    unfold awardSession
    rw [List.foldl_cons, hsame]
  · intro results
    exact awardSession_filter_roster dsq adj session driverPoints results driverPoints
      (fun _ => rfl)
  · intro results
    exact keys_awardSession dsq adj session results driverPoints
  · intro results
    rw [mapGet_awardSession, habsent]
    rfl

/-- Instance of C21: driver 99 is not in the map; the result at position 1
of race 9998 changes nothing. -/
theorem C21_unknown_competitor_ignored_witness :
    awardResult DisqualifiedDrivers PositionAdjustments ⟨9998, "Race", 10, "Race", "Shanghai"⟩
      [(81, ⟨25, 1⟩), (4, ⟨18, 0⟩)] ⟨41, 99, 1255, 1, 9998⟩ = [(81, ⟨25, 1⟩), (4, ⟨18, 0⟩)] :=
  (C21_unknown_competitor_ignored DisqualifiedDrivers PositionAdjustments
    ⟨9998, "Race", 10, "Race", "Shanghai"⟩ [(81, ⟨25, 1⟩), (4, ⟨18, 0⟩)]
    ⟨41, 99, 1255, 1, 9998⟩ (by decide)).1

/-- The claim C22 as stated fails, because the clock is read afresh in every
iteration.  In `clockSource` the clock reads 0, 5 and 10 in the three
iterations.  Over race 901 (start 2), race 900, race 902 the loop skips race
901, read at 0, and driver 16 has nothing; over race 900, race 901, race 902,
a permutation of that list with the same answers for every session, race 901
is read at 5 and scored, and driver 16 has 25 points and a win. -/
theorem C22_counterexample :
    List.Perm
      [(⟨901, "Race", 2, "Race", "Imola"⟩ : OpenF1Session), ⟨900, "Race", -10, "Race", "Miami"⟩,
        ⟨902, "Race", 3, "Race", "Monaco"⟩]
      [⟨900, "Race", -10, "Race", "Miami"⟩, ⟨901, "Race", 2, "Race", "Imola"⟩,
        ⟨902, "Race", 3, "Race", "Monaco"⟩] ∧
    accumulate DisqualifiedDrivers PositionAdjustments clockSource insertionOrder
        [⟨16, "", 16, "", "", 0, 0, 0, 0⟩, ⟨81, "", 81, "", "", 0, 0, 0, 0⟩,
          ⟨4, "", 4, "", "", 0, 0, 0, 0⟩]
        [⟨901, "Race", 2, "Race", "Imola"⟩, ⟨900, "Race", -10, "Race", "Miami"⟩,
          ⟨902, "Race", 3, "Race", "Monaco"⟩] =
      [(16, ⟨0, 0⟩), (81, ⟨25, 1⟩), (4, ⟨25, 1⟩)] ∧
    accumulate DisqualifiedDrivers PositionAdjustments clockSource insertionOrder
        [⟨16, "", 16, "", "", 0, 0, 0, 0⟩, ⟨81, "", 81, "", "", 0, 0, 0, 0⟩,
          ⟨4, "", 4, "", "", 0, 0, 0, 0⟩]
        [⟨900, "Race", -10, "Race", "Miami"⟩, ⟨901, "Race", 2, "Race", "Imola"⟩,
          ⟨902, "Race", 3, "Race", "Monaco"⟩] =
      [(16, ⟨25, 1⟩), (81, ⟨25, 1⟩), (4, ⟨25, 1⟩)] ∧
    standingsTable (GetCurrentDriverStandings DisqualifiedDrivers PositionAdjustments
        clockSource insertionOrder) =
      [("Oscar PIASTRI", 25, 1), ("Lando NORRIS", 25, 1), ("Charles LECLERC", 0, 0)] ∧
    standingsTable (GetCurrentDriverStandings DisqualifiedDrivers PositionAdjustments
        { clockSource with
          raceSessions := .ok [⟨900, "Race", -10, "Race", "Miami"⟩,
            ⟨901, "Race", 2, "Race", "Imola"⟩, ⟨902, "Race", 3, "Race", "Monaco"⟩] }
        insertionOrder) =
      [("Charles LECLERC", 25, 1), ("Oscar PIASTRI", 25, 1), ("Lando NORRIS", 25, 1)] :=
  ⟨List.Perm.swap _ _ _, by decide, by decide, by decide, by decide⟩

/-- C22, amended: the accumulation does not depend on the order of the
sessions when the two executions see every session alike.  For every roster
and data source, every two session lists that are permutations of one another
and every two clocks whose readings all fall on the same side of each
session's start time, the execution over the first list with the first clock
and the execution over the second list with the second clock give the same
accumulated map, so the same points and wins for every competitor. -/
theorem C22_order_irrelevant_when_seen_alike (dsq : List (Int × List Int))
    (adj : List (Int × List (Int × Int))) (src : DataSource) (ord : RangeOrder)
    (now' : Nat → Int) (drivers : List Driver) (sessions1 sessions2 : List OpenF1Session)
    (hperm : sessions1.Perm sessions2) (hsame : SameStatus src.now now' sessions1) :
    (∀ driver, mapGet (accumulate dsq adj src ord drivers sessions1) driver =
      mapGet (accumulate dsq adj { src with now := now' } ord drivers sessions2) driver) ∧
    accumulate dsq adj src ord drivers sessions1 =
      accumulate dsq adj { src with now := now' } ord drivers sessions2 := by
  have h1 : accumulate dsq adj src ord drivers sessions1 =
      sessionLoop dsq adj src ord (sessions1.map (fun session => (src.now 0, session)))
        (initDriverPoints drivers) := by
    unfold accumulate
    rw [sessionLoop_uniform dsq adj src ord src.now (src.now 0) sessions1
      (fun s hs k => (hsame s hs k 0).trans (hsame s hs 0 0).symm),
      foldl_processSession_eq_sessionLoop]
  have h2 : accumulate dsq adj { src with now := now' } ord drivers sessions2 =
      sessionLoop dsq adj src ord (sessions2.map (fun session => (src.now 0, session)))
        (initDriverPoints drivers) := by
    have hleft : accumulate dsq adj { src with now := now' } ord drivers sessions2 =
        sessionLoop dsq adj src ord (readings now' 0 sessions2) (initDriverPoints drivers) := rfl
    rw [hleft, sessionLoop_uniform dsq adj src ord now' (src.now 0) sessions2
      (fun s hs k => (hsame s (hperm.mem_iff.2 hs) 0 k).symm),
      foldl_processSession_eq_sessionLoop]
  have hget : ∀ driver, mapGet (accumulate dsq adj src ord drivers sessions1) driver =
      mapGet (accumulate dsq adj { src with now := now' } ord drivers sessions2) driver := by
    intro driver
    rw [h1, h2, mapGet_sessionLoop, mapGet_sessionLoop]
    have hp := (hperm.map (fun session => (src.now 0, session))).map
      (iterationGain dsq adj src ord.finalPositions driver)
    rw [((hp.map Prod.fst).sum_eq), ((hp.map Prod.snd).sum_eq)]
  refine ⟨hget, ?_⟩
  apply map_ext
  · rw [keys_accumulate, keys_accumulate]
  · rw [keys_accumulate]
    exact nodup_keys_initDriverPoints drivers
  · exact hget

/-- Instance of C22, amended: the sprint 10028 before or after the race 9998,
the one execution reading the clock as 100 and the other as 150; both sessions
have started at either reading. -/
theorem C22_order_irrelevant_when_seen_alike_witness :
    accumulate DisqualifiedDrivers PositionAdjustments exampleSource insertionOrder
        [⟨0, "", 81, "", "", 0, 0, 0, 0⟩, ⟨0, "", 4, "", "", 0, 0, 0, 0⟩]
        [⟨9998, "Race", 10, "Race", "Shanghai"⟩, ⟨10028, "Sprint", 20, "Race", "Miami"⟩] =
      accumulate DisqualifiedDrivers PositionAdjustments
        { exampleSource with now := fun _ => 150 } insertionOrder
        [⟨0, "", 81, "", "", 0, 0, 0, 0⟩, ⟨0, "", 4, "", "", 0, 0, 0, 0⟩]
        [⟨10028, "Sprint", 20, "Race", "Miami"⟩, ⟨9998, "Race", 10, "Race", "Shanghai"⟩] :=
  (C22_order_irrelevant_when_seen_alike DisqualifiedDrivers PositionAdjustments exampleSource
    insertionOrder (fun _ => 150)
    [⟨0, "", 81, "", "", 0, 0, 0, 0⟩, ⟨0, "", 4, "", "", 0, 0, 0, 0⟩]
    [⟨9998, "Race", 10, "Race", "Shanghai"⟩, ⟨10028, "Sprint", 20, "Race", "Miami"⟩]
    [⟨10028, "Sprint", 20, "Race", "Miami"⟩, ⟨9998, "Race", 10, "Race", "Shanghai"⟩]
    (List.Perm.swap _ _ _)
    (fun session hmem k k' => by
      simp only [List.mem_cons, List.mem_singleton, List.not_mem_nil, or_false] at hmem
      rcases hmem with h | h <;> subst h
      · show ((100 : Int) < 10 ↔ (150 : Int) < 10)
        decide
      · show ((100 : Int) < 20 ↔ (150 : Int) < 20)
        decide)).2

/-! ## Country of a constructor entry (C23) -/

theorem teamCountries_aux (driverStandings : List StandingEntry)
    (maps : List (String × Int) × List (String × Int) × List (String × String))
    (hkeys : ∀ k ∈ maps.1.map Prod.fst, mapGet maps.2.2 k = some k)
    (hvals : ∀ k v, mapGet maps.2.2 k = some v → v = k) :
    (∀ k ∈ (driverStandings.foldl (fun maps standing =>
      (mapSet maps.1 standing.Team ((mapGet maps.1 standing.Team).getD 0 + standing.Points),
       mapSet maps.2.1 standing.Team ((mapGet maps.2.1 standing.Team).getD 0 + standing.Wins),
       match mapGet maps.2.2 standing.Team with
       | some _ => maps.2.2
       | none => mapSet maps.2.2 standing.Team standing.Team)) maps).1.map Prod.fst,
      mapGet (driverStandings.foldl (fun maps standing =>
      (mapSet maps.1 standing.Team ((mapGet maps.1 standing.Team).getD 0 + standing.Points),
       mapSet maps.2.1 standing.Team ((mapGet maps.2.1 standing.Team).getD 0 + standing.Wins),
       match mapGet maps.2.2 standing.Team with
       | some _ => maps.2.2
       | none => mapSet maps.2.2 standing.Team standing.Team)) maps).2.2 k = some k) := by
  induction driverStandings generalizing maps with
  | nil => exact hkeys
  | cons standing rest ih =>
    rw [List.foldl_cons]
    apply ih
    · intro k hk
      simp only at hk ⊢
      rw [keys_mapSet] at hk
      have hk' : k ∈ maps.1.map Prod.fst ∨ k = standing.Team := by
        split_ifs at hk
        · exact Or.inl hk
        · rw [List.mem_append, List.mem_singleton] at hk
          exact hk
      cases hget : mapGet maps.2.2 standing.Team with
      | some v =>
        simp only
        rcases hk' with h | h
        · exact hkeys k h
        · rw [h, hget, hvals _ _ hget]
      | none =>
        simp only
        rw [mapGet_mapSet]
        by_cases hkt : standing.Team = k
        · rw [if_pos hkt, hkt]
        · rw [if_neg hkt]
          rcases hk' with h | h
          · exact hkeys k h
          · exact absurd h.symm hkt
    · intro k v hv
      simp only at hv
      cases hget : mapGet maps.2.2 standing.Team with
      | some w =>
        rw [hget] at hv
        exact hvals k v hv
      | none =>
        rw [hget] at hv
        simp only at hv
        rw [mapGet_mapSet] at hv
        by_cases hkt : standing.Team = k
        · rw [if_pos hkt] at hv
          rw [← Option.some.inj hv, hkt]
        · rw [if_neg hkt] at hv
          exact hvals k v hv

/-- Every key of `teamPoints` is filed in `teamCountries` under itself. -/
theorem mapGet_teamCountries (driverStandings : List StandingEntry) (team : String)
    (h : team ∈ (teamTotals driverStandings).1.map Prod.fst) :
    mapGet (teamTotals driverStandings).2.2 team = some team := by
  unfold teamTotals at h ⊢
  exact teamCountries_aux driverStandings ([], [], [])
    (fun k hk => absurd hk (List.not_mem_nil _))
    (fun k v hv => by simp [mapGet] at hv) team h

theorem constructorStandingsFrom_team (order : List (String × Int) → List (String × Int))
    (horder : ∀ m, (order m).Perm m) (driverStandings : List StandingEntry)
    (entry : StandingEntry) (h : entry ∈ constructorStandingsFrom order driverStandings) :
    entry.Team = entry.Driver := by
  obtain ⟨e0, he0, hdata⟩ := mem_rankStandings h
  obtain ⟨kv, hkv, hkv0⟩ := List.mem_map.1 he0
  have hmem : kv ∈ (teamTotals driverStandings).1 := (horder _).mem_iff.1 hkv
  have hkey : kv.1 ∈ (teamTotals driverStandings).1.map Prod.fst :=
    List.mem_map.2 ⟨kv, hmem, rfl⟩
  have hd : e0.Driver = entry.Driver := congrArg (fun d => d.1) hdata
  have ht : e0.Team = entry.Team := congrArg (fun d => d.2.1) hdata
  rw [← hd, ← ht, ← hkv0]
  simp only
  rw [mapGet_teamCountries driverStandings kv.1 hkey]
  rfl

/-- C23: in every entry of the constructor standings the field Team, which
stands for the country, equals the field Driver, which holds the team name;
this holds for every driver standings list and for every list that
`GetCurrentConstructorStandings` returns. -/
theorem C23_constructor_country (order : List (String × Int) → List (String × Int))
    (horder : ∀ m, (order m).Perm m) :
    (∀ driverStandings, ∀ entry ∈ constructorStandingsFrom order driverStandings,
      entry.Team = entry.Driver) ∧
    (∀ dsq adj src ord ranked, ord.teamPoints = order →
      GetCurrentConstructorStandings dsq adj src ord = .ok ranked →
      ∀ entry ∈ ranked, entry.Team = entry.Driver) := by
  refine ⟨fun ds entry h => constructorStandingsFrom_team order horder ds entry h, ?_⟩
  intro dsq adj src ord ranked hord h entry hentry
  rw [GetCurrentConstructorStandings_eq] at h
  cases hds : GetCurrentDriverStandings dsq adj src ord with
  | error e =>
    rw [hds] at h
    exact Except.noConfusion h
  | ok ds =>
    rw [hds] at h
    simp only [Except.map, Except.ok.injEq] at h
    subst h
    rw [hord] at hentry
    exact constructorStandingsFrom_team order horder ds entry hentry

/-- Instance of C23 on the constructor standings of the example data source. -/
theorem C23_constructor_country_witness :
    ∃ ranked, GetCurrentConstructorStandings DisqualifiedDrivers PositionAdjustments
        exampleSource insertionOrder = .ok ranked ∧
      ranked.map (fun e => (e.Driver, e.Team)) =
        [("McLaren", "McLaren"), ("Haas F1 Team", "Haas F1 Team"), ("Ferrari", "Ferrari")] ∧
      ∀ entry ∈ ranked, entry.Team = entry.Driver :=
  ⟨_, rfl, by decide,
   (C23_constructor_country id (fun m => List.Perm.refl m)).2 DisqualifiedDrivers
     PositionAdjustments exampleSource insertionOrder _ rfl rfl⟩

/-! ## The registry tables (C24) -/

/-- C24: the program's tables at session key 9693, where the code departs
from the comment above `PositionAdjustments` ("position adjustments due to
disqualifications") and from the comment on `IsAdjusted` in
`commands/points.go` ("true if position was adjusted due to DSQ").  The session
has the adjustments 12 to 4 and 23 to 5 and no list in `DisqualifiedDrivers`,
so no competitor is disqualified in it; it is the only key of
`PositionAdjustments` that is not a key of `DisqualifiedDrivers`.  For a
result of driver 23 at raw position 4 the effective position is 5, a place
lower: the standings award the 10 points of fifth place instead of the 12 of
fourth, and the points command lists the row at position 5 with 10 points and
the flag `IsAdjusted` set. -/
theorem C24_session_9693_adjusted_without_disqualification :
    mapGet PositionAdjustments 9693 = some [(12, 4), (23, 5)] ∧
    mapGet DisqualifiedDrivers 9693 = none ∧
    (∀ driver : Int, isDisqualified DisqualifiedDrivers 9693 driver = false) ∧
    PositionAdjustments.map Prod.fst = [9693, 9998, 10028] ∧
    DisqualifiedDrivers.map Prod.fst = [9998, 10028] ∧
    finalPosition PositionAdjustments 9693 ⟨100, 23, 1, 4, 9693⟩ = 5 ∧
    awardResult DisqualifiedDrivers PositionAdjustments ⟨9693, "Race", 0, "Race", "Melbourne"⟩
      [(23, ⟨0, 0⟩)] ⟨100, 23, 1, 4, 9693⟩ = [(23, ⟨10, 0⟩)] ∧
    mapGet PointsSystem 4 = some 12 ∧
    isAdjusted PositionAdjustments 9693 ⟨100, 23, 1, 4, 9693⟩ = true ∧
    scoreOwnResult DisqualifiedDrivers PositionAdjustments
      ⟨9693, "Race", 0, "Race", "Melbourne"⟩ ⟨[], 0, 0⟩ ⟨100, 23, 1, 4, 9693⟩ =
      ⟨[⟨"Melbourne", "Melbourne", 0, "Race", 5, 10, true⟩], 10, 0⟩ := by
  refine ⟨by decide, by decide, ?_, by decide, by decide, by decide, by decide, by decide,
    by decide, by decide⟩
  intro driver
  rfl

/-! ## Location matcher (C25) -/

theorem findInString_eq_true_iff (s substr : List Nat) :
    findInString s substr = true ↔ substr <:+: s := by
  unfold findInString
  rw [List.any_eq_true]
  constructor
  · rintro ⟨i, _, hi⟩
    rw [decide_eq_true_eq] at hi
    rw [← hi]
    exact (List.take_prefix _ _).isInfix.trans (List.drop_suffix i s).isInfix
  · rintro ⟨a, b, hab⟩
    refine ⟨a.length, ?_, ?_⟩
    · rw [List.mem_range, ← hab]
      simp only [List.length_append]
      omega
    · rw [decide_eq_true_eq, ← hab, List.append_assoc, List.drop_left, List.take_left]

/-- What `contains` computes: an exact, byte by byte, substring test. -/
theorem contains_eq_true_iff (s substr : List Nat) :
    contains s substr = true ↔ substr <:+: s := by
  unfold contains
  constructor
  · intro h
    simp only [Bool.and_eq_true, Bool.or_eq_true, decide_eq_true_eq] at h
    obtain ⟨_, h⟩ := h
    rcases h with ((h | h) | h) | h
    · exact h ▸ List.infix_refl s
    · rw [← h]
      exact (List.take_prefix _ _).isInfix
    · rw [← h]
      exact (List.drop_suffix _ _).isInfix
    · exact (findInString_eq_true_iff s substr).1 h
  · intro h
    simp only [Bool.and_eq_true, Bool.or_eq_true, decide_eq_true_eq]
    exact ⟨h.length_le, Or.inr ((findInString_eq_true_iff s substr).2 h)⟩

/-- C25, the code at the failing input: `contains("Shanghai", "shanghai")`
is false although the two strings differ in letter case only, while the same
spelling is found.  For all strings `contains` is true exactly when `substr`
occurs in `s` byte for byte, so letter case is never ignored. -/
theorem C25_contains_is_case_sensitive :
    contains (asciiBytes "Shanghai") (asciiBytes "shanghai") = false ∧
    contains (asciiBytes "Shanghai") (asciiBytes "Shanghai") = true ∧
    contains (asciiBytes "Shanghai") (asciiBytes "hang") = true ∧
    contains (asciiBytes "Shanghai") (asciiBytes "HANG") = false ∧
    ∀ s substr : List Nat, contains s substr = true ↔ substr <:+: s :=
  ⟨by decide, by decide, by decide, by decide, contains_eq_true_iff⟩

/-! ## Roster (C26) -/

theorem mem_numbers_dedupDrivers (openF1Drivers : List OpenF1Driver) (seen : List Int)
    (o : OpenF1Driver) (ho : o ∈ openF1Drivers) (hfresh : o.DriverNumber ∉ seen) :
    o.DriverNumber ∈ (dedupDrivers seen openF1Drivers).map (·.Number) := by
  induction openF1Drivers generalizing seen with
  | nil => simp at ho
  | cons x rest ih =>
    unfold dedupDrivers
    rw [List.mem_cons] at ho
    split_ifs with hseen
    · rcases ho with ho | ho
      · exact absurd (ho ▸ hseen) hfresh
      · exact ih seen ho hfresh
    · rw [List.map_cons, List.mem_cons]
      by_cases hx : o.DriverNumber = x.DriverNumber
      · exact Or.inl hx
      · rcases ho with ho | ho
        · exact absurd (congrArg OpenF1Driver.DriverNumber ho) hx
        · refine Or.inr (ih (x.DriverNumber :: seen) ho ?_)
          intro hmem
          rw [List.mem_cons] at hmem
          rcases hmem with h | h
          · exact hx h
          · exact hfresh h

/-- Each returned driver is built from the first record with its number. -/
theorem first_occurrence_dedupDrivers (openF1Drivers : List OpenF1Driver) (seen : List Int)
    (d : Driver) (hd : d ∈ dedupDrivers seen openF1Drivers) :
    ∃ o, openF1Drivers.find? (fun o => decide (o.DriverNumber = d.Number)) = some o ∧
      d = { ID := o.DriverNumber, Name := o.FullName, Number := o.DriverNumber,
            Team := o.TeamName, Country := o.CountryCode, Points := 0, Wins := 0,
            Podiums := 0, Championships := 0 } := by
  induction openF1Drivers generalizing seen with
  | nil => simp [dedupDrivers] at hd
  | cons x rest ih =>
    have hfresh := (dedupDrivers_nodup (x :: rest) seen).2 d hd
    unfold dedupDrivers at hd
    split_ifs at hd with hseen
    · obtain ⟨o, ho, hdo⟩ := ih seen hd
      refine ⟨o, ?_, hdo⟩
      have hne : ¬ x.DriverNumber = d.Number := fun h => hfresh (h ▸ hseen)
      simp [List.find?_cons, hne, ho]
    · rw [List.mem_cons] at hd
      rcases hd with hd | hd
      · refine ⟨x, ?_, hd⟩
        rw [hd]
        simp [List.find?_cons]
      · have hnot := (dedupDrivers_nodup rest (x.DriverNumber :: seen)).2 d hd
        obtain ⟨o, ho, hdo⟩ := ih (x.DriverNumber :: seen) hd
        refine ⟨o, ?_, hdo⟩
        have hne : ¬ x.DriverNumber = d.Number := fun h => hnot (h ▸ List.mem_cons_self _ _)
        simp [List.find?_cons, hne, ho]

/-- The returned numbers stand in the order of their first occurrences. -/
theorem order_dedupDrivers (openF1Drivers : List OpenF1Driver) (seen : List Int) :
    ((dedupDrivers seen openF1Drivers).map (·.Number)).Pairwise (fun a b =>
      (openF1Drivers.map (·.DriverNumber)).indexOf a <
        (openF1Drivers.map (·.DriverNumber)).indexOf b) := by
  induction openF1Drivers generalizing seen with
  | nil => simp [dedupDrivers]
  | cons x rest ih =>
    unfold dedupDrivers
    split_ifs with hseen
    · have hfresh := (dedupDrivers_nodup rest seen).2
      refine (ih seen).imp_of_mem ?_
      intro a b ha hb hlt
      obtain ⟨da, hda, hna⟩ := List.mem_map.1 ha
      obtain ⟨db, hdb, hnb⟩ := List.mem_map.1 hb
      have hane : x.DriverNumber ≠ a := fun h => hfresh da hda (hna ▸ h ▸ hseen)
      have hbne : x.DriverNumber ≠ b := fun h => hfresh db hdb (hnb ▸ h ▸ hseen)
      rw [List.map_cons, List.indexOf_cons_ne _ hane, List.indexOf_cons_ne _ hbne]
      omega
    · have hfresh := (dedupDrivers_nodup rest (x.DriverNumber :: seen)).2
      simp only [List.map_cons]
      rw [List.pairwise_cons]
      refine ⟨?_, ?_⟩
      · intro b hb
        obtain ⟨db, hdb, hnb⟩ := List.mem_map.1 hb
        have hbne : x.DriverNumber ≠ b :=
          fun h => hfresh db hdb (hnb ▸ h ▸ List.mem_cons_self _ _)
        rw [List.indexOf_cons_self, List.indexOf_cons_ne _ hbne]
        omega
      · refine (ih (x.DriverNumber :: seen)).imp_of_mem ?_
        intro a b ha hb hlt
        obtain ⟨da, hda, hna⟩ := List.mem_map.1 ha
        obtain ⟨db, hdb, hnb⟩ := List.mem_map.1 hb
        have hane : x.DriverNumber ≠ a :=
          fun h => hfresh da hda (hna ▸ h ▸ List.mem_cons_self _ _)
        have hbne : x.DriverNumber ≠ b :=
          fun h => hfresh db hdb (hnb ▸ h ▸ List.mem_cons_self _ _)
        rw [List.indexOf_cons_ne _ hane, List.indexOf_cons_ne _ hbne]
        omega

/-- C26: for every decoded driver list `GetDrivers` returns a roster with
pairwise distinct numbers that holds every number of the input; each returned
driver is built from the first input record with its number (ID and Number
from the driver number, Name from the full name, Team, Country) with Points,
Wins, Podiums and Championships set to 0; and the returned numbers stand in
the order of their first occurrences in the input. -/
theorem C26_roster_deduplicated (openF1Drivers : List OpenF1Driver) :
    ∃ roster, GetDrivers (.ok openF1Drivers) = .ok roster ∧
      (roster.map (·.Number)).Nodup ∧
      (∀ o ∈ openF1Drivers, o.DriverNumber ∈ roster.map (·.Number)) ∧
      (∀ d ∈ roster, ∃ o,
        openF1Drivers.find? (fun o => decide (o.DriverNumber = d.Number)) = some o ∧
        d = { ID := o.DriverNumber, Name := o.FullName, Number := o.DriverNumber,
              Team := o.TeamName, Country := o.CountryCode, Points := 0, Wins := 0,
              Podiums := 0, Championships := 0 }) ∧
      (roster.map (·.Number)).Pairwise (fun a b =>
        (openF1Drivers.map (·.DriverNumber)).indexOf a <
          (openF1Drivers.map (·.DriverNumber)).indexOf b) :=
  ⟨dedupDrivers [] openF1Drivers, rfl, (dedupDrivers_nodup openF1Drivers []).1,
    fun o ho => mem_numbers_dedupDrivers openF1Drivers [] o ho (List.not_mem_nil _),
    fun d hd => first_occurrence_dedupDrivers openF1Drivers [] d hd,
    order_dedupDrivers openF1Drivers []⟩

/-- Instance of C26: the roster of the example data source, whose response
lists driver 16 twice, holds the numbers 16, 31, 81, 4. -/
theorem C26_roster_deduplicated_witness :
    ∃ roster, GetDrivers exampleSource.drivers = .ok roster ∧
      roster.map (·.Number) = [16, 31, 81, 4] ∧ (roster.map (·.Number)).Nodup := by
  obtain ⟨roster, h1, h2, _⟩ := C26_roster_deduplicated
    [⟨16, "C LECLERC", "Charles LECLERC", "LEC", "Ferrari", "E80020", "Charles", "Leclerc", "",
        "MON"⟩,
      ⟨31, "E OCON", "Esteban OCON", "OCO", "Haas F1 Team", "B6BABD", "Esteban", "Ocon", "",
        "FRA"⟩,
      ⟨16, "C LECLERC", "Charles LECLERC", "LEC", "Ferrari", "E80020", "Charles", "Leclerc", "",
        "MON"⟩,
      ⟨81, "O PIASTRI", "Oscar PIASTRI", "PIA", "McLaren", "FF8000", "Oscar", "Piastri", "",
        "AUS"⟩,
      ⟨4, "L NORRIS", "Lando NORRIS", "NOR", "McLaren", "FF8000", "Lando", "Norris", "", "GBR"⟩]
  have h3 : roster.map (·.Number) = [16, 31, 81, 4] := by
    have h4 := Except.ok.inj h1
    rw [← h4]
    decide
  exact ⟨roster, h1, h3, h2⟩

/-! ## One standings entry per roster driver (C27) -/

theorem mapGet_foldl_seed_of_not_mem {ν : Type} (val : Driver → ν) (drivers : List Driver)
    (m : List (Int × ν)) (k : Int) (hk : k ∉ drivers.map (·.Number)) :
    mapGet (drivers.foldl (fun m driver => mapSet m driver.Number (val driver)) m) k =
      mapGet m k := by
  induction drivers generalizing m with
  | nil => rfl
  | cons d rest ih =>
    rw [List.map_cons, List.mem_cons, not_or] at hk
    rw [List.foldl_cons, ih _ hk.2, mapGet_mapSet_ne _ _ hk.1]

/-- A map seeded from drivers with pairwise distinct numbers holds under each
number the value of that driver. -/
theorem mapGet_foldl_seed {ν : Type} (val : Driver → ν) (drivers : List Driver)
    (m : List (Int × ν)) (hnodup : (drivers.map (·.Number)).Nodup) (d : Driver)
    (hd : d ∈ drivers) :
    mapGet (drivers.foldl (fun m driver => mapSet m driver.Number (val driver)) m) d.Number =
      some (val d) := by
  induction drivers generalizing m with
  | nil => simp at hd
  | cons x rest ih =>
    rw [List.map_cons, List.nodup_cons] at hnodup
    rw [List.foldl_cons]
    rw [List.mem_cons] at hd
    rcases hd with hd | hd
    · subst hd
      rw [mapGet_foldl_seed_of_not_mem val rest _ _ hnodup.1, mapGet_mapSet_self]
    · exact ih _ hnodup.2 hd

theorem driverEntries_names (driverNames driverTeams : List (Int × String))
    (visited : List (Int × StandingData))
    (h : ∀ kv ∈ visited, kv.1 ∈ driverNames.map Prod.fst) :
    (driverEntries driverNames driverTeams visited).map (fun e => (e.Driver, e.Team)) =
      visited.map (fun kv =>
        ((mapGet driverNames kv.1).getD "", (mapGet driverTeams kv.1).getD "")) := by
  unfold driverEntries
  induction visited with
  | nil => rfl
  | cons kv rest ih =>
    have hkey := h kv (List.mem_cons_self _ _)
    cases hname : mapGet driverNames kv.1 with
    | none => exact absurd hkey ((mapGet_eq_none_iff _ _).1 hname)
    | some driverName =>
      rw [List.filterMap_cons, hname]
      simp only [List.map_cons, Option.getD_some]
      rw [ih (fun kv' hkv' => h kv' (List.mem_cons_of_mem _ hkv')), hname]
      rfl

theorem numbers_toFinset_dedupDrivers (openF1Drivers : List OpenF1Driver) :
    ((dedupDrivers [] openF1Drivers).map (·.Number)).toFinset =
      (openF1Drivers.map (·.DriverNumber)).toFinset := by
  ext a
  simp only [List.mem_toFinset]
  constructor
  · intro ha
    obtain ⟨d, hd, hnum⟩ := List.mem_map.1 ha
    obtain ⟨o, ho, hdo⟩ := first_occurrence_dedupDrivers openF1Drivers [] d hd
    have hmem := List.mem_of_find?_eq_some ho
    have hdn : d.Number = o.DriverNumber := by rw [hdo]
    exact List.mem_map.2 ⟨o, hmem, by rw [← hdn, hnum]⟩
  · intro ha
    obtain ⟨o, ho, hnum⟩ := List.mem_map.1 ha
    have h := mem_numbers_dedupDrivers openF1Drivers [] o ho (List.not_mem_nil _)
    simpa [hnum] using h

/-- C27: whatever the sessions and results, when the session and roster
requests succeed the driver standings hold exactly one entry for each driver
of the roster.  Their length is the number of distinct driver numbers of the
roster response, their (name, team) pairs are those of the roster drivers, and
the ranking step only reorders: the sort returns a permutation of its input,
and the ranked list has the same (name, team, points, wins) as the list
before it, Position and Gap being the fields it fills in. -/
theorem C27_one_entry_per_roster_driver (dsq : List (Int × List Int))
    (adj : List (Int × List (Int × Int))) (src : DataSource) (ord : RangeOrder)
    (sessions : List OpenF1Session) (openF1Drivers : List OpenF1Driver)
    (hord : ∀ m, (ord.driverPoints m).Perm m)
    (hsessions : GetAllRaceAndSprintSessions src = .ok sessions)
    (hdrivers : src.drivers = .ok openF1Drivers) :
    ∃ ranked, GetCurrentDriverStandings dsq adj src ord = .ok ranked ∧
      ranked.length = (openF1Drivers.map (·.DriverNumber)).toFinset.card ∧
      ranked.length = (dedupDrivers [] openF1Drivers).length ∧
      (ranked.map (fun e => (e.Driver, e.Team))).Perm
        ((dedupDrivers [] openF1Drivers).map (fun d => (d.Name, d.Team))) ∧
      (∀ standings : List StandingEntry, (sortStandings standings).Perm standings ∧
        ((rankStandings standings).map entryData).Perm (standings.map entryData)) := by
  have hnodup := (dedupDrivers_nodup openF1Drivers []).1
  have hkeysP : (accumulate dsq adj src ord (dedupDrivers [] openF1Drivers) sessions).map
      Prod.fst = (dedupDrivers [] openF1Drivers).map (·.Number) := by
    rw [keys_accumulate]
    unfold initDriverPoints
    rw [keys_foldl_seed (fun _ => ({ Points := 0, Wins := 0 } : StandingData)) _ []
      (by simpa using hnodup)]
    simp
  have hkeysN : (initDriverNames (dedupDrivers [] openF1Drivers)).map Prod.fst =
      (dedupDrivers [] openF1Drivers).map (·.Number) := by
    unfold initDriverNames
    rw [keys_foldl_seed (fun d => d.Name) _ [] (by simpa using hnodup)]
    simp
  have hvisited : ∀ kv ∈ ord.driverPoints
      (accumulate dsq adj src ord (dedupDrivers [] openF1Drivers) sessions),
      kv.1 ∈ (initDriverNames (dedupDrivers [] openF1Drivers)).map Prod.fst := by
    intro kv hkv
    rw [hkeysN, ← hkeysP]
    exact List.mem_map.2 ⟨kv, (hord _).mem_iff.1 hkv, rfl⟩
  have hlen : (rankStandings (driverEntries (initDriverNames (dedupDrivers [] openF1Drivers))
      (initDriverTeams (dedupDrivers [] openF1Drivers))
      (ord.driverPoints (accumulate dsq adj src ord (dedupDrivers [] openF1Drivers)
        sessions)))).length = (dedupDrivers [] openF1Drivers).length := by
    rw [length_rankStandings, length_driverEntries _ _ _ hvisited, (hord _).length_eq,
      ← List.length_map (accumulate dsq adj src ord (dedupDrivers [] openF1Drivers) sessions)
        Prod.fst, hkeysP, List.length_map]
  refine ⟨rankStandings (driverEntries (initDriverNames (dedupDrivers [] openF1Drivers))
      (initDriverTeams (dedupDrivers [] openF1Drivers))
      (ord.driverPoints (accumulate dsq adj src ord (dedupDrivers [] openF1Drivers)
        sessions))), ?_, ?_, hlen, ?_, ?_⟩
  · unfold GetCurrentDriverStandings GetDrivers
    rw [hsessions, hdrivers]
  · rw [hlen, ← numbers_toFinset_dedupDrivers, List.toFinset_card_of_nodup hnodup,
      List.length_map]
  · have h1 := (rankStandings_entryData (driverEntries
      (initDriverNames (dedupDrivers [] openF1Drivers))
      (initDriverTeams (dedupDrivers [] openF1Drivers))
      (ord.driverPoints (accumulate dsq adj src ord (dedupDrivers [] openF1Drivers)
        sessions)))).map (fun t => (t.1, t.2.1))
    rw [List.map_map, List.map_map] at h1
    have h2 : ((fun t : String × String × Int × Int => (t.1, t.2.1)) ∘ entryData) =
        (fun e : StandingEntry => (e.Driver, e.Team)) := rfl
    rw [h2, driverEntries_names _ _ _ hvisited] at h1
    refine h1.trans ?_
    refine ((hord _).map _).trans ?_
    have h3 : (accumulate dsq adj src ord (dedupDrivers [] openF1Drivers) sessions).map
        (fun kv => ((mapGet (initDriverNames (dedupDrivers [] openF1Drivers)) kv.1).getD "",
          (mapGet (initDriverTeams (dedupDrivers [] openF1Drivers)) kv.1).getD "")) =
        ((accumulate dsq adj src ord (dedupDrivers [] openF1Drivers) sessions).map
          Prod.fst).map (fun k =>
            ((mapGet (initDriverNames (dedupDrivers [] openF1Drivers)) k).getD "",
              (mapGet (initDriverTeams (dedupDrivers [] openF1Drivers)) k).getD "")) := by
      rw [List.map_map]
      rfl
    rw [h3, hkeysP, List.map_map]
    apply List.Perm.of_eq
    apply List.map_congr_left
    intro d hd
    simp only [Function.comp]
    unfold initDriverNames initDriverTeams
    rw [mapGet_foldl_seed (fun d => d.Name) _ [] hnodup d hd,
      mapGet_foldl_seed (fun d => d.Team) _ [] hnodup d hd]
    rfl
  · intro standings
    exact ⟨sortStandings_perm standings, rankStandings_entryData standings⟩

/-- Instance of C27 on the example data source: four entries for the four
distinct numbers of the roster response. -/
theorem C27_one_entry_per_roster_driver_witness :
    ∃ ranked, GetCurrentDriverStandings DisqualifiedDrivers PositionAdjustments exampleSource
        insertionOrder = .ok ranked ∧ ranked.length = 4 := by
  obtain ⟨ranked, h1, _, h3, _⟩ := C27_one_entry_per_roster_driver DisqualifiedDrivers
    PositionAdjustments exampleSource insertionOrder _ _ (fun m => List.Perm.refl m) rfl rfl
  exact ⟨ranked, h1, h3.trans (by decide)⟩

/-! ## Points command and standings (C28) -/

theorem resultPoints_nonneg (adj : List (Int × List (Int × Int))) (session : OpenF1Session)
    (result : OpenF1Position) : 0 ≤ resultPoints adj session result := by
  unfold resultPoints
  cases hget : mapGet (selectPointsSystem session)
      (finalPosition adj session.SessionKey result) with
  | none => simp
  | some v =>
    have hmem := mem_of_mapGet hget
    have hall : ∀ e ∈ selectPointsSystem session, 0 ≤ e.2 := by
      unfold selectPointsSystem
      split_ifs
      · decide
      · decide
    exact hall _ hmem

/-- The totals after the body run for the driver's own result. -/
theorem scoreOwnResult_totals (dsq : List (Int × List Int))
    (adj : List (Int × List (Int × Int))) (session : OpenF1Session) (totals : PointsTotals)
    (result : OpenF1Position) :
    (scoreOwnResult dsq adj session totals result).totalPoints = totals.totalPoints +
        (if isDisqualified dsq session.SessionKey result.DriverNumber = true then 0
         else resultPoints adj session result) ∧
    (scoreOwnResult dsq adj session totals result).totalWins = totals.totalWins +
        (if isDisqualified dsq session.SessionKey result.DriverNumber = true then 0
         else resultWins adj session result) := by
  have hnonneg := resultPoints_nonneg adj session result
  unfold scoreOwnResult
  unfold resultPoints at hnonneg
  unfold resultPoints resultWins
  cases hdsq : isDisqualified dsq session.SessionKey result.DriverNumber with
  | true => simp
  | false =>
    simp only [Bool.false_eq_true, if_false]
    constructor
    · split_ifs <;> simp <;> omega
    · split_ifs <;> simp

theorem filter_eq_find?_toList {α : Type} (f : α → Int) (d : Int) (l : List α)
    (hnodup : (l.map f).Nodup) :
    l.filter (fun x => decide (f x = d)) =
      (l.find? (fun x => decide (f x = d))).toList := by
  induction l with
  | nil => rfl
  | cons x rest ih =>
    rw [List.map_cons, List.nodup_cons] at hnodup
    by_cases hx : f x = d
    · have hnil : rest.filter (fun y => decide (f y = d)) = [] := by
        rw [List.filter_eq_nil_iff]
        intro y hy
        simp only [decide_eq_true_eq]
        intro hyd
        exact hnodup.1 (List.mem_map.2 ⟨y, hy, by rw [hyd, hx]⟩)
      simp [List.filter_cons, List.find?_cons, hx, hnil]
    · simp [List.filter_cons, List.find?_cons, hx, ih hnodup.2]

/-- The resolved results hold each driver number once. -/
theorem nodup_numbers_results
    (order : List (Int × OpenF1Position) → List (Int × OpenF1Position))
    (horder : ∀ m, (order m).Perm m) (positions : List OpenF1Position) :
    (((order (resolveFinalPositions positions)).map Prod.snd).map (·.DriverNumber)).Nodup :=
  (driverNumbers_results order horder positions).nodup_iff.2
    (resolveFinalPositions_invariant positions).1

/-- With one result per driver, the gain of the results for a driver is the
gain of the first result of that driver. -/
theorem sessionGain_eq_first (dsq : List (Int × List Int)) (adj : List (Int × List (Int × Int)))
    (session : OpenF1Session) (results : List OpenF1Position) (driver : Int)
    (hnodup : (results.map (·.DriverNumber)).Nodup) :
    sessionGain dsq adj session results driver =
      match results.find? (fun result => decide (result.DriverNumber = driver)) with
      | some result =>
        if isDisqualified dsq session.SessionKey result.DriverNumber = true then (0, 0)
        else (resultPoints adj session result, resultWins adj session result)
      | none => (0, 0) := by
  have hfilter : results.filter (countsFor dsq session driver) =
      (results.filter (fun r => decide (r.DriverNumber = driver))).filter
        (fun r => !isDisqualified dsq session.SessionKey r.DriverNumber) := by
    rw [List.filter_filter]
    apply List.filter_congr
    intro r _
    unfold countsFor
    exact Bool.and_comm _ _
  unfold sessionGain
  rw [hfilter, filter_eq_find?_toList (fun r : OpenF1Position => r.DriverNumber) driver results
    hnodup]
  cases results.find? (fun result => decide (result.DriverNumber = driver)) with
  | none => rfl
  | some r =>
    cases hdsq : isDisqualified dsq session.SessionKey r.DriverNumber <;>
      simp [List.filter_cons, hdsq]

/-- One iteration of the loop of `Points` adds the gain of the iteration. -/
theorem pointsSession_totals (dsq : List (Int × List Int))
    (adj : List (Int × List (Int × Int))) (src : DataSource)
    (order : List (Int × OpenF1Position) → List (Int × OpenF1Position))
    (horder : ∀ m, (order m).Perm m) (driver : Int) (now : Int) (totals : PointsTotals)
    (session : OpenF1Session) :
    (pointsSession dsq adj src order driver now totals session).totalPoints =
        totals.totalPoints + (iterationGain dsq adj src order driver (now, session)).1 ∧
    (pointsSession dsq adj src order driver now totals session).totalWins =
        totals.totalWins + (iterationGain dsq adj src order driver (now, session)).2 := by
  unfold pointsSession iterationGain
  simp only
  split_ifs
  · simp
  · cases hresp : src.positions session.SessionKey with
    | error e => simp [GetSessionResults]
    | ok positions =>
      simp only [GetSessionResults]
      rw [sessionGain_eq_first dsq adj session _ driver
        (nodup_numbers_results order horder positions)]
      cases ((order (resolveFinalPositions positions)).map Prod.snd).find?
          (fun result => decide (result.DriverNumber = driver)) with
      | none => simp
      | some r =>
        simp only
        have h := scoreOwnResult_totals dsq adj session totals r
        split_ifs at h ⊢ <;> exact h

theorem pointsLoop_totals (dsq : List (Int × List Int)) (adj : List (Int × List (Int × Int)))
    (src : DataSource) (order : List (Int × OpenF1Position) → List (Int × OpenF1Position))
    (horder : ∀ m, (order m).Perm m) (driver : Int) (timed : List (Int × OpenF1Session))
    (totals : PointsTotals) :
    (timed.foldl (fun totals reading =>
        pointsSession dsq adj src order driver reading.1 totals reading.2) totals).totalPoints =
        totals.totalPoints +
          ((timed.map (iterationGain dsq adj src order driver)).map Prod.fst).sum ∧
    (timed.foldl (fun totals reading =>
        pointsSession dsq adj src order driver reading.1 totals reading.2) totals).totalWins =
        totals.totalWins +
          ((timed.map (iterationGain dsq adj src order driver)).map Prod.snd).sum := by
  induction timed generalizing totals with
  | nil => simp
  | cons reading rest ih =>
    obtain ⟨now, session⟩ := reading
    obtain ⟨h1, h2⟩ := pointsSession_totals dsq adj src order horder driver now totals session
    obtain ⟨h3, h4⟩ := ih (pointsSession dsq adj src order driver now totals session)
    rw [List.foldl_cons, h3, h4, h1, h2]
    simp only [List.map_cons, List.sum_cons]
    constructor <;> omega

/-- The gain of an iteration does not depend on the order in which the map of
final positions is ranged over. -/
theorem iterationGain_order (dsq : List (Int × List Int)) (adj : List (Int × List (Int × Int)))
    (src : DataSource) (order1 order2 : List (Int × OpenF1Position) → List (Int × OpenF1Position))
    (h1 : ∀ m, (order1 m).Perm m) (h2 : ∀ m, (order2 m).Perm m) (driver : Int)
    (reading : Int × OpenF1Session) :
    iterationGain dsq adj src order1 driver reading =
      iterationGain dsq adj src order2 driver reading := by
  unfold iterationGain
  split_ifs
  · rfl
  · cases hresp : src.positions reading.2.SessionKey with
    | error e => rfl
    | ok positions =>
      simp only [GetSessionResults]
      have hperm : ((order1 (resolveFinalPositions positions)).map Prod.snd).Perm
          ((order2 (resolveFinalPositions positions)).map Prod.snd) :=
        ((h1 _).trans (h2 _).symm).map Prod.snd
      unfold sessionGain
      have hf := hperm.filter (countsFor dsq reading.2 driver)
      rw [(hf.map (resultPoints adj reading.2)).sum_eq,
        (hf.map (resultWins adj reading.2)).sum_eq]

/-- C28: for every driver of the roster and every data source, the totals
that the loop of the points command computes for the driver's number are the
points and wins that the session loop of the standings accumulates under that
number, and the driver standings hold an entry with the driver's roster name
and team and exactly these points and wins.  The two commands may range over
the map of final positions in different orders. -/
theorem C28_points_command_agrees (dsq : List (Int × List Int))
    (adj : List (Int × List (Int × Int))) (src : DataSource) (ord : RangeOrder)
    (order : List (Int × OpenF1Position) → List (Int × OpenF1Position))
    (sessions : List OpenF1Session) (openF1Drivers : List OpenF1Driver) (driver : Driver)
    (hfinal : ∀ m, (ord.finalPositions m).Perm m) (hpoints : ∀ m, (ord.driverPoints m).Perm m)
    (horder : ∀ m, (order m).Perm m)
    (hsessions : GetAllRaceAndSprintSessions src = .ok sessions)
    (hdrivers : src.drivers = .ok openF1Drivers)
    (hdriver : driver ∈ dedupDrivers [] openF1Drivers) :
    mapGet (accumulate dsq adj src ord (dedupDrivers [] openF1Drivers) sessions) driver.Number =
      some ⟨(pointsLoop dsq adj src order driver.Number sessions).totalPoints,
        (pointsLoop dsq adj src order driver.Number sessions).totalWins⟩ ∧
    ∃ ranked, GetCurrentDriverStandings dsq adj src ord = .ok ranked ∧
      ∃ entry ∈ ranked, entry.Driver = driver.Name ∧ entry.Team = driver.Team ∧
        entry.Points = (pointsLoop dsq adj src order driver.Number sessions).totalPoints ∧
        entry.Wins = (pointsLoop dsq adj src order driver.Number sessions).totalWins := by
  have hnodup := (dedupDrivers_nodup openF1Drivers []).1
  have hgain : (fun session => iterationGain dsq adj src ord.finalPositions driver.Number
      session) = (fun session => iterationGain dsq adj src order driver.Number session) := by
    funext session
    exact iterationGain_order dsq adj src _ _ hfinal horder driver.Number session
  have hacc : mapGet (accumulate dsq adj src ord (dedupDrivers [] openF1Drivers) sessions)
      driver.Number = some ⟨(pointsLoop dsq adj src order driver.Number sessions).totalPoints,
        (pointsLoop dsq adj src order driver.Number sessions).totalWins⟩ := by
    obtain ⟨h1, h2⟩ := pointsLoop_totals dsq adj src order horder driver.Number
      (readings src.now 0 sessions) ⟨[], 0, 0⟩
    unfold pointsLoop
    rw [h1, h2]
    unfold accumulate
    rw [mapGet_sessionLoop]
    unfold initDriverPoints
    rw [mapGet_foldl_seed (fun _ => ({ Points := 0, Wins := 0 } : StandingData)) _ [] hnodup
      driver hdriver]
    have hgain' : iterationGain dsq adj src ord.finalPositions driver.Number =
        iterationGain dsq adj src order driver.Number := hgain
    rw [hgain']
    simp [addGain]
  refine ⟨hacc, rankStandings (driverEntries (initDriverNames (dedupDrivers [] openF1Drivers))
      (initDriverTeams (dedupDrivers [] openF1Drivers))
      (ord.driverPoints (accumulate dsq adj src ord (dedupDrivers [] openF1Drivers)
        sessions))), ?_, ?_⟩
  · unfold GetCurrentDriverStandings GetDrivers
    rw [hsessions, hdrivers]
  · have hkv := (hpoints _).mem_iff.2 (mem_of_mapGet hacc)
    have hname : mapGet (initDriverNames (dedupDrivers [] openF1Drivers)) driver.Number =
        some driver.Name := by
      unfold initDriverNames
      exact mapGet_foldl_seed (fun d => d.Name) _ [] hnodup driver hdriver
    have hteam : mapGet (initDriverTeams (dedupDrivers [] openF1Drivers)) driver.Number =
        some driver.Team := by
      unfold initDriverTeams
      exact mapGet_foldl_seed (fun d => d.Team) _ [] hnodup driver hdriver
    have he0 : (⟨0, driver.Name, driver.Team,
        (pointsLoop dsq adj src order driver.Number sessions).totalPoints,
        (pointsLoop dsq adj src order driver.Number sessions).totalWins, ""⟩ : StandingEntry) ∈
        driverEntries (initDriverNames (dedupDrivers [] openF1Drivers))
          (initDriverTeams (dedupDrivers [] openF1Drivers))
          (ord.driverPoints (accumulate dsq adj src ord (dedupDrivers [] openF1Drivers)
            sessions)) := by
      unfold driverEntries
      rw [List.mem_filterMap]
      refine ⟨_, hkv, ?_⟩
      simp only [hname, hteam, Option.getD_some]
    have hdata := List.mem_map_of_mem entryData he0
    rw [← (rankStandings_entryData _).mem_iff] at hdata
    obtain ⟨entry, hentry, heq⟩ := List.mem_map.1 hdata
    refine ⟨entry, hentry, ?_, ?_, ?_, ?_⟩
    · exact congrArg (fun d => d.1) heq
    · exact congrArg (fun d => d.2.1) heq
    · exact congrArg (fun d => d.2.2.1) heq
    · exact congrArg (fun d => d.2.2.2) heq

/-- Instance of C28 on the example data source: for Oscar Piastri, number
81, the loop of the points command gives 32 points and 1 win, and so does the
accumulated map of the standings. -/
theorem C28_points_command_agrees_witness :
    (pointsLoop DisqualifiedDrivers PositionAdjustments exampleSource id 81
        [⟨9998, "Race", 10, "Race", "Shanghai"⟩, ⟨7777, "Race", 900, "Race", "Monza"⟩,
          ⟨10028, "Sprint", 20, "Race", "Miami"⟩]).totalPoints = 32 ∧
    (pointsLoop DisqualifiedDrivers PositionAdjustments exampleSource id 81
        [⟨9998, "Race", 10, "Race", "Shanghai"⟩, ⟨7777, "Race", 900, "Race", "Monza"⟩,
          ⟨10028, "Sprint", 20, "Race", "Miami"⟩]).totalWins = 1 ∧
    mapGet (accumulate DisqualifiedDrivers PositionAdjustments exampleSource insertionOrder
        (dedupDrivers [] [⟨16, "C LECLERC", "Charles LECLERC", "LEC", "Ferrari", "E80020",
            "Charles", "Leclerc", "", "MON"⟩,
          ⟨31, "E OCON", "Esteban OCON", "OCO", "Haas F1 Team", "B6BABD", "Esteban", "Ocon", "",
            "FRA"⟩,
          ⟨16, "C LECLERC", "Charles LECLERC", "LEC", "Ferrari", "E80020", "Charles", "Leclerc",
            "", "MON"⟩,
          ⟨81, "O PIASTRI", "Oscar PIASTRI", "PIA", "McLaren", "FF8000", "Oscar", "Piastri", "",
            "AUS"⟩,
          ⟨4, "L NORRIS", "Lando NORRIS", "NOR", "McLaren", "FF8000", "Lando", "Norris", "",
            "GBR"⟩])
        [⟨9998, "Race", 10, "Race", "Shanghai"⟩, ⟨7777, "Race", 900, "Race", "Monza"⟩,
          ⟨10028, "Sprint", 20, "Race", "Miami"⟩]) 81 =
      some ⟨(pointsLoop DisqualifiedDrivers PositionAdjustments exampleSource id 81
          [⟨9998, "Race", 10, "Race", "Shanghai"⟩, ⟨7777, "Race", 900, "Race", "Monza"⟩,
            ⟨10028, "Sprint", 20, "Race", "Miami"⟩]).totalPoints,
        (pointsLoop DisqualifiedDrivers PositionAdjustments exampleSource id 81
          [⟨9998, "Race", 10, "Race", "Shanghai"⟩, ⟨7777, "Race", 900, "Race", "Monza"⟩,
            ⟨10028, "Sprint", 20, "Race", "Miami"⟩]).totalWins⟩ :=
  ⟨by decide, by decide,
   (C28_points_command_agrees DisqualifiedDrivers PositionAdjustments exampleSource
      insertionOrder id _ _ ⟨81, "Oscar PIASTRI", 81, "McLaren", "AUS", 0, 0, 0, 0⟩
      (fun m => List.Perm.refl m) (fun m => List.Perm.refl m) (fun m => List.Perm.refl m)
      rfl rfl (by decide)).1⟩

end F1
